import Mathlib

/-!
# DGL: a shallow embedding of the blit and fill engine

The definitions below follow `dgl.h` and `dgl-main.cpp` (built without
`DGL_USE_PIXMAN`, i.e. the built-in software paths).

Modelling conventions.

* Memory is a flat, byte-addressed map `Mem`; a pointer is an `Int` address and
  pointer arithmetic is integer arithmetic.  C `int` values are unbounded `Int`
  (signed overflow is undefined in C and does not occur for rectangles inside a
  buffer whose `total_size` is an `int`); `uint32_t` values are `Nat` reduced
  modulo `2^32` where the code can overflow (`value << 16`).
* Multi-byte stores and loads are little-endian, as on the targets of the
  library (x86, ARM Linux framebuffers).
* A `float` argument of `dglConvertColor` is an exact rational, so that
  `floorf(c * 255.5f)` is the integer floor of `c * 511 / 2`.
* `new` returns an address chosen by the allocator; it is a parameter of the
  function that allocates.
* `memcpy` copies byte by byte in ascending address order.
* Objects (`dglFB`, `dglContext`) live in pointer-indexed tables of the machine
  state, so that `read_fb == draw_fb` is pointer equality.  Every buffer object
  is stored with the fields of the most derived class (`dglConsoleFB`); a
  pixmap or image simply does not use the extra fields.
* A function pointer of the dispatch table is a tag naming the function it is
  bound to; the kernel driver behind `ioctl` is a parameter (`FbDevice`).
* `State.dispatched` is a ghost trace of the calls made through the dispatch
  table; it exists only to state how often an entry is invoked.
-/

namespace DGL

/-! ## Memory -/

/-- Byte-addressed memory. -/
abbrev Mem := Int → Nat

/-- Store of one byte. -/
def store8 (m : Mem) (a : Int) (b : Nat) : Mem :=
  fun x => if x = a then b else m x

/-- Store through a `uint16_t *`: the value is truncated to 16 bits. -/
def store16 (m : Mem) (a : Int) (v : Nat) : Mem :=
  store8 (store8 m a (v % 256)) (a + 1) (v / 256 % 256)

/-- Store through a `uint32_t *`: the value is truncated to 32 bits. -/
def store32 (m : Mem) (a : Int) (v : Nat) : Mem :=
  store8 (store8 (store8 (store8 m a (v % 256)) (a + 1) (v / 256 % 256))
    (a + 2) (v / 65536 % 256)) (a + 3) (v / 16777216 % 256)

/-- Load through a `uint16_t *`. -/
def load16 (m : Mem) (a : Int) : Nat :=
  m a + 256 * m (a + 1)

/-- Load through a `uint32_t *`. -/
def load32 (m : Mem) (a : Int) : Nat :=
  m a + 256 * m (a + 1) + 65536 * m (a + 2) + 16777216 * m (a + 3)

/-- The libc `memcpy(dp, sp, n)`, as an ascending-address byte copy. -/
def memcpy (m : Mem) (dp sp : Int) : Nat → Mem
  | 0 => m
  | n + 1 => memcpy (store8 m dp (m sp)) (dp + 1) (sp + 1) n

/-- The call `memcpy(scratch_buffer, sp, n)` into a freshly allocated scratch
array: the contents of the array afterwards. -/
def memcpyToScratch (m : Mem) (sp : Int) (n : Nat) : List Nat :=
  (List.range n).map (fun i : Nat => m (sp + (i : Int)))

/-- The call `memcpy(dp, scratch_buffer, n)` out of the scratch array. -/
def memcpyFromScratch (m : Mem) (dp : Int) : List Nat → Mem
  | [] => m
  | b :: bs => memcpyFromScratch (store8 m dp b) (dp + 1) bs

/-! ## Data model (`dgl.h`) -/

def DGL_FORMAT_LSB_ORDER_BGR_BIT : Nat := 0x0
def DGL_FORMAT_LSB_ORDER_RGB_BIT : Nat := 0x1
def DGL_FORMAT_ALPHA_BIT : Nat := 0x2
def DGL_FORMAT_PIXEL_SIZE_16_BIT : Nat := 0x4
def DGL_FORMAT_XRGB8888 : Nat := DGL_FORMAT_LSB_ORDER_BGR_BIT
def DGL_FORMAT_XBGR8888 : Nat := DGL_FORMAT_LSB_ORDER_RGB_BIT
def DGL_FORMAT_ARGB8888 : Nat := DGL_FORMAT_LSB_ORDER_BGR_BIT ||| DGL_FORMAT_ALPHA_BIT
def DGL_FORMAT_ABGR8888 : Nat := DGL_FORMAT_LSB_ORDER_RGB_BIT ||| DGL_FORMAT_ALPHA_BIT
def DGL_FORMAT_RGB565 : Nat := DGL_FORMAT_LSB_ORDER_BGR_BIT ||| DGL_FORMAT_PIXEL_SIZE_16_BIT
def DGL_FORMAT_BGR565 : Nat := DGL_FORMAT_LSB_ORDER_RGB_BIT ||| DGL_FORMAT_PIXEL_SIZE_16_BIT

def DGL_FB_TYPE_PIXMAP : Nat := 0
def DGL_FB_TYPE_IMAGE : Nat := 1
def DGL_FB_TYPE_CONSOLE : Nat := 2
def DGL_FB_TYPE_MASK : Nat := 0x7
def DGL_FB_FLAG_HAVE_COPY_AREA : Nat := 0x1000
def DGL_FB_FLAG_HAVE_PAN_DISPLAY : Nat := 0x2000
def DGL_FB_FLAG_HAVE_WAIT_VSYNC : Nat := 0x4000

def DGL_MESSAGE_FATAL_ERROR : Int := -4
def DGL_MESSAGE_QUIET : Int := -3
def DGL_MESSAGE_CRITICAL : Int := -2
def DGL_MESSAGE_WARNING : Int := -1
def DGL_MESSAGE_INFO : Int := 0
def DGL_MESSAGE_LOG : Int := 1
def DGL_MESSAGE_VERBOSE_LOG : Int := 2

/-- The macro `DGL_FORMAT_GET_BYTES_PER_PIXEL`. -/
def DGL_FORMAT_GET_BYTES_PER_PIXEL (format : Nat) : Int :=
  4 - (((format &&& DGL_FORMAT_PIXEL_SIZE_16_BIT) >>> 1 : Nat) : Int)

/-- The class `dglPixelBuffer` (also known as `dglFB` and `dglImage`). -/
structure dglPixelBuffer where
  framebuffer_addr : Int
  format : Nat
  flags : Nat
  xres : Int
  yres : Int
  stride : Int
  total_size : Int
  bytes_per_pixel : Int

/-- What a `PanDisplayFunc` pointer is bound to. -/
inductive PanDisplayFuncPtr where
  | dglConsoleFBPanDisplay
  | dglConsoleFBPanDisplayNoOp
deriving DecidableEq, Repr

/-- What a `WaitVSyncFunc` pointer is bound to. -/
inductive WaitVSyncFuncPtr where
  | dglConsoleFBWaitVSync
  | dglConsoleFBWaitVSyncNoOp
deriving DecidableEq, Repr

/-- What a `CopyAreaFunc` pointer is bound to. -/
inductive CopyAreaFuncPtr where
  | dglConsoleFBCopyArea
  | dglConsoleFBCopyAreaNoOp
deriving DecidableEq, Repr

/-- The class `dglScreenFB`. -/
structure dglScreenFB extends dglPixelBuffer where
  virtual_xres : Int
  virtual_yres : Int
  nu_pages : Int
  PanDisplayFunc : PanDisplayFuncPtr
  WaitVSyncFunc : WaitVSyncFuncPtr
  CopyAreaFunc : CopyAreaFuncPtr

/-- The class `dglConsoleFB`. -/
structure dglConsoleFB extends dglScreenFB where
  fd : Int
  graphics_mode_set : Bool

/-- The class `dglContext`; `read_fb` and `draw_fb` are pointers. -/
structure dglContext where
  read_fb : Nat
  draw_fb : Nat
  read_yoffset : Int
  draw_yoffset : Int
deriving DecidableEq, Repr

/-- A call made through an entry of the capability dispatch table. -/
inductive DispatchCall where
  | PanDisplayFunc (fb : Nat) (x y : Int)
  | WaitVSyncFunc (fb : Nat)
  | CopyAreaFunc (fb : Nat) (sx sy dx dy w h : Int)
deriving DecidableEq, Repr

/-- The kernel framebuffer driver: `FBIOCOPYAREA fd sx sy dx dy w h mem` is the
return code of `ioctl(fd, FBIOCOPYAREA, &copyarea)` and the memory it leaves. -/
structure FbDevice where
  FBIOCOPYAREA : Int → Int → Int → Int → Int → Int → Int → Mem → Int × Mem

/-- Machine state. -/
structure State where
  mem : Mem
  fb : Nat → dglConsoleFB
  context : Nat → dglContext
  dgl_internal_debug_message_level : Int
  stdout : List String
  sigabrt_raised : Bool
  dispatched : List DispatchCall

/-! ## General functions -/

/-- The function `dglMessage`; `vprintf` appends the format text (the messages
used here carry no arguments that matter). -/
def dglMessage (s : State) (priority : Int) (format : String) : State :=
  if priority > s.dgl_internal_debug_message_level then s
  else
    let out := s.stdout ++ ["dgl: "]
    let out :=
      if priority = DGL_MESSAGE_WARNING then out ++ ["WARNING: "]
      else if priority = DGL_MESSAGE_CRITICAL then out ++ ["CRITICAL: "]
      else out
    let out := out ++ [format]
    { s with
      stdout := out
      sigabrt_raised :=
        if priority = DGL_MESSAGE_FATAL_ERROR then true else s.sigabrt_raised }

/-! ## Hardware copy (`dgl-consolefb.cpp`) and its dispatch -/

/-- The function `dglConsoleFBCopyArea`. -/
def dglConsoleFBCopyArea (dev : FbDevice) (s : State) (fb : Nat)
    (sx sy dx dy w h : Int) : State :=
  let r := dev.FBIOCOPYAREA (s.fb fb).fd sx sy dx dy w h s.mem
  let s1 := { s with mem := r.2 }
  if r.1 ≠ 0 then
    dglMessage s1 DGL_MESSAGE_WARNING "FBIOCOPYAREA ioctl failed (%d, %d, %d, %d, %d, %d).\n"
  else s1

/-- The function `dglConsoleFBCopyAreaNoOp`. -/
def dglConsoleFBCopyAreaNoOp (s : State) (_fb : Nat) (_sx _sy _dx _dy _w _h : Int) : State :=
  s

/-- The indirect call `fb->CopyAreaFunc(fb, sx, sy, dx, dy, w, h)`. -/
def callCopyAreaFunc (dev : FbDevice) (s : State) (fb : Nat)
    (sx sy dx dy w h : Int) : State :=
  let s1 := { s with dispatched := s.dispatched ++ [DispatchCall.CopyAreaFunc fb sx sy dx dy w h] }
  match (s.fb fb).CopyAreaFunc with
  | CopyAreaFuncPtr.dglConsoleFBCopyArea => dglConsoleFBCopyArea dev s1 fb sx sy dx dy w h
  | CopyAreaFuncPtr.dglConsoleFBCopyAreaNoOp => dglConsoleFBCopyAreaNoOp s1 fb sx sy dx dy w h

/-- The inline overload `dglCopyArea(dglScreenFB *fb, ...)` of `dgl-main.cpp`. -/
def dglCopyAreaScreenFB (dev : FbDevice) (s : State) (fb : Nat)
    (sx sy dx dy w h : Int) : State :=
  if (s.fb fb).flags &&& DGL_FB_FLAG_HAVE_COPY_AREA ≠ 0 then
    callCopyAreaFunc dev s fb sx sy dx dy w h
  else s

/-! ## Generic drawing functions (`dgl-main.cpp`) -/

/-- Address of pixel `(x, y)`:
`fb->framebuffer_addr + y * fb->stride + x * fb->bytes_per_pixel`. -/
def pixelAddr (fb : dglPixelBuffer) (x y : Int) : Int :=
  fb.framebuffer_addr + y * fb.stride + x * fb.bytes_per_pixel

/-- The function `dglPutPixel`. -/
def dglPutPixel (s : State) (context : Nat) (x y : Int) (pixel : Nat) : State :=
  let y := y + (s.context context).draw_yoffset
  let fb := s.fb (s.context context).draw_fb
  let dp := fb.framebuffer_addr + y * fb.stride + x * fb.bytes_per_pixel
  if fb.bytes_per_pixel = 4 then { s with mem := store32 s.mem dp pixel }
  else { s with mem := store16 s.mem dp pixel }

/-- The row loop `while (h > 0) { memcpy(dp, sp, n); sp += sstep; dp += dstep; h--; }`
shared by `dglCopyAreaSimple` (both steps are `stride`) and `dglCopyAreaAcross`
(the steps are the two buffers' strides); the last argument is the number of
iterations. -/
def copyRows (m : Mem) (dp sp dstep sstep : Int) (n : Nat) : Nat → Mem
  | 0 => m
  | h + 1 => copyRows (memcpy m dp sp n) (dp + dstep) (sp + sstep) dstep sstep n h

/-- The row loop of `dglCopyAreaDifficult`, through the scratch buffer. -/
def copyRowsScratch (m : Mem) (dp sp stride : Int) (n : Nat) : Nat → Mem
  | 0 => m
  | h + 1 =>
    copyRowsScratch (memcpyFromScratch m dp (memcpyToScratch m sp n))
      (dp + stride) (sp + stride) stride n h

/-- The function `dglCopyAreaSimple`. -/
def dglCopyAreaSimple (fb : dglPixelBuffer) (m : Mem) (sx sy dx dy w h : Int) : Mem :=
  let sp := fb.framebuffer_addr + sy * fb.stride + sx * fb.bytes_per_pixel
  let dp := fb.framebuffer_addr + dy * fb.stride + dx * fb.bytes_per_pixel
  if w * fb.bytes_per_pixel = fb.stride ∧ (dy < sy ∨ dy ≥ sy + h) then
    memcpy m dp sp (fb.stride * h).toNat
  else if dy > sy then
    copyRows m (dp + (h - 1) * fb.stride) (sp + (h - 1) * fb.stride)
      (-fb.stride) (-fb.stride) (w * fb.bytes_per_pixel).toNat h.toNat
  else
    copyRows m dp sp fb.stride fb.stride (w * fb.bytes_per_pixel).toNat h.toNat

/-- The function `dglCopyAreaDifficult`. -/
def dglCopyAreaDifficult (fb : dglPixelBuffer) (m : Mem) (sx sy dx dy w h : Int) : Mem :=
  let sp := fb.framebuffer_addr + sy * fb.stride + sx * fb.bytes_per_pixel
  let dp := fb.framebuffer_addr + dy * fb.stride + dx * fb.bytes_per_pixel
  if w * fb.bytes_per_pixel = fb.stride ∧ (dy < sy ∨ dy ≥ sy + h) then
    memcpy m dp sp (fb.stride * h).toNat
  else if dy > sy then
    copyRowsScratch m (dp + (h - 1) * fb.stride) (sp + (h - 1) * fb.stride)
      (-fb.stride) (w * fb.bytes_per_pixel).toNat h.toNat
  else
    copyRowsScratch m dp sp fb.stride (w * fb.bytes_per_pixel).toNat h.toNat

/-- The function `dglCopyAreaAcross`. -/
def dglCopyAreaAcross (read_fb draw_fb : dglPixelBuffer) (m : Mem)
    (sx sy dx dy w h : Int) : Mem :=
  let sp := read_fb.framebuffer_addr + sy * read_fb.stride + sx * draw_fb.bytes_per_pixel
  let dp := draw_fb.framebuffer_addr + dy * draw_fb.stride + dx * draw_fb.bytes_per_pixel
  if w * draw_fb.bytes_per_pixel = read_fb.stride ∧ read_fb.stride = draw_fb.stride then
    memcpy m dp sp (draw_fb.stride * h).toNat
  else
    copyRows m dp sp draw_fb.stride read_fb.stride (w * draw_fb.bytes_per_pixel).toNat h.toNat

def HORIZONTAL_BLT_PIXEL_MARGIN : Int := 0

/-- The function `dglCopyArea(dglContext *context, ...)`. -/
def dglCopyArea (dev : FbDevice) (s : State) (context : Nat)
    (sx sy dx dy w h : Int) : State :=
  if w ≤ 0 ∨ h ≤ 0 then s
  else
    let sy := sy + (s.context context).read_yoffset
    let dy := dy + (s.context context).draw_yoffset
    let read_fb := (s.context context).read_fb
    let draw_fb := (s.context context).draw_fb
    if read_fb = draw_fb then
      if (s.fb draw_fb).flags &&& DGL_FB_FLAG_HAVE_COPY_AREA ≠ 0 then
        dglCopyAreaScreenFB dev s draw_fb sx sy dx dy w h
      else if dy < sy ∨ dy ≥ sy + h ∨ dx < sx - HORIZONTAL_BLT_PIXEL_MARGIN ∨ dx ≥ sx + w then
        { s with mem := dglCopyAreaSimple (s.fb draw_fb).todglPixelBuffer s.mem sx sy dx dy w h }
      else
        dglMessage
          { s with mem := dglCopyAreaDifficult (s.fb draw_fb).todglPixelBuffer s.mem sx sy dx dy w h }
          DGL_MESSAGE_WARNING "dglCopyArea: Difficult software blit not yet supported.\n"
    else if (s.fb read_fb).bytes_per_pixel = (s.fb draw_fb).bytes_per_pixel then
      { s with mem := (dglCopyAreaAcross (s.fb read_fb).todglPixelBuffer
          (s.fb draw_fb).todglPixelBuffer s.mem sx sy dx dy w h) }
    else
      dglMessage s DGL_MESSAGE_WARNING "dglCopyArea: Read and draw framebuffers differ in format.\n"

/-- The two loops of `memset32`, on the number of 32-bit words still to be
written: batches of four stores while `size >= 4`, then single stores while
`size > 0` (once `size < 4` the first pattern no longer applies). -/
def memset32Loop (m : Mem) (dp : Int) (value : Nat) : Nat → Mem
  | size + 4 =>
    memset32Loop
      (store32 (store32 (store32 (store32 m dp value) (dp + 4) value) (dp + 8) value)
        (dp + 12) value)
      (dp + 16) value size
  | size + 1 => memset32Loop (store32 m dp value) (dp + 4) value size
  | 0 => m

/-- The function `memset32`. -/
def memset32 (m : Mem) (destp : Int) (value : Nat) (size : Int) : Mem :=
  memset32Loop m destp value size.toNat

/-- The tail of `memset16` after the leading store: paired 32-bit stores while
`size >= 2`, then the trailing 16-bit store `if (size > 0)`. -/
def memset16Loop (m : Mem) (dp : Int) (value value32 : Nat) : Nat → Mem
  | size + 2 => memset16Loop (store32 m dp value32) (dp + 4) value value32 size
  | 1 => store16 m dp value
  | 0 => m

/-- The function `memset16`; `value | (value << 16)` is computed in `uint32_t`. -/
def memset16 (m : Mem) (destp : Int) (value : Nat) (size : Int) : Mem :=
  let value32 := value ||| ((value <<< 16) % 4294967296)
  if destp.toNat &&& 0x2 ≠ 0 then
    memset16Loop (store16 m destp value) (destp + 2) value value32 (size - 1).toNat
  else
    memset16Loop m destp value value32 size.toNat

/-- The row loop `while (h > 0) { memsetN(dp, pixel, w); dp += fb->stride; h--; }`
of `dglFill`, for either of `memset32` and `memset16`. -/
def fillRows (memsetN : Mem → Int → Nat → Int → Mem) (m : Mem) (dp stride : Int)
    (pixel : Nat) (w : Int) : Nat → Mem
  | 0 => m
  | h + 1 => fillRows memsetN (memsetN m dp pixel w) (dp + stride) stride pixel w h

/-- The function `dglFill`. -/
def dglFill (s : State) (context : Nat) (x y w h : Int) (pixel : Nat) : State :=
  if w ≤ 0 ∨ h ≤ 0 then s
  else
    let y := y + (s.context context).draw_yoffset
    let fb := s.fb (s.context context).draw_fb
    let dp := fb.framebuffer_addr + y * fb.stride + x * fb.bytes_per_pixel
    if fb.bytes_per_pixel = 4 then
      { s with mem := fillRows memset32 s.mem dp fb.stride pixel w h.toNat }
    else
      { s with mem := fillRows memset16 s.mem dp fb.stride pixel w h.toNat }

/-- Read-back of the pixel at `(x, y)`: the load matching the store of
`dglPutPixel` (32-bit when `bytes_per_pixel == 4`, 16-bit otherwise). -/
def loadPixel (fb : dglPixelBuffer) (m : Mem) (x y : Int) : Nat :=
  if fb.bytes_per_pixel = 4 then load32 m (pixelAddr fb x y) else load16 m (pixelAddr fb x y)

/-! ## Predicates used in the statements -/

/-- The geometry invariant of a pixel buffer: positive pixel size and
`stride >= xres * bytes_per_pixel`. -/
def WellFormed (fb : dglPixelBuffer) : Prop :=
  0 < fb.bytes_per_pixel ∧ fb.xres * fb.bytes_per_pixel ≤ fb.stride

/-- The rectangle of width `w` and height `h` at `(x, y)` lies inside the
buffer: its columns are within `xres` and its rows within the backing storage. -/
def RectInside (fb : dglPixelBuffer) (x y w h : Int) : Prop :=
  0 ≤ x ∧ x + w ≤ fb.xres ∧ 0 ≤ y ∧ (y + h) * fb.stride ≤ fb.total_size

/-- Two rectangles of the same size have no pixel in common. -/
def RectsDisjoint (sx sy dx dy w h : Int) : Prop :=
  sx + w ≤ dx ∨ dx + w ≤ sx ∨ sy + h ≤ dy ∨ dy + h ≤ sy

/-- Address `a` is a byte of a pixel of the rectangle at `(x, y)`. -/
def InRect (fb : dglPixelBuffer) (x y w h : Int) (a : Int) : Prop :=
  ∃ i j c : Int, 0 ≤ i ∧ i < w ∧ 0 ≤ j ∧ j < h ∧ 0 ≤ c ∧ c < fb.bytes_per_pixel ∧
    a = pixelAddr fb (x + i) (y + j) + c

/-- Address `a` belongs to the backing storage of the buffer. -/
def InStorage (fb : dglPixelBuffer) (a : Int) : Prop :=
  fb.framebuffer_addr ≤ a ∧ a < fb.framebuffer_addr + fb.total_size

/-- The backing storages of two buffers do not overlap. -/
def StorageDisjoint (a b : dglPixelBuffer) : Prop :=
  a.framebuffer_addr + a.total_size ≤ b.framebuffer_addr ∨
    b.framebuffer_addr + b.total_size ≤ a.framebuffer_addr

/-- Whether the buffer advertises hardware copy-area support. -/
def HaveCopyArea (fb : dglPixelBuffer) : Prop :=
  fb.flags &&& DGL_FB_FLAG_HAVE_COPY_AREA ≠ 0

instance (fb : dglPixelBuffer) : Decidable (HaveCopyArea fb) := by
  unfold HaveCopyArea; infer_instance

/-! ## Concrete buffers and states used in the examples -/

/-- The buffer object created by `dglCreatePixmapFB(format, w, h)` when the
allocation returns address `addr`, stored with inert screen fields. -/
def pixmapFB (addr : Int) (format : Nat) (w h : Int) : dglConsoleFB :=
  { framebuffer_addr := addr
    format := format
    flags := DGL_FB_TYPE_PIXMAP
    xres := w
    yres := h
    stride := w * DGL_FORMAT_GET_BYTES_PER_PIXEL format
    total_size := h * (w * DGL_FORMAT_GET_BYTES_PER_PIXEL format)
    bytes_per_pixel := DGL_FORMAT_GET_BYTES_PER_PIXEL format
    virtual_xres := 0
    virtual_yres := 0
    nu_pages := 0
    PanDisplayFunc := PanDisplayFuncPtr.dglConsoleFBPanDisplayNoOp
    WaitVSyncFunc := WaitVSyncFuncPtr.dglConsoleFBWaitVSyncNoOp
    CopyAreaFunc := CopyAreaFuncPtr.dglConsoleFBCopyAreaNoOp
    fd := 0
    graphics_mode_set := false }

/-- A state with the given memory, buffer table and a single context value at
every context pointer; default message level, nothing printed or dispatched. -/
def mkState (mem : Mem) (fb : Nat → dglConsoleFB) (c : dglContext) : State :=
  { mem := mem
    fb := fb
    context := fun _ => c
    dgl_internal_debug_message_level := DGL_MESSAGE_INFO
    stdout := []
    sigabrt_raised := false
    dispatched := [] }

/-- A driver whose copy-area request succeeds without touching memory. -/
def idleDevice : FbDevice :=
  { FBIOCOPYAREA := fun _ _ _ _ _ _ _ m => (0, m) }

/-- A ramp: the byte at address `a` holds `a mod 256` (for `a >= 0`). -/
def rampMem : Mem := fun a => a.toNat % 256

/-- A 4x4 RGB565 pixmap at address 0, bound as read and draw buffer of every
context, over the ramp memory. -/
def pixmapState : State :=
  mkState rampMem (fun _ => pixmapFB 0 DGL_FORMAT_RGB565 4 4) ⟨1, 1, 0, 0⟩

/-- The pixel buffer of `pixmapState`. -/
def pixmapBuf : dglPixelBuffer := (pixmapFB 0 DGL_FORMAT_RGB565 4 4).todglPixelBuffer

/-- Two RGB565 4x4 pixmaps, at addresses 0 and 32; the context reads from the
first and draws into the second. -/
def twoPixmapState : State :=
  mkState rampMem
    (fun p => if p = 1 then pixmapFB 0 DGL_FORMAT_RGB565 4 4 else pixmapFB 32 DGL_FORMAT_RGB565 4 4)
    ⟨1, 2, 0, 0⟩

/-- The draw buffer of `twoPixmapState`. -/
def pixmapBuf2 : dglPixelBuffer := (pixmapFB 32 DGL_FORMAT_RGB565 4 4).todglPixelBuffer

/-- An RGB565 pixmap (read buffer) and an XRGB8888 pixmap (draw buffer). -/
def mixedFormatState : State :=
  mkState rampMem
    (fun p => if p = 1 then pixmapFB 0 DGL_FORMAT_RGB565 4 4
      else pixmapFB 32 DGL_FORMAT_XRGB8888 4 4)
    ⟨1, 2, 0, 0⟩

/-- The text of the warning for buffers of different pixel size. -/
def formatWarning : String := "dglCopyArea: Read and draw framebuffers differ in format.\n"

/-- A 4x8 RGB565 console surface at address 0 (two pages of 4 rows) with the
given flags and copy-area binding, as read and draw buffer of every context;
the read offset is one row and the draw offset one page. -/
def consoleState (flags : Nat) (copyAreaFunc : CopyAreaFuncPtr) : State :=
  mkState rampMem
    (fun _ =>
      { pixmapFB 0 DGL_FORMAT_RGB565 4 4 with
        flags := flags
        total_size := 64
        virtual_xres := 4
        virtual_yres := 8
        nu_pages := 2
        CopyAreaFunc := copyAreaFunc
        fd := 3 })
    ⟨1, 1, 1, 4⟩

/-- Byte `r` (0..3, little-endian) of a 32-bit store of `v`. -/
def byte32 (v : Nat) (r : Int) : Nat :=
  if r = 0 then v % 256
  else if r = 1 then v / 256 % 256
  else if r = 2 then v / 65536 % 256
  else v / 16777216 % 256

/-- Byte `r` (0..1, little-endian) of a 16-bit store of `v`. -/
def byte16 (v : Nat) (r : Int) : Nat :=
  if r = 0 then v % 256 else v / 256 % 256

/-- A 4x4 ARGB8888 pixmap at address 0, as created by
`dglCreatePixmapFB(DGL_FORMAT_ARGB8888, 4, 4)`, bound as read and draw buffer. -/
def argbState : State :=
  mkState rampMem (fun _ => pixmapFB 0 DGL_FORMAT_ARGB8888 4 4) ⟨1, 1, 0, 0⟩

/-- The pixel buffer of `argbState`. -/
def argbBuf : dglPixelBuffer := (pixmapFB 0 DGL_FORMAT_ARGB8888 4 4).todglPixelBuffer

/-! ## Contexts (`dgl.h`, `dgl-main.cpp`) -/

/-- A store through the pointer `context`: the object it points to becomes `c`. -/
def setContext (s : State) (context : Nat) (c : dglContext) : State :=
  { s with context := Function.update s.context context c }

/-- The function `dglCreateContext`; `p` is the address `new dglContext` returns. -/
def dglCreateContext (s : State) (p : Nat) (read_fb draw_fb : Nat) : State × Nat :=
  (setContext s p
    { read_fb := read_fb, draw_fb := draw_fb, read_yoffset := 0, draw_yoffset := 0 }, p)

/-- The function `dglSetReadFramebuffer`. -/
def dglSetReadFramebuffer (s : State) (context : Nat) (fb : Nat) : State :=
  setContext s context { s.context context with read_fb := fb }

/-- The function `dglSetDrawFramebuffer`. -/
def dglSetDrawFramebuffer (s : State) (context : Nat) (fb : Nat) : State :=
  setContext s context { s.context context with draw_fb := fb }

/-- The function `dglSetReadYOffset`. -/
def dglSetReadYOffset (s : State) (context : Nat) (yoffset : Int) : State :=
  setContext s context { s.context context with read_yoffset := yoffset }

/-- The function `dglSetDrawYOffset`. -/
def dglSetDrawYOffset (s : State) (context : Nat) (yoffset : Int) : State :=
  setContext s context { s.context context with draw_yoffset := yoffset }

/-- The function `dglSetReadPage`. -/
def dglSetReadPage (s : State) (context : Nat) (page : Int) : State :=
  setContext s context
    { s.context context with
      read_yoffset := page * (s.fb (s.context context).read_fb).yres }

/-- The function `dglSetDrawPage`. -/
def dglSetDrawPage (s : State) (context : Nat) (page : Int) : State :=
  setContext s context
    { s.context context with
      draw_yoffset := page * (s.fb (s.context context).draw_fb).yres }

/-! ## Inline pixel writes and image puts -/

/-- The function `dglPutPixel32`. -/
def dglPutPixel32 (s : State) (context : Nat) (x y : Int) (pixel : Nat) : State :=
  let y := y + (s.context context).draw_yoffset
  let fb := s.fb (s.context context).draw_fb
  let dp := fb.framebuffer_addr + y * fb.stride + x * 4
  { s with mem := store32 s.mem dp pixel }

/-- The function `dglPutPixel16`. -/
def dglPutPixel16 (s : State) (context : Nat) (x y : Int) (pixel : Nat) : State :=
  let y := y + (s.context context).draw_yoffset
  let fb := s.fb (s.context context).draw_fb
  let dp := fb.framebuffer_addr + y * fb.stride + x * 2
  { s with mem := store16 s.mem dp pixel }

/-- The function `dglPutImage`; `image` is a pointer into the buffer table. -/
def dglPutImage (s : State) (context : Nat) (x y : Int) (image : Nat) : State :=
  let fb := s.fb (s.context context).draw_fb
  { s with mem := (dglCopyAreaAcross (s.fb image).todglPixelBuffer fb.todglPixelBuffer s.mem
      0 0 x y (s.fb image).xres (s.fb image).yres) }

/-- The function `dglPutPartialImage`. -/
def dglPutPartialImage (s : State) (context : Nat) (sx sy dx dy w h : Int)
    (image : Nat) : State :=
  let fb := s.fb (s.context context).draw_fb
  { s with mem := (dglCopyAreaAcross (s.fb image).todglPixelBuffer fb.todglPixelBuffer s.mem
      sx sy dx dy w h) }

/-! ## Colour conversion -/

/-- The conversion `uint32_t r = floorf(r_float * 255.5f)`, with the `float`
taken as an exact rational (a negative product, undefined in C, gives 0). -/
def floorScaled (c : ℚ) : Nat :=
  (⌊c * (511 / 2)⌋).toNat % 4294967296

/-- The text of the warning of `dglConvertColor`. -/
def convertWarning : String := "dlgConvertPixel: Cannot handle pixel format 0x%04X\n"

/-- The function `dglConvertColor`; all arithmetic is `uint32_t` arithmetic. The
result is the state (a warning may have been printed) and the returned pixel. -/
def dglConvertColor (s : State) (format : Nat) (r_float g_float b_float : ℚ) : State × Nat :=
  let r := floorScaled r_float
  let g := floorScaled g_float
  let b := floorScaled b_float
  if format &&& (DGL_FORMAT_PIXEL_SIZE_16_BIT ||| DGL_FORMAT_LSB_ORDER_RGB_BIT) = 0 then
    (s, ((r <<< 16) + (g <<< 8) + b) % 4294967296)
  else if format &&& (DGL_FORMAT_PIXEL_SIZE_16_BIT ||| DGL_FORMAT_LSB_ORDER_RGB_BIT)
      = DGL_FORMAT_PIXEL_SIZE_16_BIT then
    let r := (r + 4) % 4294967296
    let r := if r ≥ 256 then 255 else r
    let r := r >>> 3
    let g := (g + 2) % 4294967296
    let g := if g ≥ 256 then 255 else g
    let g := g >>> 2
    let b := (b + 4) % 4294967296
    let b := if b ≥ 256 then 255 else b
    let b := b >>> 3
    (s, ((r <<< 11) + (g <<< 5) + b) % 4294967296)
  else
    (dglMessage s DGL_MESSAGE_WARNING convertWarning, 0)

/-- A two-page 4x8 RGB565 console surface at address 0 (visible height 4,
pointer 1) and a 2x2 RGB565 image at address 64 (pointer 2); every context
reads from and draws into the surface. -/
def surfaceAndImageState : State :=
  mkState rampMem
    (fun p =>
      if p = 1 then
        { pixmapFB 0 DGL_FORMAT_RGB565 4 4 with
          flags := DGL_FB_TYPE_CONSOLE
          total_size := 64
          virtual_xres := 4
          virtual_yres := 8
          nu_pages := 2 }
      else
        { pixmapFB 64 DGL_FORMAT_RGB565 2 2 with flags := DGL_FB_TYPE_IMAGE })
    ⟨1, 1, 0, 0⟩

/-- The draw surface of `surfaceAndImageState`. -/
def surfaceBuf : dglPixelBuffer := (surfaceAndImageState.fb 1).todglPixelBuffer

/-- The image of `surfaceAndImageState`. -/
def imageBuf : dglPixelBuffer := (surfaceAndImageState.fb 2).todglPixelBuffer

/-! ## Buffer construction (`dgl-main.cpp`) -/

/-- A `dglFB` or `dglImage` object as stored in the buffer table: the fields of
`dglPixelBuffer`, the fields of the derived classes left inert. -/
def bufferObject (pb : dglPixelBuffer) : dglConsoleFB :=
  { todglPixelBuffer := pb
    virtual_xres := 0
    virtual_yres := 0
    nu_pages := 0
    PanDisplayFunc := PanDisplayFuncPtr.dglConsoleFBPanDisplayNoOp
    WaitVSyncFunc := WaitVSyncFuncPtr.dglConsoleFBWaitVSyncNoOp
    CopyAreaFunc := CopyAreaFuncPtr.dglConsoleFBCopyAreaNoOp
    fd := 0
    graphics_mode_set := false }

/-- Result of a function that creates a buffer: the state, the pointer
returned, and the number of bytes it asked `new uint8_t[..]` for (if any). -/
structure NewBuffer where
  state : State
  fb : Nat
  allocated : Option Int

/-- The function `dglCreatePixmapFB`; `p` is the address `new dglFB` returns
and `addr` the address `new uint8_t[h * fb->stride]` returns. -/
def dglCreatePixmapFB (s : State) (p : Nat) (addr : Int) (format : Nat) (w h : Int) :
    NewBuffer :=
  let bytes_per_pixel := DGL_FORMAT_GET_BYTES_PER_PIXEL format
  let stride := w * bytes_per_pixel
  let fb : dglPixelBuffer :=
    { format := format
      bytes_per_pixel := bytes_per_pixel
      xres := w
      yres := h
      stride := stride
      total_size := h * stride
      framebuffer_addr := addr
      flags := DGL_FB_TYPE_PIXMAP }
  { state := { s with fb := Function.update s.fb p (bufferObject fb) }
    fb := p
    allocated := some (h * stride) }

/-- The function `dglCreateImageFromBuffer`; `p` is the address `new dglImage`
returns, `buffer` the caller's storage. -/
def dglCreateImageFromBuffer (s : State) (p : Nat) (format : Nat) (w h : Int)
    (buffer : Int) : NewBuffer :=
  let bytes_per_pixel := DGL_FORMAT_GET_BYTES_PER_PIXEL format
  let stride := w * bytes_per_pixel
  let image : dglPixelBuffer :=
    { framebuffer_addr := buffer
      xres := w
      yres := h
      format := format
      bytes_per_pixel := bytes_per_pixel
      stride := stride
      total_size := h * stride
      flags := DGL_FB_TYPE_IMAGE }
  { state := { s with fb := Function.update s.fb p (bufferObject image) }
    fb := p
    allocated := none }

/-- The function `dglCreateImage`; `addr` is the address returned by
`new uint8_t[w * h * DGL_FORMAT_GET_BYTES_PER_PIXEL(format)]`. -/
def dglCreateImage (s : State) (p : Nat) (addr : Int) (format : Nat) (w h : Int) :
    NewBuffer :=
  { dglCreateImageFromBuffer s p format w h addr with
    allocated := some (w * h * DGL_FORMAT_GET_BYTES_PER_PIXEL format) }

/-! ## Console framebuffer (`dgl-consolefb.cpp`) -/

/-- The fields of `struct fb_bitfield` (`linux/fb.h`) that the code reads. -/
structure fb_bitfield where
  offset : Nat
  length : Nat
deriving DecidableEq, Repr

/-- The fields of `struct fb_var_screeninfo` (`linux/fb.h`) that the code reads. -/
structure fb_var_screeninfo where
  xres : Nat
  yres : Nat
  bits_per_pixel : Nat
  red : fb_bitfield
  green : fb_bitfield
  blue : fb_bitfield
  transp : fb_bitfield
deriving DecidableEq, Repr

/-- The fields of `struct fb_fix_screeninfo` (`linux/fb.h`) that the code reads. -/
structure fb_fix_screeninfo where
  smem_len : Nat
  line_length : Nat
deriving DecidableEq, Repr

def KD_TEXT : Int := 0
def KD_GRAPHICS : Int := 1

/-- The outcomes of the system calls of `dglCreateConsoleFramebuffer`, taken as
inputs: return codes, the screen information the kernel reports, the address
`mmap` returns (`none` for `MAP_FAILED`), the console mode, and the address
`new dglConsoleFB` returns. -/
structure ConsoleCalls where
  open_fb0 : Int
  ioctl_FBUNSUPPORTED : Int
  ioctl_FBIOCOPYAREA : Int
  ioctl_FBIOGET_VSCREENINFO : Int
  ioctl_FBIOGET_FSCREENINFO : Int
  ioctl_FBIO_WAITFORVSYNC : Int
  fb_var : fb_var_screeninfo
  fb_fix : fb_fix_screeninfo
  mmap : Option Int
  open_tty0 : Int
  ioctl_KDGETMODE : Int
  current_mode : Int
  ioctl_KDSETMODE : Int
  new_cfb : Nat

/-- The format classification of `dglCreateConsoleFramebuffer`; `none` stands
for `goto invalid_format`. -/
def consoleFormat (fb_var : fb_var_screeninfo) : Option Nat :=
  if fb_var.bits_per_pixel = 32 ∧
      ((fb_var.blue.offset = 0 ∧ fb_var.blue.length = 8 ∧
        fb_var.green.offset = 8 ∧ fb_var.green.length = 8 ∧
        fb_var.red.offset = 16 ∧ fb_var.red.length = 8) ∨
      (fb_var.red.offset = 0 ∧ fb_var.red.length = 8 ∧
        fb_var.green.offset = 8 ∧ fb_var.green.length = 8 ∧
        fb_var.blue.offset = 16 ∧ fb_var.blue.length = 8)) then
    let format : Nat := 0
    let format := if fb_var.red.offset = 0 then format ||| DGL_FORMAT_LSB_ORDER_RGB_BIT else format
    if fb_var.transp.length = 8 then some (format ||| DGL_FORMAT_ALPHA_BIT)
    else if fb_var.transp.length ≠ 0 then none
    else some format
  else if fb_var.bits_per_pixel = 16 then
    if (fb_var.blue.offset = 0 ∧ fb_var.blue.length = 5 ∧
        fb_var.green.offset = 5 ∧ fb_var.green.length = 6 ∧
        fb_var.red.offset = 11 ∧ fb_var.red.length = 5) ∨
      (fb_var.red.offset = 0 ∧ fb_var.red.length = 5 ∧
        fb_var.green.offset = 6 ∧ fb_var.green.length = 6 ∧
        fb_var.blue.offset = 11 ∧ fb_var.blue.length = 5) then
      some DGL_FORMAT_RGB565
    else if (fb_var.blue.offset = 0 ∧ fb_var.blue.length = 5 ∧
        fb_var.green.offset = 5 ∧ fb_var.green.length = 6 ∧
        fb_var.red.offset = 11 ∧ fb_var.red.length = 5) ∨
      (fb_var.red.offset = 0 ∧ fb_var.red.length = 5 ∧
        fb_var.green.offset = 6 ∧ fb_var.green.length = 6 ∧
        fb_var.blue.offset = 11 ∧ fb_var.blue.length = 5) then
      some DGL_FORMAT_BGR565
    else none
  else none

/-- The console-mode block of `dglCreateConsoleFramebuffer`: the final values
of `graphics_mode` and `graphics_mode_set`. The assignment `graphics_mode =
true` follows the unbraced `if` on `KDSETMODE`, so it runs whenever the
console was in text mode. -/
def consoleGraphicsMode (c : ConsoleCalls) : Bool × Bool :=
  if c.open_tty0 ≥ 0 then
    if c.ioctl_KDGETMODE = 0 then
      if c.current_mode = KD_TEXT then
        let graphics_mode_set := if c.ioctl_KDSETMODE = 0 then true else false
        (true, graphics_mode_set)
      else (true, false)
    else (false, false)
  else (false, false)

/-- Result of `dglCreateConsoleFramebuffer`: the state, the pointer returned
(`none` for `NULL`), and whether `mmap` was called. -/
structure ConsoleCreation where
  state : State
  cfb : Option Nat
  mmap_called : Bool

/-- The function `dglCreateConsoleFramebuffer`. The installation of the signal
handlers has no effect on the state modelled here. -/
def dglCreateConsoleFramebuffer (c : ConsoleCalls) (s : State) : ConsoleCreation :=
  if c.open_fb0 < 0 then
    { state := dglMessage s DGL_MESSAGE_WARNING "dglCreateConsoleFramebuffer: Cannot open %s"
      cfb := none
      mmap_called := false }
  else
    let copyarea_supported : Bool := if c.ioctl_FBUNSUPPORTED = 0 then false else true
    let copyarea_supported : Bool :=
      if copyarea_supported then (if c.ioctl_FBIOCOPYAREA ≠ 0 then false else true) else false
    let flags : Nat := DGL_FB_TYPE_CONSOLE
    let flags := if copyarea_supported then flags ||| DGL_FB_FLAG_HAVE_COPY_AREA else flags
    if c.ioctl_FBIOGET_VSCREENINFO < 0 ∨ c.ioctl_FBIOGET_FSCREENINFO < 0 then
      { state := dglMessage s DGL_MESSAGE_WARNING
          "dglCreateConsoleFramebuffer: Could not get screen info from kernel\n"
        cfb := none
        mmap_called := false }
    else
      let flags :=
        if c.ioctl_FBIO_WAITFORVSYNC = 0 then flags ||| DGL_FB_FLAG_HAVE_WAIT_VSYNC else flags
      match consoleFormat c.fb_var with
      | none =>
        { state := dglMessage s DGL_MESSAGE_WARNING
            "dglCreateConsoleFramebuffer: Console pixel format unsupported\n"
          cfb := none
          mmap_called := false }
      | some format =>
        match c.mmap with
        | none =>
          { state := dglMessage s DGL_MESSAGE_WARNING
              "dglCreateConsoleFramebuffer: Memory map failed\n"
            cfb := none
            mmap_called := true }
        | some framebuffer_addr =>
          let graphics_mode := (consoleGraphicsMode c).1
          let graphics_mode_set := (consoleGraphicsMode c).2
          let s1 :=
            if ¬ graphics_mode then
              dglMessage s DGL_MESSAGE_WARNING
                "dglCreateConsoleFramebuffer: Could not set graphics mode, superuser priviledges required?\n"
            else s
          let total_size : Int := c.fb_fix.smem_len
          let xres : Int := c.fb_var.xres
          let yres : Int := c.fb_var.yres
          let stride : Int := c.fb_fix.line_length
          let virtual_yres := Int.tdiv total_size stride
          let flags :=
            if graphics_mode ∧ virtual_yres > yres then flags ||| DGL_FB_FLAG_HAVE_PAN_DISPLAY
            else flags
          let cfb : dglConsoleFB :=
            { framebuffer_addr := framebuffer_addr
              format := format
              total_size := total_size
              bytes_per_pixel := ((c.fb_var.bits_per_pixel + 7) / 8 : Nat)
              xres := xres
              yres := yres
              stride := stride
              virtual_xres := xres
              virtual_yres := virtual_yres
              nu_pages := Int.tdiv virtual_yres xres
              fd := c.open_fb0
              graphics_mode_set := graphics_mode_set
              flags := flags
              PanDisplayFunc :=
                if flags &&& DGL_FB_FLAG_HAVE_PAN_DISPLAY ≠ 0 then
                  PanDisplayFuncPtr.dglConsoleFBPanDisplay
                else PanDisplayFuncPtr.dglConsoleFBPanDisplayNoOp
              WaitVSyncFunc :=
                if flags &&& DGL_FB_FLAG_HAVE_WAIT_VSYNC ≠ 0 then
                  WaitVSyncFuncPtr.dglConsoleFBWaitVSync
                else WaitVSyncFuncPtr.dglConsoleFBWaitVSyncNoOp
              CopyAreaFunc :=
                if flags &&& DGL_FB_FLAG_HAVE_COPY_AREA ≠ 0 then
                  CopyAreaFuncPtr.dglConsoleFBCopyArea
                else CopyAreaFuncPtr.dglConsoleFBCopyAreaNoOp }
          { state :=
              dglMessage { s1 with fb := Function.update s1.fb c.new_cfb cfb } DGL_MESSAGE_INFO
                "dglCreateConsoleFramebuffer: Succesfully created console framebuffer\n"
            cfb := some c.new_cfb
            mmap_called := true }

/-! ## Display panning -/

/-- The function `dglConsoleFBPanDisplay`. The second component lists the
origins `(fb_var.xoffset, fb_var.yoffset)` it passes to `FBIOPUT_VSCREENINFO`.
Both fields are `__u32`, so the assignments `fb_var.xoffset = x` and
`fb_var.yoffset = y` convert the `int` values modulo `2^32`: a negative value,
which the two tests leave as it is, is committed as `2^32 + x`. The other
fields of `fb_var` are those just read with `FBIOGET_VSCREENINFO`, and the
return codes are not looked at. -/
def dglConsoleFBPanDisplay (s : State) (fb : Nat) (x y : Int) : State × List (Int × Int) :=
  let cfb := s.fb fb
  let x := if x + cfb.xres ≥ cfb.virtual_xres then cfb.virtual_xres - cfb.xres else x
  let y := if y + cfb.yres ≥ cfb.virtual_yres then cfb.virtual_yres - cfb.yres else y
  (s, [(x % 4294967296, y % 4294967296)])

/-- The function `dglConsoleFBPanDisplayNoOp`. -/
def dglConsoleFBPanDisplayNoOp (s : State) (_fb : Nat) (_x _y : Int) :
    State × List (Int × Int) :=
  (s, [])

/-- The indirect call `fb->PanDisplayFunc(fb, x, y)`. -/
def callPanDisplayFunc (s : State) (fb : Nat) (x y : Int) : State × List (Int × Int) :=
  let s1 := { s with dispatched := s.dispatched ++ [DispatchCall.PanDisplayFunc fb x y] }
  match (s.fb fb).PanDisplayFunc with
  | PanDisplayFuncPtr.dglConsoleFBPanDisplay => dglConsoleFBPanDisplay s1 fb x y
  | PanDisplayFuncPtr.dglConsoleFBPanDisplayNoOp => dglConsoleFBPanDisplayNoOp s1 fb x y

/-- The function `dglPanDisplay`. -/
def dglPanDisplay (s : State) (fb : Nat) (x y : Int) : State × List (Int × Int) :=
  if (s.fb fb).flags &&& DGL_FB_FLAG_HAVE_PAN_DISPLAY ≠ 0 then callPanDisplayFunc s fb x y
  else (s, [])

/-- The function `dglSetDisplayPage`. -/
def dglSetDisplayPage (s : State) (fb : Nat) (page : Int) : State × List (Int × Int) :=
  dglPanDisplay s fb 0 (page * (s.fb fb).yres)

/-! ## Clipping (`dgl.h`) -/

/-- The class `dglClipRectangle`. -/
structure dglClipRectangle where
  x1 : Int
  y1 : Int
  x2 : Int
  y2 : Int
deriving DecidableEq, Repr

/-- The function `dglSetClipRectangleFromFramebufferDimensions`: the value it
leaves in `cr`. -/
def dglSetClipRectangleFromFramebufferDimensions (fb : dglPixelBuffer) : dglClipRectangle :=
  { x1 := 0, y1 := 0, x2 := fb.xres, y2 := fb.yres }

/-- The function `dglSetClipRectangle`: the value it leaves in `cr`. -/
def dglSetClipRectangle (x1 y1 x2 y2 : Int) : dglClipRectangle :=
  { x1 := x1, y1 := y1, x2 := x2, y2 := y2 }

/-- The function `dglClip`: the values it leaves in `x` and `y`. -/
def dglClip (cr : dglClipRectangle) (x y : Int) : Int × Int :=
  let x := if x < cr.x1 then cr.x1 else x
  let y := if y < cr.y1 then cr.y1 else y
  let x := if x ≥ cr.x2 then cr.x2 - 1 else x
  let y := if y ≥ cr.y2 then cr.y2 - 1 else y
  (x, y)

/-! ## Device reports used in the examples -/

/-- A device report with the given depth and channel layout (no transparency
unless `transp` says so), 8x4 visible, 16 bytes per line, 128 bytes of memory. -/
def deviceVar (bits_per_pixel : Nat) (red green blue transp : fb_bitfield) :
    fb_var_screeninfo :=
  { xres := 8, yres := 4, bits_per_pixel := bits_per_pixel
    red := red, green := green, blue := blue, transp := transp }

/-- System-call outcomes in which every call succeeds: the device is opened as
descriptor 3 and reports `fb_var`, memory is mapped at address 4096, and the
console is in text mode with `KDSETMODE` returning `kdsetmode`. -/
def goodCalls (fb_var : fb_var_screeninfo) (kdsetmode : Int) : ConsoleCalls :=
  { open_fb0 := 3
    ioctl_FBUNSUPPORTED := -1
    ioctl_FBIOCOPYAREA := 0
    ioctl_FBIOGET_VSCREENINFO := 0
    ioctl_FBIOGET_FSCREENINFO := 0
    ioctl_FBIO_WAITFORVSYNC := 0
    fb_var := fb_var
    fb_fix := { smem_len := 128, line_length := 16 }
    mmap := some 4096
    open_tty0 := 4
    ioctl_KDGETMODE := 0
    current_mode := KD_TEXT
    ioctl_KDSETMODE := kdsetmode
    new_cfb := 7 }

/-- The RGB565 layout: blue at 0 (5 bits), green at 5 (6 bits), red at 11 (5 bits). -/
def rgb565Var : fb_var_screeninfo := deviceVar 16 ⟨11, 5⟩ ⟨5, 6⟩ ⟨0, 5⟩ ⟨0, 0⟩

/-- The BGR565 layout: red at 0 (5 bits), green at 5 (6 bits), blue at 11 (5 bits). -/
def bgr565Var : fb_var_screeninfo := deviceVar 16 ⟨0, 5⟩ ⟨5, 6⟩ ⟨11, 5⟩ ⟨0, 0⟩

/-- A 16-bit layout with red at 0 (5 bits), green at 6 (6 bits), blue at 11
(5 bits): green and blue share bit 11 and bit 5 belongs to no channel. -/
def skewed565Var : fb_var_screeninfo := deviceVar 16 ⟨0, 5⟩ ⟨6, 6⟩ ⟨11, 5⟩ ⟨0, 0⟩

/-- A 24-bit layout. -/
def rgb888Var : fb_var_screeninfo := deviceVar 24 ⟨16, 8⟩ ⟨8, 8⟩ ⟨0, 8⟩ ⟨0, 0⟩

/-- The state after `dglCreateConsoleFramebuffer` succeeded on an RGB565 device
(8x4 visible, two pages of memory); the surface is at pointer 7. -/
def createdConsoleState : State :=
  (dglCreateConsoleFramebuffer (goodCalls rgb565Var 0) pixmapState).state

/-- The XRGB8888 layout: blue at 0, green at 8, red at 16 (8 bits each), no
transparency bits. -/
def xrgb8888Var : fb_var_screeninfo := deviceVar 32 ⟨16, 8⟩ ⟨8, 8⟩ ⟨0, 8⟩ ⟨0, 0⟩

/-- The XRGB8888 channel layout with a transparency channel of 4 bits. -/
def transp4Var : fb_var_screeninfo := deviceVar 32 ⟨16, 8⟩ ⟨8, 8⟩ ⟨0, 8⟩ ⟨24, 4⟩

/-- The text of the warning `dglCopyArea` prints after `dglCopyAreaDifficult`. -/
def difficultWarning : String := "dglCopyArea: Difficult software blit not yet supported.\n"

/-- Two 4x4 RGB565 pixmaps (pointers 1 and 2, at addresses 0 and 32) and a 2x2
RGB565 image (pointer 3, at address 64). Context 1 reads from the first pixmap;
every other context reads from the second one, one row down. All contexts draw
into the second pixmap with draw offset 0. -/
def twoContextState : State :=
  { mkState rampMem
      (fun p =>
        if p = 1 then pixmapFB 0 DGL_FORMAT_RGB565 4 4
        else if p = 2 then pixmapFB 32 DGL_FORMAT_RGB565 4 4
        else pixmapFB 64 DGL_FORMAT_RGB565 2 2)
      ⟨1, 2, 0, 0⟩ with
    context := fun c => if c = 1 then ⟨1, 2, 0, 0⟩ else ⟨2, 2, 1, 0⟩ }

/-! ## Memory accesses of the copy and fill routines

The functions below list, in program order, the framebuffer bytes each routine
dereferences: one entry per `memcpy` operand or store. They follow the control
flow of the routine of the same name without the suffix `Accesses`. The scratch
array of `dglCopyAreaDifficult` is an allocation of its own, of exactly the
`w * bytes_per_pixel` bytes each row copy moves, and is not listed. -/

/-- A memory access: `size` bytes starting at address `addr`. -/
structure Access where
  addr : Int
  size : Int
deriving DecidableEq, Repr

/-- Every byte of the access lies in the backing storage of the buffer. -/
def AccessInStorage (fb : dglPixelBuffer) (acc : Access) : Prop :=
  ∀ a : Int, acc.addr ≤ a → a < acc.addr + acc.size → InStorage fb a

/-- Accesses of `memcpy(dp, sp, n)`: `n` bytes read at `sp`, `n` written at `dp`. -/
def memcpyAccesses (dp sp : Int) (n : Nat) : List Access :=
  [⟨sp, n⟩, ⟨dp, n⟩]

/-- Accesses of the row loop of `dglCopyAreaSimple` and `dglCopyAreaAcross`.
The pointers are advanced after each row; once `h` has reached 0 the loop ends
and they are not dereferenced again. -/
def copyRowsAccesses (dp sp dstep sstep : Int) (n : Nat) : Nat → List Access
  | 0 => []
  | h + 1 =>
    memcpyAccesses dp sp n ++ copyRowsAccesses (dp + dstep) (sp + sstep) dstep sstep n h

/-- Accesses of the row loop of `dglCopyAreaDifficult`: the row is read at `sp`
into the scratch array and written from it at `dp`. -/
def copyRowsScratchAccesses (dp sp stride : Int) (n : Nat) : Nat → List Access
  | 0 => []
  | h + 1 =>
    [⟨sp, n⟩, ⟨dp, n⟩] ++ copyRowsScratchAccesses (dp + stride) (sp + stride) stride n h

/-- Accesses of `dglCopyAreaSimple`. -/
def dglCopyAreaSimpleAccesses (fb : dglPixelBuffer) (sx sy dx dy w h : Int) : List Access :=
  let sp := fb.framebuffer_addr + sy * fb.stride + sx * fb.bytes_per_pixel
  let dp := fb.framebuffer_addr + dy * fb.stride + dx * fb.bytes_per_pixel
  if w * fb.bytes_per_pixel = fb.stride ∧ (dy < sy ∨ dy ≥ sy + h) then
    memcpyAccesses dp sp (fb.stride * h).toNat
  else if dy > sy then
    copyRowsAccesses (dp + (h - 1) * fb.stride) (sp + (h - 1) * fb.stride)
      (-fb.stride) (-fb.stride) (w * fb.bytes_per_pixel).toNat h.toNat
  else
    copyRowsAccesses dp sp fb.stride fb.stride (w * fb.bytes_per_pixel).toNat h.toNat

/-- Accesses of `dglCopyAreaDifficult`. -/
def dglCopyAreaDifficultAccesses (fb : dglPixelBuffer) (sx sy dx dy w h : Int) :
    List Access :=
  let sp := fb.framebuffer_addr + sy * fb.stride + sx * fb.bytes_per_pixel
  let dp := fb.framebuffer_addr + dy * fb.stride + dx * fb.bytes_per_pixel
  if w * fb.bytes_per_pixel = fb.stride ∧ (dy < sy ∨ dy ≥ sy + h) then
    memcpyAccesses dp sp (fb.stride * h).toNat
  else if dy > sy then
    copyRowsScratchAccesses (dp + (h - 1) * fb.stride) (sp + (h - 1) * fb.stride)
      (-fb.stride) (w * fb.bytes_per_pixel).toNat h.toNat
  else
    copyRowsScratchAccesses dp sp fb.stride (w * fb.bytes_per_pixel).toNat h.toNat

/-- Accesses of `dglCopyAreaAcross`. -/
def dglCopyAreaAcrossAccesses (read_fb draw_fb : dglPixelBuffer)
    (sx sy dx dy w h : Int) : List Access :=
  let sp := read_fb.framebuffer_addr + sy * read_fb.stride + sx * draw_fb.bytes_per_pixel
  let dp := draw_fb.framebuffer_addr + dy * draw_fb.stride + dx * draw_fb.bytes_per_pixel
  if w * draw_fb.bytes_per_pixel = read_fb.stride ∧ read_fb.stride = draw_fb.stride then
    memcpyAccesses dp sp (draw_fb.stride * h).toNat
  else
    copyRowsAccesses dp sp draw_fb.stride read_fb.stride
      (w * draw_fb.bytes_per_pixel).toNat h.toNat

/-- Accesses of `dglCopyArea(dglContext *context, ...)`. On the hardware path
the copy is made by the driver and the library dereferences nothing. -/
def dglCopyAreaAccesses (s : State) (context : Nat) (sx sy dx dy w h : Int) : List Access :=
  if w ≤ 0 ∨ h ≤ 0 then []
  else
    let sy := sy + (s.context context).read_yoffset
    let dy := dy + (s.context context).draw_yoffset
    let read_fb := (s.context context).read_fb
    let draw_fb := (s.context context).draw_fb
    if read_fb = draw_fb then
      if (s.fb draw_fb).flags &&& DGL_FB_FLAG_HAVE_COPY_AREA ≠ 0 then []
      else if dy < sy ∨ dy ≥ sy + h ∨ dx < sx - HORIZONTAL_BLT_PIXEL_MARGIN ∨ dx ≥ sx + w then
        dglCopyAreaSimpleAccesses (s.fb draw_fb).todglPixelBuffer sx sy dx dy w h
      else
        dglCopyAreaDifficultAccesses (s.fb draw_fb).todglPixelBuffer sx sy dx dy w h
    else if (s.fb read_fb).bytes_per_pixel = (s.fb draw_fb).bytes_per_pixel then
      dglCopyAreaAcrossAccesses (s.fb read_fb).todglPixelBuffer
        (s.fb draw_fb).todglPixelBuffer sx sy dx dy w h
    else []

/-- Accesses of the two loops of `memset32`: one 4-byte store per word. -/
def memset32LoopAccesses (dp : Int) : Nat → List Access
  | size + 4 =>
    [⟨dp, 4⟩, ⟨dp + 4, 4⟩, ⟨dp + 8, 4⟩, ⟨dp + 12, 4⟩] ++ memset32LoopAccesses (dp + 16) size
  | size + 1 => [⟨dp, 4⟩] ++ memset32LoopAccesses (dp + 4) size
  | 0 => []

/-- Accesses of `memset32`. -/
def memset32Accesses (destp : Int) (size : Int) : List Access :=
  memset32LoopAccesses destp size.toNat

/-- Accesses of the tail of `memset16`: a 4-byte store per pair of pixels, then
the trailing 2-byte store. -/
def memset16LoopAccesses (dp : Int) : Nat → List Access
  | size + 2 => [⟨dp, 4⟩] ++ memset16LoopAccesses (dp + 4) size
  | 1 => [⟨dp, 2⟩]
  | 0 => []

/-- Accesses of `memset16`. -/
def memset16Accesses (destp : Int) (size : Int) : List Access :=
  if destp.toNat &&& 0x2 ≠ 0 then
    [⟨destp, 2⟩] ++ memset16LoopAccesses (destp + 2) (size - 1).toNat
  else
    memset16LoopAccesses destp size.toNat

/-- Accesses of the row loop of `dglFill`. -/
def fillRowsAccesses (memsetNAccesses : Int → Int → List Access) (dp stride : Int)
    (w : Int) : Nat → List Access
  | 0 => []
  | h + 1 => memsetNAccesses dp w ++ fillRowsAccesses memsetNAccesses (dp + stride) stride w h

/-- Accesses of `dglFill`. -/
def dglFillAccesses (s : State) (context : Nat) (x y w h : Int) : List Access :=
  if w ≤ 0 ∨ h ≤ 0 then []
  else
    let y := y + (s.context context).draw_yoffset
    let fb := s.fb (s.context context).draw_fb
    let dp := fb.framebuffer_addr + y * fb.stride + x * fb.bytes_per_pixel
    if fb.bytes_per_pixel = 4 then
      fillRowsAccesses memset32Accesses dp fb.stride w h.toNat
    else
      fillRowsAccesses memset16Accesses dp fb.stride w h.toNat

/-! ## Lemmas on memory operations -/

theorem store8_apply (m : Mem) (a : Int) (b : Nat) (x : Int) :
    store8 m a b x = if x = a then b else m x := rfl

theorem memcpy_frame (n : Nat) : ∀ (m : Mem) (dp sp a : Int),
    (a < dp ∨ dp + n ≤ a) → memcpy m dp sp n a = m a := by
  induction n with
  | zero => intro m dp sp a _; rfl
  | succ n ih =>
    intro m dp sp a ha
    have hne : a ≠ dp := by push_cast at ha; omega
    rw [memcpy, ih _ _ _ _ (by push_cast at ha; omega), store8_apply, if_neg hne]

theorem memcpy_copy (n : Nat) : ∀ (m : Mem) (dp sp : Int),
    (dp ≤ sp ∨ sp + n ≤ dp) → ∀ i : Int, 0 ≤ i → i < n →
    memcpy m dp sp n (dp + i) = m (sp + i) := by
  induction n with
  | zero => intro m dp sp _ i h0 h1; simp at h1; omega
  | succ n ih =>
    intro m dp sp hsafe i h0 h1
    push_cast at hsafe h1
    rw [memcpy]
    by_cases hi : i = 0
    · subst hi
      rw [memcpy_frame _ _ _ _ _ (by omega), store8_apply]
      simp
    · have e1 : dp + i = (dp + 1) + (i - 1) := by ring
      have e2 : sp + i = (sp + 1) + (i - 1) := by ring
      rw [e1, ih _ _ _ (by omega) (i - 1) (by omega) (by omega), ← e2, store8_apply,
        if_neg (by omega)]

theorem memcpyToScratch_length (m : Mem) (sp : Int) (n : Nat) :
    (memcpyToScratch m sp n).length = n := by
  simp [memcpyToScratch]

theorem memcpyFromScratch_frame (l : List Nat) : ∀ (m : Mem) (dp a : Int),
    (a < dp ∨ dp + l.length ≤ a) → memcpyFromScratch m dp l a = m a := by
  induction l with
  | nil => intro m dp a _; rfl
  | cons b bs ih =>
    intro m dp a ha
    simp only [List.length_cons, Nat.cast_add, Nat.cast_one] at ha
    rw [memcpyFromScratch, ih _ _ _ (by omega), store8_apply, if_neg (by omega)]

theorem memcpyFromScratch_copy (l : List Nat) : ∀ (m : Mem) (dp : Int) (k : Nat),
    k < l.length → memcpyFromScratch m dp l (dp + k) = l.getD k 0 := by
  induction l with
  | nil => intro m dp k hk; simp at hk
  | cons b bs ih =>
    intro m dp k hk
    rw [memcpyFromScratch]
    cases k with
    | zero =>
      rw [memcpyFromScratch_frame _ _ _ _ (by simp), store8_apply]
      simp
    | succ k =>
      have e : dp + ((k + 1 : Nat) : Int) = (dp + 1) + (k : Int) := by push_cast; ring
      rw [e, ih _ _ k (by simpa using hk)]
      simp

/-- One row through the scratch buffer reads the whole source row before any
byte of the destination row is written. -/
theorem scratch_copy (m : Mem) (dp sp : Int) (n : Nat) (i : Int) (h0 : 0 ≤ i) (h1 : i < n) :
    memcpyFromScratch m dp (memcpyToScratch m sp n) (dp + i) = m (sp + i) := by
  obtain ⟨k, rfl⟩ := Int.eq_ofNat_of_zero_le h0
  have hk : k < n := by exact_mod_cast h1
  rw [memcpyFromScratch_copy _ _ _ _ (by rw [memcpyToScratch_length]; exact hk)]
  simp [memcpyToScratch, List.getD, hk]

theorem scratch_frame (m : Mem) (dp sp : Int) (n : Nat) (a : Int) (ha : a < dp ∨ dp + n ≤ a) :
    memcpyFromScratch m dp (memcpyToScratch m sp n) a = m a :=
  memcpyFromScratch_frame _ _ _ _ (by rw [memcpyToScratch_length]; exact ha)

/-! ## Lemmas on the row loops -/

theorem copyRows_frame (ds ss : Int) (n : Nat) (a : Int) (h : Nat) :
    ∀ (m : Mem) (dp sp : Int),
    (∀ k : Nat, k < h → a < dp + k * ds ∨ dp + k * ds + n ≤ a) →
    copyRows m dp sp ds ss n h a = m a := by
  induction h with
  | zero => intro m dp sp _; rfl
  | succ h ih =>
    intro m dp sp hout
    rw [copyRows, ih]
    · apply memcpy_frame
      have := hout 0 (Nat.succ_pos h)
      simpa using this
    · intro k hk
      have := hout (k + 1) (Nat.succ_lt_succ hk)
      push_cast at this
      rcases this with h1 | h1
      · left; linarith
      · right; linarith

theorem copyRows_copy (ds ss : Int) (n : Nat) (h : Nat) :
    ∀ (m : Mem) (dp sp : Int),
    (∀ k : Nat, k < h → dp + k * ds ≤ sp + k * ss ∨ sp + k * ss + n ≤ dp + k * ds) →
    (∀ k k2 : Nat, k < k2 → k2 < h →
      dp + k * ds + n ≤ dp + k2 * ds ∨ dp + k2 * ds + n ≤ dp + k * ds) →
    (∀ k k2 : Nat, k < k2 → k2 < h →
      dp + k * ds + n ≤ sp + k2 * ss ∨ sp + k2 * ss + n ≤ dp + k * ds) →
    ∀ k : Nat, k < h → ∀ t : Int, 0 ≤ t → t < n →
    copyRows m dp sp ds ss n h (dp + k * ds + t) = m (sp + k * ss + t) := by
  induction h with
  | zero => intro m dp sp _ _ _ k hk; omega
  | succ h ih =>
    intro m dp sp hsafe hdst hsrc k hk t t0 t1
    rw [copyRows]
    cases k with
    | zero =>
      rw [copyRows_frame]
      · have := hsafe 0 (Nat.succ_pos h)
        simp only [Nat.cast_zero, zero_mul, add_zero] at this ⊢
        exact memcpy_copy n m dp sp this t t0 t1
      · intro k2 hk2
        have := hdst 0 (k2 + 1) (Nat.succ_pos k2) (Nat.succ_lt_succ hk2)
        push_cast at this ⊢
        simp only [zero_mul, add_zero] at this ⊢
        rcases this with h1 | h1
        · left; linarith
        · right; linarith
    | succ k =>
      have hk2 : k < h := Nat.lt_of_succ_lt_succ hk
      have e1 : dp + ((k + 1 : Nat) : Int) * ds + t = (dp + ds) + (k : Int) * ds + t := by
        push_cast; ring
      have e2 : sp + ((k + 1 : Nat) : Int) * ss + t = (sp + ss) + (k : Int) * ss + t := by
        push_cast; ring
      rw [e1, e2, ih _ _ _ _ _ _ k hk2 t t0 t1]
      · apply memcpy_frame
        have := hsrc 0 (k + 1) (Nat.succ_pos k) hk
        push_cast at this
        simp only [zero_mul, add_zero] at this
        rcases this with h1 | h1
        · right; linarith
        · left; linarith
      · intro j hj
        have := hsafe (j + 1) (Nat.succ_lt_succ hj)
        push_cast at this
        rcases this with h1 | h1
        · left; linarith
        · right; linarith
      · intro j j2 hjj hj2
        have := hdst (j + 1) (j2 + 1) (Nat.succ_lt_succ hjj) (Nat.succ_lt_succ hj2)
        push_cast at this
        rcases this with h1 | h1
        · left; linarith
        · right; linarith
      · intro j j2 hjj hj2
        have := hsrc (j + 1) (j2 + 1) (Nat.succ_lt_succ hjj) (Nat.succ_lt_succ hj2)
        push_cast at this
        rcases this with h1 | h1
        · left; linarith
        · right; linarith

theorem copyRowsScratch_frame (st : Int) (n : Nat) (a : Int) (h : Nat) :
    ∀ (m : Mem) (dp sp : Int),
    (∀ k : Nat, k < h → a < dp + k * st ∨ dp + k * st + n ≤ a) →
    copyRowsScratch m dp sp st n h a = m a := by
  induction h with
  | zero => intro m dp sp _; rfl
  | succ h ih =>
    intro m dp sp hout
    rw [copyRowsScratch, ih]
    · apply scratch_frame
      have := hout 0 (Nat.succ_pos h)
      simpa using this
    · intro k hk
      have := hout (k + 1) (Nat.succ_lt_succ hk)
      push_cast at this
      rcases this with h1 | h1
      · left; linarith
      · right; linarith

theorem copyRowsScratch_copy (st : Int) (n : Nat) (h : Nat) :
    ∀ (m : Mem) (dp sp : Int),
    (∀ k k2 : Nat, k < k2 → k2 < h →
      dp + k * st + n ≤ dp + k2 * st ∨ dp + k2 * st + n ≤ dp + k * st) →
    (∀ k k2 : Nat, k < k2 → k2 < h →
      dp + k * st + n ≤ sp + k2 * st ∨ sp + k2 * st + n ≤ dp + k * st) →
    ∀ k : Nat, k < h → ∀ t : Int, 0 ≤ t → t < n →
    copyRowsScratch m dp sp st n h (dp + k * st + t) = m (sp + k * st + t) := by
  induction h with
  | zero => intro m dp sp _ _ k hk; omega
  | succ h ih =>
    intro m dp sp hdst hsrc k hk t t0 t1
    rw [copyRowsScratch]
    cases k with
    | zero =>
      rw [copyRowsScratch_frame]
      · simp only [Nat.cast_zero, zero_mul, add_zero]
        exact scratch_copy m dp sp n t t0 t1
      · intro k2 hk2
        have := hdst 0 (k2 + 1) (Nat.succ_pos k2) (Nat.succ_lt_succ hk2)
        push_cast at this ⊢
        simp only [zero_mul, add_zero] at this ⊢
        rcases this with h1 | h1
        · left; linarith
        · right; linarith
    | succ k =>
      have hk2 : k < h := Nat.lt_of_succ_lt_succ hk
      have e1 : dp + ((k + 1 : Nat) : Int) * st + t = (dp + st) + (k : Int) * st + t := by
        push_cast; ring
      have e2 : sp + ((k + 1 : Nat) : Int) * st + t = (sp + st) + (k : Int) * st + t := by
        push_cast; ring
      rw [e1, e2, ih _ _ _ _ _ k hk2 t t0 t1]
      · apply scratch_frame
        have := hsrc 0 (k + 1) (Nat.succ_pos k) hk
        push_cast at this
        simp only [zero_mul, add_zero] at this
        rcases this with h1 | h1
        · right; linarith
        · left; linarith
      · intro j j2 hjj hj2
        have := hdst (j + 1) (j2 + 1) (Nat.succ_lt_succ hjj) (Nat.succ_lt_succ hj2)
        push_cast at this
        rcases this with h1 | h1
        · left; linarith
        · right; linarith
      · intro j j2 hjj hj2
        have := hsrc (j + 1) (j2 + 1) (Nat.succ_lt_succ hjj) (Nat.succ_lt_succ hj2)
        push_cast at this
        rcases this with h1 | h1
        · left; linarith
        · right; linarith

/-! ## Geometry of the same-buffer copies -/

/-- Row form of the correctness of `dglCopyAreaSimple`: byte `t` of row `j` of
the destination holds what byte `t` of row `j` of the source held. -/
theorem dglCopyAreaSimple_rows (fb : dglPixelBuffer) (m : Mem) (sx sy dx dy w h : Int)
    (hwf : WellFormed fb) (hw : 0 < w) (hh : 0 < h)
    (hsx0 : 0 ≤ sx) (hsx1 : sx + w ≤ fb.xres) (hdx0 : 0 ≤ dx) (hdx1 : dx + w ≤ fb.xres)
    (hsimple : dy < sy ∨ dy ≥ sy + h ∨ dx < sx ∨ dx ≥ sx + w)
    (j t : Int) (hj0 : 0 ≤ j) (hj1 : j < h) (ht0 : 0 ≤ t) (ht1 : t < w * fb.bytes_per_pixel) :
    dglCopyAreaSimple fb m sx sy dx dy w h
        (fb.framebuffer_addr + (dy + j) * fb.stride + dx * fb.bytes_per_pixel + t)
      = m (fb.framebuffer_addr + (sy + j) * fb.stride + sx * fb.bytes_per_pixel + t) := by
  obtain ⟨hb, hstr⟩ := hwf
  unfold dglCopyAreaSimple
  generalize fb.framebuffer_addr = A at *
  generalize fb.stride = S at *
  generalize fb.bytes_per_pixel = b at *
  have hX0 : 0 ≤ sx * b := mul_nonneg hsx0 hb.le
  have hY0 : 0 ≤ dx * b := mul_nonneg hdx0 hb.le
  have hX1 : (sx + w) * b ≤ fb.xres * b := mul_le_mul_of_nonneg_right hsx1 hb.le
  have hY1 : (dx + w) * b ≤ fb.xres * b := mul_le_mul_of_nonneg_right hdx1 hb.le
  have hn0 : 0 < w * b := mul_pos hw hb
  have hS0 : 0 ≤ S := by linarith
  have hncast : (((w * b).toNat : Nat) : Int) = w * b := Int.toNat_of_nonneg hn0.le
  have hhcast : ((h.toNat : Nat) : Int) = h := Int.toNat_of_nonneg hh.le
  have hjS : 0 ≤ j * S := mul_nonneg hj0 hS0
  split_ifs with hbulk hup
  · -- contiguous area
    obtain ⟨hwS, hv⟩ := hbulk
    have hSh : 0 ≤ S * h := mul_nonneg hS0 hh.le
    have hcast : (((S * h).toNat : Nat) : Int) = S * h := Int.toNat_of_nonneg hSh
    have hj1S : (j + 1) * S ≤ h * S := mul_le_mul_of_nonneg_right (by omega) hS0
    have e1 : A + (dy + j) * S + dx * b + t = (A + dy * S + dx * b) + (j * S + t) := by ring
    have e2 : A + (sy + j) * S + sx * b + t = (A + sy * S + sx * b) + (j * S + t) := by ring
    rw [e1, e2]
    apply memcpy_copy
    · rw [hcast]
      rcases hv with hv | hv
      · left
        have := mul_le_mul_of_nonneg_right hv.le hS0
        linarith
      · right
        have := mul_le_mul_of_nonneg_right hv hS0
        linarith
    · linarith
    · rw [hcast]; linarith
  · -- blit from bottom to top
    have hdy : (sy + 1) * S ≤ dy * S := mul_le_mul_of_nonneg_right (by omega) hS0
    have hk : ((h - 1 - j).toNat : Int) = h - 1 - j := Int.toNat_of_nonneg (by omega)
    have key := copyRows_copy (-S) (-S) (w * b).toNat h.toNat m
      (A + dy * S + dx * b + (h - 1) * S) (A + sy * S + sx * b + (h - 1) * S)
      (by
        intro k _
        right
        rw [hncast]; linarith)
      (by
        intro k k2 hkk _
        right
        have : ((k : Int) + 1) * S ≤ (k2 : Int) * S :=
          mul_le_mul_of_nonneg_right (by exact_mod_cast hkk) hS0
        rw [hncast]; linarith)
      (by
        intro k k2 hkk _
        right
        have : ((k : Int) + 1) * S ≤ (k2 : Int) * S :=
          mul_le_mul_of_nonneg_right (by exact_mod_cast hkk) hS0
        rw [hncast]; linarith)
      (h - 1 - j).toNat (by zify; rw [hk, hhcast]; omega) t ht0 (by rw [hncast]; exact ht1)
    rw [hk] at key
    have e1 : A + (dy + j) * S + dx * b + t
        = A + dy * S + dx * b + (h - 1) * S + (h - 1 - j) * -S + t := by ring
    have e2 : A + (sy + j) * S + sx * b + t
        = A + sy * S + sx * b + (h - 1) * S + (h - 1 - j) * -S + t := by ring
    rw [e1, e2]
    exact key
  · -- blit from top to bottom
    have hdy : dy ≤ sy := by omega
    have hdyS : dy * S ≤ sy * S := mul_le_mul_of_nonneg_right hdy hS0
    have hk : ((j.toNat : Nat) : Int) = j := Int.toNat_of_nonneg hj0
    have key := copyRows_copy S S (w * b).toNat h.toNat m
      (A + dy * S + dx * b) (A + sy * S + sx * b)
      (by
        intro k _
        rw [hncast]
        rcases lt_or_eq_of_le hdy with hlt | heq
        · left
          have : (dy + 1) * S ≤ sy * S := mul_le_mul_of_nonneg_right (by omega) hS0
          linarith
        · subst heq
          rcases hsimple with h1 | h1 | h1 | h1
          · omega
          · omega
          · left
            have := mul_le_mul_of_nonneg_right h1.le hb.le
            linarith
          · right
            have : (sx + w) * b ≤ dx * b := mul_le_mul_of_nonneg_right h1 hb.le
            linarith)
      (by
        intro k k2 hkk _
        left
        have : ((k : Int) + 1) * S ≤ (k2 : Int) * S :=
          mul_le_mul_of_nonneg_right (by exact_mod_cast hkk) hS0
        rw [hncast]; linarith)
      (by
        intro k k2 hkk _
        left
        have : ((k : Int) + 1) * S ≤ (k2 : Int) * S :=
          mul_le_mul_of_nonneg_right (by exact_mod_cast hkk) hS0
        rw [hncast]; linarith)
      j.toNat (by zify; rw [hk, hhcast]; exact hj1) t ht0 (by rw [hncast]; exact ht1)
    rw [hk] at key
    have e1 : A + (dy + j) * S + dx * b + t = A + dy * S + dx * b + j * S + t := by ring
    have e2 : A + (sy + j) * S + sx * b + t = A + sy * S + sx * b + j * S + t := by ring
    rw [e1, e2]
    exact key

/-- Row form of the correctness of `dglCopyAreaDifficult`; no condition on the
relative position of the rectangles is needed. -/
theorem dglCopyAreaDifficult_rows (fb : dglPixelBuffer) (m : Mem) (sx sy dx dy w h : Int)
    (hwf : WellFormed fb) (hw : 0 < w) (hh : 0 < h)
    (hsx0 : 0 ≤ sx) (hsx1 : sx + w ≤ fb.xres) (hdx0 : 0 ≤ dx) (hdx1 : dx + w ≤ fb.xres)
    (j t : Int) (hj0 : 0 ≤ j) (hj1 : j < h) (ht0 : 0 ≤ t) (ht1 : t < w * fb.bytes_per_pixel) :
    dglCopyAreaDifficult fb m sx sy dx dy w h
        (fb.framebuffer_addr + (dy + j) * fb.stride + dx * fb.bytes_per_pixel + t)
      = m (fb.framebuffer_addr + (sy + j) * fb.stride + sx * fb.bytes_per_pixel + t) := by
  obtain ⟨hb, hstr⟩ := hwf
  unfold dglCopyAreaDifficult
  generalize fb.framebuffer_addr = A at *
  generalize fb.stride = S at *
  generalize fb.bytes_per_pixel = b at *
  have hX0 : 0 ≤ sx * b := mul_nonneg hsx0 hb.le
  have hY0 : 0 ≤ dx * b := mul_nonneg hdx0 hb.le
  have hX1 : (sx + w) * b ≤ fb.xres * b := mul_le_mul_of_nonneg_right hsx1 hb.le
  have hY1 : (dx + w) * b ≤ fb.xres * b := mul_le_mul_of_nonneg_right hdx1 hb.le
  have hn0 : 0 < w * b := mul_pos hw hb
  have hS0 : 0 ≤ S := by linarith
  have hncast : (((w * b).toNat : Nat) : Int) = w * b := Int.toNat_of_nonneg hn0.le
  have hhcast : ((h.toNat : Nat) : Int) = h := Int.toNat_of_nonneg hh.le
  have hjS : 0 ≤ j * S := mul_nonneg hj0 hS0
  split_ifs with hbulk hup
  · -- contiguous area
    obtain ⟨hwS, hv⟩ := hbulk
    have hSh : 0 ≤ S * h := mul_nonneg hS0 hh.le
    have hcast : (((S * h).toNat : Nat) : Int) = S * h := Int.toNat_of_nonneg hSh
    have hj1S : (j + 1) * S ≤ h * S := mul_le_mul_of_nonneg_right (by omega) hS0
    have e1 : A + (dy + j) * S + dx * b + t = (A + dy * S + dx * b) + (j * S + t) := by ring
    have e2 : A + (sy + j) * S + sx * b + t = (A + sy * S + sx * b) + (j * S + t) := by ring
    rw [e1, e2]
    apply memcpy_copy
    · rw [hcast]
      rcases hv with hv | hv
      · left
        have := mul_le_mul_of_nonneg_right hv.le hS0
        linarith
      · right
        have := mul_le_mul_of_nonneg_right hv hS0
        linarith
    · linarith
    · rw [hcast]; linarith
  · -- blit from bottom to top
    have hdy : (sy + 1) * S ≤ dy * S := mul_le_mul_of_nonneg_right (by omega) hS0
    have hk : ((h - 1 - j).toNat : Int) = h - 1 - j := Int.toNat_of_nonneg (by omega)
    have key := copyRowsScratch_copy (-S) (w * b).toNat h.toNat m
      (A + dy * S + dx * b + (h - 1) * S) (A + sy * S + sx * b + (h - 1) * S)
      (by
        intro k k2 hkk _
        right
        have : ((k : Int) + 1) * S ≤ (k2 : Int) * S :=
          mul_le_mul_of_nonneg_right (by exact_mod_cast hkk) hS0
        rw [hncast]; linarith)
      (by
        intro k k2 hkk _
        right
        have : ((k : Int) + 1) * S ≤ (k2 : Int) * S :=
          mul_le_mul_of_nonneg_right (by exact_mod_cast hkk) hS0
        rw [hncast]; linarith)
      (h - 1 - j).toNat (by zify; rw [hk, hhcast]; omega) t ht0 (by rw [hncast]; exact ht1)
    rw [hk] at key
    have e1 : A + (dy + j) * S + dx * b + t
        = A + dy * S + dx * b + (h - 1) * S + (h - 1 - j) * -S + t := by ring
    have e2 : A + (sy + j) * S + sx * b + t
        = A + sy * S + sx * b + (h - 1) * S + (h - 1 - j) * -S + t := by ring
    rw [e1, e2]
    exact key
  · -- blit from top to bottom
    have hdy : dy ≤ sy := by omega
    have hdyS : dy * S ≤ sy * S := mul_le_mul_of_nonneg_right hdy hS0
    have hk : ((j.toNat : Nat) : Int) = j := Int.toNat_of_nonneg hj0
    have key := copyRowsScratch_copy S (w * b).toNat h.toNat m
      (A + dy * S + dx * b) (A + sy * S + sx * b)
      (by
        intro k k2 hkk _
        left
        have : ((k : Int) + 1) * S ≤ (k2 : Int) * S :=
          mul_le_mul_of_nonneg_right (by exact_mod_cast hkk) hS0
        rw [hncast]; linarith)
      (by
        intro k k2 hkk _
        left
        have : ((k : Int) + 1) * S ≤ (k2 : Int) * S :=
          mul_le_mul_of_nonneg_right (by exact_mod_cast hkk) hS0
        rw [hncast]; linarith)
      j.toNat (by zify; rw [hk, hhcast]; exact hj1) t ht0 (by rw [hncast]; exact ht1)
    rw [hk] at key
    have e1 : A + (dy + j) * S + dx * b + t = A + dy * S + dx * b + j * S + t := by ring
    have e2 : A + (sy + j) * S + sx * b + t = A + sy * S + sx * b + j * S + t := by ring
    rw [e1, e2]
    exact key

/-- Byte `c` of pixel `i` of a row is byte `i * bytes_per_pixel + c` of the row. -/
theorem pixelAddr_row (fb : dglPixelBuffer) (x y i j c : Int) :
    pixelAddr fb (x + i) (y + j) + c
      = fb.framebuffer_addr + (y + j) * fb.stride + x * fb.bytes_per_pixel
        + (i * fb.bytes_per_pixel + c) := by
  unfold pixelAddr; ring

theorem row_offset_bounds (b w i c : Int) (hi0 : 0 ≤ i) (hi1 : i < w)
    (hc0 : 0 ≤ c) (hc1 : c < b) : 0 ≤ i * b + c ∧ i * b + c < w * b := by
  have hb : 0 ≤ b := by omega
  have h1 : 0 ≤ i * b := mul_nonneg hi0 hb
  have h2 : (i + 1) * b ≤ w * b := mul_le_mul_of_nonneg_right (by omega) hb
  constructor <;> linarith

theorem dglMessage_mem (s : State) (priority : Int) (format : String) :
    (dglMessage s priority format).mem = s.mem := by
  unfold dglMessage; split_ifs <;> rfl

/-- What the software path of a same-buffer `dglCopyArea` leaves in memory. -/
theorem dglCopyArea_software_mem (dev : FbDevice) (s : State) (context : Nat)
    (sx sy dx dy w h : Int) (hw : 0 < w) (hh : 0 < h)
    (hsame : (s.context context).read_fb = (s.context context).draw_fb)
    (hflag : ¬ HaveCopyArea (s.fb (s.context context).draw_fb).todglPixelBuffer) :
    (dglCopyArea dev s context sx sy dx dy w h).mem =
      if dy + (s.context context).draw_yoffset < sy + (s.context context).read_yoffset ∨
          dy + (s.context context).draw_yoffset ≥ sy + (s.context context).read_yoffset + h ∨
          dx < sx ∨ dx ≥ sx + w then
        dglCopyAreaSimple (s.fb (s.context context).draw_fb).todglPixelBuffer s.mem sx
          (sy + (s.context context).read_yoffset) dx (dy + (s.context context).draw_yoffset) w h
      else
        dglCopyAreaDifficult (s.fb (s.context context).draw_fb).todglPixelBuffer s.mem sx
          (sy + (s.context context).read_yoffset) dx (dy + (s.context context).draw_yoffset) w h := by
  unfold HaveCopyArea at hflag
  unfold dglCopyArea
  rw [if_neg (by omega)]
  simp only [hsame, if_true, HORIZONTAL_BLT_PIXEL_MARGIN, sub_zero]
  rw [if_neg hflag]
  split_ifs
  · rfl
  · rw [dglMessage_mem]

/-- Memmove semantics of the software path of a same-buffer `dglCopyArea`, for
any relative position of the two rectangles. -/
theorem dglCopyArea_software_pixels (dev : FbDevice) (s : State) (context : Nat)
    (sx sy dx dy w h : Int) (hw : 0 < w) (hh : 0 < h)
    (hsame : (s.context context).read_fb = (s.context context).draw_fb)
    (hflag : ¬ HaveCopyArea (s.fb (s.context context).draw_fb).todglPixelBuffer)
    (hwf : WellFormed (s.fb (s.context context).draw_fb).todglPixelBuffer)
    (hsx0 : 0 ≤ sx) (hsx1 : sx + w ≤ (s.fb (s.context context).draw_fb).xres)
    (hdx0 : 0 ≤ dx) (hdx1 : dx + w ≤ (s.fb (s.context context).draw_fb).xres)
    (i j c : Int) (hi0 : 0 ≤ i) (hi1 : i < w) (hj0 : 0 ≤ j) (hj1 : j < h)
    (hc0 : 0 ≤ c) (hc1 : c < (s.fb (s.context context).draw_fb).bytes_per_pixel) :
    (dglCopyArea dev s context sx sy dx dy w h).mem
        (pixelAddr (s.fb (s.context context).draw_fb).todglPixelBuffer (dx + i)
          (dy + (s.context context).draw_yoffset + j) + c)
      = s.mem (pixelAddr (s.fb (s.context context).draw_fb).todglPixelBuffer (sx + i)
          (sy + (s.context context).read_yoffset + j) + c) := by
  rw [dglCopyArea_software_mem dev s context sx sy dx dy w h hw hh hsame hflag,
    pixelAddr_row, pixelAddr_row]
  obtain ⟨t0, t1⟩ := row_offset_bounds _ w i c hi0 hi1 hc0 hc1
  split_ifs with hs
  · exact dglCopyAreaSimple_rows _ _ _ _ _ _ _ _ hwf hw hh hsx0 hsx1 hdx0 hdx1 hs j _ hj0 hj1 t0 t1
  · exact dglCopyAreaDifficult_rows _ _ _ _ _ _ _ _ hwf hw hh hsx0 hsx1 hdx0 hdx1 j _ hj0 hj1 t0 t1

/-! ## Same-buffer software copies -/

/-- C1: a same-buffer software `dglCopyArea` (hardware copy-area flag clear,
`w > 0`, `h > 0`) whose source and destination rectangles lie inside the buffer
and do not overlap leaves in every destination pixel `(dx+i, dy+j)` the bytes
the source pixel `(sx+i, sy+j)` held before the call; the statement covers the
contiguous bulk path and the row-by-row path alike. -/
theorem copyArea_disjoint_elementwise (dev : FbDevice) (s : State) (context : Nat)
    (sx sy dx dy w h : Int) (hw : 0 < w) (hh : 0 < h)
    (hsame : (s.context context).read_fb = (s.context context).draw_fb)
    (hflag : ¬ HaveCopyArea (s.fb (s.context context).draw_fb).todglPixelBuffer)
    (hwf : WellFormed (s.fb (s.context context).draw_fb).todglPixelBuffer)
    (hsrc : RectInside (s.fb (s.context context).draw_fb).todglPixelBuffer sx
      (sy + (s.context context).read_yoffset) w h)
    (hdst : RectInside (s.fb (s.context context).draw_fb).todglPixelBuffer dx
      (dy + (s.context context).draw_yoffset) w h)
    (_hdisj : RectsDisjoint sx (sy + (s.context context).read_yoffset) dx
      (dy + (s.context context).draw_yoffset) w h) :
    ∀ i j c : Int, 0 ≤ i → i < w → 0 ≤ j → j < h →
      0 ≤ c → c < (s.fb (s.context context).draw_fb).bytes_per_pixel →
      (dglCopyArea dev s context sx sy dx dy w h).mem
          (pixelAddr (s.fb (s.context context).draw_fb).todglPixelBuffer (dx + i)
            (dy + (s.context context).draw_yoffset + j) + c)
        = s.mem (pixelAddr (s.fb (s.context context).draw_fb).todglPixelBuffer (sx + i)
            (sy + (s.context context).read_yoffset + j) + c) := by
  intro i j c hi0 hi1 hj0 hj1 hc0 hc1
  exact dglCopyArea_software_pixels dev s context sx sy dx dy w h hw hh hsame hflag hwf
    hsrc.1 hsrc.2.1 hdst.1 hdst.2.1 i j c hi0 hi1 hj0 hj1 hc0 hc1

/-- Instances of C1 on the 4x4 RGB565 pixmap: rows 0..1 copied onto rows 2..3 at
full width (bulk path), and the left 2x2 block copied onto the right 2x2 block
(row-by-row path). -/
theorem copyArea_disjoint_elementwise_witness :
    (dglCopyArea idleDevice pixmapState 0 0 0 0 2 4 2).mem
        (pixelAddr pixmapBuf (0 + 3) (2 + 0 + 1) + 1)
      = rampMem (pixelAddr pixmapBuf (0 + 3) (0 + 0 + 1) + 1) ∧
    (dglCopyArea idleDevice pixmapState 0 0 0 2 0 2 2).mem
        (pixelAddr pixmapBuf (2 + 1) (0 + 0 + 1) + 0)
      = rampMem (pixelAddr pixmapBuf (0 + 1) (0 + 0 + 1) + 0) :=
  ⟨copyArea_disjoint_elementwise idleDevice pixmapState 0 0 0 0 2 4 2 (by decide) (by decide)
      rfl (by decide) (by unfold WellFormed; decide) (by unfold RectInside; decide)
      (by unfold RectInside; decide) (by unfold RectsDisjoint; decide)
      3 1 1 (by decide) (by decide) (by decide) (by decide) (by decide) (by decide),
   copyArea_disjoint_elementwise idleDevice pixmapState 0 0 0 2 0 2 2 (by decide) (by decide)
      rfl (by decide) (by unfold WellFormed; decide) (by unfold RectInside; decide)
      (by unfold RectInside; decide) (by unfold RectsDisjoint; decide)
      1 1 0 (by decide) (by decide) (by decide) (by decide) (by decide) (by decide)⟩

/-- C2: a same-buffer software `dglCopyArea` with `w > 0`, `h > 0`, both
rectangles inside the buffer, `dy == sy` after the y offsets are added and
`sx < dx < sx + w` leaves in every destination pixel `(dx+i, dy+j)` the bytes
the source pixel `(sx+i, sy+j)` held before the call: the scratch-row path
reads each source row in full before it writes the destination row. -/
theorem copyArea_shift_right_original (dev : FbDevice) (s : State) (context : Nat)
    (sx sy dx dy w h : Int) (hw : 0 < w) (hh : 0 < h)
    (hsame : (s.context context).read_fb = (s.context context).draw_fb)
    (hflag : ¬ HaveCopyArea (s.fb (s.context context).draw_fb).todglPixelBuffer)
    (hwf : WellFormed (s.fb (s.context context).draw_fb).todglPixelBuffer)
    (hsrc : RectInside (s.fb (s.context context).draw_fb).todglPixelBuffer sx
      (sy + (s.context context).read_yoffset) w h)
    (hdst : RectInside (s.fb (s.context context).draw_fb).todglPixelBuffer dx
      (dy + (s.context context).draw_yoffset) w h)
    (_hrow : dy + (s.context context).draw_yoffset = sy + (s.context context).read_yoffset)
    (_hright : sx < dx) (_hspan : dx < sx + w) :
    ∀ i j c : Int, 0 ≤ i → i < w → 0 ≤ j → j < h →
      0 ≤ c → c < (s.fb (s.context context).draw_fb).bytes_per_pixel →
      (dglCopyArea dev s context sx sy dx dy w h).mem
          (pixelAddr (s.fb (s.context context).draw_fb).todglPixelBuffer (dx + i)
            (dy + (s.context context).draw_yoffset + j) + c)
        = s.mem (pixelAddr (s.fb (s.context context).draw_fb).todglPixelBuffer (sx + i)
            (sy + (s.context context).read_yoffset + j) + c) := by
  intro i j c hi0 hi1 hj0 hj1 hc0 hc1
  exact dglCopyArea_software_pixels dev s context sx sy dx dy w h hw hh hsame hflag hwf
    hsrc.1 hsrc.2.1 hdst.1 hdst.2.1 i j c hi0 hi1 hj0 hj1 hc0 hc1

/-- Instance of C2: columns 0..2 of rows 0..1 shifted right by one pixel. -/
theorem copyArea_shift_right_original_witness :
    (dglCopyArea idleDevice pixmapState 0 0 0 1 0 3 2).mem
        (pixelAddr pixmapBuf (1 + 1) (0 + 0 + 1) + 1)
      = rampMem (pixelAddr pixmapBuf (0 + 1) (0 + 0 + 1) + 1) :=
  copyArea_shift_right_original idleDevice pixmapState 0 0 0 1 0 3 2 (by decide) (by decide)
    rfl (by decide) (by unfold WellFormed; decide) (by unfold RectInside; decide)
    (by unfold RectInside; decide) (by decide) (by decide) (by decide)
    1 1 1 (by decide) (by decide) (by decide) (by decide) (by decide) (by decide)

/-- C3: a same-buffer software `dglCopyArea` with `w > 0`, `h > 0`, both
rectangles inside the buffer and overlapping, where after the offsets either
`dy != sy` or `dy == sy` and `dx < sx`, leaves in every destination pixel
`(dx+i, dy+j)` the bytes the source pixel `(sx+i, sy+j)` held before the call
(memmove semantics, `memcpy` being an ascending byte copy); and for
`sy < dy < sy + h` the result is that of the row loop started at the last row
of both rectangles and stepping by `-stride`, i.e. rows go from last to first. -/
theorem copyArea_overlap_memmove (dev : FbDevice) (s : State) (context : Nat)
    (sx sy dx dy w h : Int) (hw : 0 < w) (hh : 0 < h)
    (hsame : (s.context context).read_fb = (s.context context).draw_fb)
    (hflag : ¬ HaveCopyArea (s.fb (s.context context).draw_fb).todglPixelBuffer)
    (hwf : WellFormed (s.fb (s.context context).draw_fb).todglPixelBuffer)
    (hsrc : RectInside (s.fb (s.context context).draw_fb).todglPixelBuffer sx
      (sy + (s.context context).read_yoffset) w h)
    (hdst : RectInside (s.fb (s.context context).draw_fb).todglPixelBuffer dx
      (dy + (s.context context).draw_yoffset) w h)
    (hover : ¬ RectsDisjoint sx (sy + (s.context context).read_yoffset) dx
      (dy + (s.context context).draw_yoffset) w h)
    (_hcase : dy + (s.context context).draw_yoffset ≠ sy + (s.context context).read_yoffset ∨
      (dy + (s.context context).draw_yoffset = sy + (s.context context).read_yoffset ∧ dx < sx)) :
    (∀ i j c : Int, 0 ≤ i → i < w → 0 ≤ j → j < h →
      0 ≤ c → c < (s.fb (s.context context).draw_fb).bytes_per_pixel →
      (dglCopyArea dev s context sx sy dx dy w h).mem
          (pixelAddr (s.fb (s.context context).draw_fb).todglPixelBuffer (dx + i)
            (dy + (s.context context).draw_yoffset + j) + c)
        = s.mem (pixelAddr (s.fb (s.context context).draw_fb).todglPixelBuffer (sx + i)
            (sy + (s.context context).read_yoffset + j) + c)) ∧
    (sy + (s.context context).read_yoffset < dy + (s.context context).draw_yoffset →
      dy + (s.context context).draw_yoffset < sy + (s.context context).read_yoffset + h →
      (dglCopyArea dev s context sx sy dx dy w h).mem =
        if dx < sx then
          copyRows s.mem
            (pixelAddr (s.fb (s.context context).draw_fb).todglPixelBuffer dx
              (dy + (s.context context).draw_yoffset)
              + (h - 1) * (s.fb (s.context context).draw_fb).stride)
            (pixelAddr (s.fb (s.context context).draw_fb).todglPixelBuffer sx
              (sy + (s.context context).read_yoffset)
              + (h - 1) * (s.fb (s.context context).draw_fb).stride)
            (-(s.fb (s.context context).draw_fb).stride)
            (-(s.fb (s.context context).draw_fb).stride)
            (w * (s.fb (s.context context).draw_fb).bytes_per_pixel).toNat h.toNat
        else
          copyRowsScratch s.mem
            (pixelAddr (s.fb (s.context context).draw_fb).todglPixelBuffer dx
              (dy + (s.context context).draw_yoffset)
              + (h - 1) * (s.fb (s.context context).draw_fb).stride)
            (pixelAddr (s.fb (s.context context).draw_fb).todglPixelBuffer sx
              (sy + (s.context context).read_yoffset)
              + (h - 1) * (s.fb (s.context context).draw_fb).stride)
            (-(s.fb (s.context context).draw_fb).stride)
            (w * (s.fb (s.context context).draw_fb).bytes_per_pixel).toNat h.toNat) := by
  constructor
  · intro i j c hi0 hi1 hj0 hj1 hc0 hc1
    exact dglCopyArea_software_pixels dev s context sx sy dx dy w h hw hh hsame hflag hwf
      hsrc.1 hsrc.2.1 hdst.1 hdst.2.1 i j c hi0 hi1 hj0 hj1 hc0 hc1
  · intro hlo hhi
    unfold RectsDisjoint at hover
    rw [dglCopyArea_software_mem dev s context sx sy dx dy w h hw hh hsame hflag]
    by_cases hdx : dx < sx
    · rw [if_pos (by omega), if_pos hdx]
      unfold dglCopyAreaSimple pixelAddr
      rw [if_neg (by omega), if_pos (by omega)]
    · rw [if_neg (by omega), if_neg hdx]
      unfold dglCopyAreaDifficult pixelAddr
      rw [if_neg (by omega), if_pos (by omega)]

/-- Instance of C3: rows 0..1 copied one row down at full width, so that row 1
is both source and destination. -/
theorem copyArea_overlap_memmove_witness :
    (dglCopyArea idleDevice pixmapState 0 0 0 0 1 4 2).mem
        (pixelAddr pixmapBuf (0 + 2) (1 + 0 + 1) + 0)
      = rampMem (pixelAddr pixmapBuf (0 + 2) (0 + 0 + 1) + 0) :=
  (copyArea_overlap_memmove idleDevice pixmapState 0 0 0 0 1 4 2 (by decide) (by decide)
    rfl (by decide) (by unfold WellFormed; decide) (by unfold RectInside; decide)
    (by unfold RectInside; decide) (by unfold RectsDisjoint; decide) (by decide)).1
    2 1 0 (by decide) (by decide) (by decide) (by decide) (by decide) (by decide)

/-! ## Copies across two buffers -/

/-- Every row of a rectangle inside a well-formed buffer lies in its storage. -/
theorem row_in_storage (fb : dglPixelBuffer) (x y w h j : Int) (hwf : WellFormed fb)
    (hin : RectInside fb x y w h) (hj0 : 0 ≤ j) (hj1 : j < h) (hw : 0 < w) :
    fb.framebuffer_addr ≤ fb.framebuffer_addr + y * fb.stride + x * fb.bytes_per_pixel
        + j * fb.stride ∧
      fb.framebuffer_addr + y * fb.stride + x * fb.bytes_per_pixel + j * fb.stride
        + w * fb.bytes_per_pixel ≤ fb.framebuffer_addr + fb.total_size := by
  obtain ⟨hb, hstr⟩ := hwf
  obtain ⟨hx0, hx1, hy0, hy1⟩ := hin
  generalize fb.framebuffer_addr = A at *
  generalize fb.stride = S at *
  generalize fb.bytes_per_pixel = b at *
  have hX0 : 0 ≤ x * b := mul_nonneg hx0 hb.le
  have hX1 : (x + w) * b ≤ fb.xres * b := mul_le_mul_of_nonneg_right hx1 hb.le
  have hn0 : 0 < w * b := mul_pos hw hb
  have hS0 : 0 ≤ S := by linarith
  have h1 : 0 ≤ y * S := mul_nonneg hy0 hS0
  have h2 : 0 ≤ j * S := mul_nonneg hj0 hS0
  have h3 : (y + j + 1) * S ≤ (y + h) * S := mul_le_mul_of_nonneg_right (by omega) hS0
  constructor <;> linarith

/-- Every byte of a rectangle inside a well-formed buffer lies in its storage. -/
theorem inRect_inStorage (fb : dglPixelBuffer) (x y w h a : Int) (hwf : WellFormed fb)
    (hin : RectInside fb x y w h) (ha : InRect fb x y w h a) : InStorage fb a := by
  obtain ⟨i, j, c, hi0, hi1, hj0, hj1, hc0, hc1, rfl⟩ := ha
  have hw : 0 < w := by omega
  obtain ⟨r0, r1⟩ := row_in_storage fb x y w h j hwf hin hj0 hj1 hw
  obtain ⟨t0, t1⟩ := row_offset_bounds fb.bytes_per_pixel w i c hi0 hi1 hc0 hc1
  rw [pixelAddr_row]
  unfold InStorage
  constructor <;> linarith

/-- A byte of row `j` of a rectangle, given by its offset in the row, is a byte
of a pixel of the rectangle. -/
theorem inRect_of_row (fb : dglPixelBuffer) (x y w h j t : Int)
    (hb : 0 < fb.bytes_per_pixel) (hj0 : 0 ≤ j) (hj1 : j < h)
    (ht0 : 0 ≤ t) (ht1 : t < w * fb.bytes_per_pixel) :
    InRect fb x y w h
      (fb.framebuffer_addr + y * fb.stride + x * fb.bytes_per_pixel + j * fb.stride + t) := by
  refine ⟨t / fb.bytes_per_pixel, j, t % fb.bytes_per_pixel,
    Int.ediv_nonneg ht0 hb.le, Int.ediv_lt_of_lt_mul hb ht1, hj0, hj1,
    Int.emod_nonneg _ hb.ne', Int.emod_lt_of_pos _ hb, ?_⟩
  rw [pixelAddr_row]
  have := Int.ediv_add_emod t fb.bytes_per_pixel
  linarith

/-- Row form of the correctness of `dglCopyAreaAcross` for two buffers with
disjoint storage and equal pixel size. -/
theorem dglCopyAreaAcross_rows (R D : dglPixelBuffer) (m : Mem) (sx sy dx dy w h : Int)
    (hbpp : R.bytes_per_pixel = D.bytes_per_pixel) (hwfR : WellFormed R) (hwfD : WellFormed D)
    (hsrc : RectInside R sx sy w h) (hdst : RectInside D dx dy w h)
    (hdisj : StorageDisjoint R D) (hw : 0 < w) (hh : 0 < h)
    (j t : Int) (hj0 : 0 ≤ j) (hj1 : j < h) (ht0 : 0 ≤ t) (ht1 : t < w * D.bytes_per_pixel) :
    dglCopyAreaAcross R D m sx sy dx dy w h
        (D.framebuffer_addr + dy * D.stride + dx * D.bytes_per_pixel + j * D.stride + t)
      = m (R.framebuffer_addr + sy * R.stride + sx * R.bytes_per_pixel + j * R.stride + t) := by
  have hR := fun (k : Int) (h0 : 0 ≤ k) (h1 : k < h) =>
    row_in_storage R sx sy w h k hwfR hsrc h0 h1 hw
  have hD := fun (k : Int) (h0 : 0 ≤ k) (h1 : k < h) =>
    row_in_storage D dx dy w h k hwfD hdst h0 h1 hw
  obtain ⟨hb, hstrD⟩ := hwfD
  obtain ⟨_, hstrR⟩ := hwfR
  obtain ⟨hsx0, hsx1, hsy0, hsy1⟩ := hsrc
  obtain ⟨hdx0, hdx1, hdy0, hdy1⟩ := hdst
  unfold StorageDisjoint at hdisj
  unfold dglCopyAreaAcross
  rw [hbpp] at hR hstrR ⊢
  generalize R.framebuffer_addr = A at *
  generalize D.framebuffer_addr = B at *
  generalize R.stride = Rs at *
  generalize D.stride = Ds at *
  generalize D.bytes_per_pixel = b at *
  generalize R.total_size = Rt at *
  generalize D.total_size = Dt at *
  have hX0 : 0 ≤ sx * b := mul_nonneg hsx0 hb.le
  have hY0 : 0 ≤ dx * b := mul_nonneg hdx0 hb.le
  have hX1 : (sx + w) * b ≤ R.xres * b := mul_le_mul_of_nonneg_right hsx1 hb.le
  have hY1 : (dx + w) * b ≤ D.xres * b := mul_le_mul_of_nonneg_right hdx1 hb.le
  have hn0 : 0 < w * b := mul_pos hw hb
  have hDs0 : 0 ≤ Ds := by linarith
  have hncast : (((w * b).toNat : Nat) : Int) = w * b := Int.toNat_of_nonneg hn0.le
  have hhcast : ((h.toNat : Nat) : Int) = h := Int.toNat_of_nonneg hh.le
  split_ifs with hbulk
  · -- contiguous area
    obtain ⟨hwS, hRD⟩ := hbulk
    subst hRD
    have hSh : 0 ≤ Rs * h := mul_nonneg hDs0 hh.le
    have hcast : (((Rs * h).toNat : Nat) : Int) = Rs * h := Int.toNat_of_nonneg hSh
    have hj1S : (j + 1) * Rs ≤ h * Rs := mul_le_mul_of_nonneg_right (by omega) hDs0
    have hjS : 0 ≤ j * Rs := mul_nonneg hj0 hDs0
    have hh1 : (h - 1) * Rs + Rs = Rs * h := by ring
    have r0 := hR 0 le_rfl hh
    have r1 := hR (h - 1) (by omega) (by omega)
    have d0 := hD 0 le_rfl hh
    have d1 := hD (h - 1) (by omega) (by omega)
    have e1 : B + dy * Rs + dx * b + j * Rs + t = (B + dy * Rs + dx * b) + (j * Rs + t) := by
      ring
    have e2 : A + sy * Rs + sx * b + j * Rs + t = (A + sy * Rs + sx * b) + (j * Rs + t) := by
      ring
    rw [e1, e2]
    apply memcpy_copy
    · rw [hcast]
      rcases hdisj with hd | hd
      · right; linarith
      · left; linarith
    · linarith
    · rw [hcast]; linarith
  · -- row by row
    have hk : ((j.toNat : Nat) : Int) = j := Int.toNat_of_nonneg hj0
    have hlt : ∀ k : Nat, k < h.toNat → (k : Int) < h := by
      intro k hk2; rw [← hhcast]; exact_mod_cast hk2
    have key := copyRows_copy Ds Rs (w * b).toNat h.toNat m
      (B + dy * Ds + dx * b) (A + sy * Rs + sx * b)
      (by
        intro k hk2
        have r := hR k (Int.natCast_nonneg k) (hlt k hk2)
        have d := hD k (Int.natCast_nonneg k) (hlt k hk2)
        rw [hncast]
        rcases hdisj with hd | hd
        · right; linarith
        · left; linarith)
      (by
        intro k k2 hkk _
        left
        have : ((k : Int) + 1) * Ds ≤ (k2 : Int) * Ds :=
          mul_le_mul_of_nonneg_right (by exact_mod_cast hkk) hDs0
        rw [hncast]; linarith)
      (by
        intro k k2 hkk hk2
        have r := hR k2 (Int.natCast_nonneg k2) (hlt k2 hk2)
        have d := hD k (Int.natCast_nonneg k) (hlt k (lt_trans hkk hk2))
        rw [hncast]
        rcases hdisj with hd | hd
        · right; linarith
        · left; linarith)
      j.toNat (by zify; rw [hk, hhcast]; exact hj1) t ht0 (by rw [hncast]; exact ht1)
    rw [hk] at key
    exact key

/-- Frame of `dglCopyAreaAcross`: a byte that belongs to no pixel of the
destination rectangle is left as it was. -/
theorem dglCopyAreaAcross_frame (R D : dglPixelBuffer) (m : Mem) (sx sy dx dy w h : Int)
    (hb : 0 < D.bytes_per_pixel) (hw : 0 < w) (hh : 0 < h)
    (a : Int) (hout : ¬ InRect D dx dy w h a) :
    dglCopyAreaAcross R D m sx sy dx dy w h a = m a := by
  have hrow := fun (j t : Int) (hj0 : 0 ≤ j) (hj1 : j < h) (ht0 : 0 ≤ t)
      (ht1 : t < w * D.bytes_per_pixel) =>
    inRect_of_row D dx dy w h j t hb hj0 hj1 ht0 ht1
  unfold dglCopyAreaAcross
  generalize D.framebuffer_addr = B at *
  generalize D.stride = Ds at *
  generalize D.bytes_per_pixel = b at *
  have hn0 : 0 < w * b := mul_pos hw hb
  have hncast : (((w * b).toNat : Nat) : Int) = w * b := Int.toNat_of_nonneg hn0.le
  have hhcast : ((h.toNat : Nat) : Int) = h := Int.toNat_of_nonneg hh.le
  split_ifs with hbulk
  · obtain ⟨hwS, hRD⟩ := hbulk
    have hS : 0 < Ds := by rw [← hRD, ← hwS]; exact hn0
    have hcast : (((Ds * h).toNat : Nat) : Int) = Ds * h :=
      Int.toNat_of_nonneg (mul_nonneg hS.le hh.le)
    apply memcpy_frame
    rw [hcast]
    by_contra hcon
    push_neg at hcon
    obtain ⟨c0, c1⟩ := hcon
    apply hout
    have hu0 : 0 ≤ a - (B + dy * Ds + dx * b) := by linarith
    have hu1 : a - (B + dy * Ds + dx * b) < h * Ds := by linarith
    have hmod := Int.ediv_add_emod (a - (B + dy * Ds + dx * b)) Ds
    have := hrow ((a - (B + dy * Ds + dx * b)) / Ds) ((a - (B + dy * Ds + dx * b)) % Ds)
      (Int.ediv_nonneg hu0 hS.le) (Int.ediv_lt_of_lt_mul hS hu1)
      (Int.emod_nonneg _ hS.ne') (by rw [hwS, hRD]; exact Int.emod_lt_of_pos _ hS)
    have e : B + dy * Ds + dx * b + (a - (B + dy * Ds + dx * b)) / Ds * Ds
        + (a - (B + dy * Ds + dx * b)) % Ds = a := by linarith
    rw [e] at this
    exact this
  · apply copyRows_frame
    intro k hk
    by_contra hcon
    push_neg at hcon
    obtain ⟨c0, c1⟩ := hcon
    apply hout
    have hkh : (k : Int) < h := by rw [← hhcast]; exact_mod_cast hk
    have := hrow k (a - (B + dy * Ds + dx * b + k * Ds)) (Int.natCast_nonneg k) hkh
      (by linarith) (by rw [hncast] at c1; linarith)
    have e : B + dy * Ds + dx * b + k * Ds + (a - (B + dy * Ds + dx * b + k * Ds)) = a := by
      ring
    rw [e] at this
    exact this

/-- C4: for a context whose read and draw buffers are distinct (distinct
objects with non-overlapping storage) and have equal `bytes_per_pixel`, and a
`dglCopyArea` with `w > 0`, `h > 0` and both rectangles inside their buffers,
afterwards draw-buffer pixel `(dx+i, dy+draw_yoffset+j)` holds the bytes of
read-buffer pixel `(sx+i, sy+read_yoffset+j)`, the read buffer is unchanged, and
every byte outside the destination rectangle is unchanged; the statement covers
the bulk path and the row-by-row path alike. -/
theorem copyArea_across_buffers (dev : FbDevice) (s : State) (context : Nat)
    (sx sy dx dy w h : Int) (hw : 0 < w) (hh : 0 < h)
    (hne : (s.context context).read_fb ≠ (s.context context).draw_fb)
    (hbpp : (s.fb (s.context context).read_fb).bytes_per_pixel
      = (s.fb (s.context context).draw_fb).bytes_per_pixel)
    (hwfR : WellFormed (s.fb (s.context context).read_fb).todglPixelBuffer)
    (hwfD : WellFormed (s.fb (s.context context).draw_fb).todglPixelBuffer)
    (hsrc : RectInside (s.fb (s.context context).read_fb).todglPixelBuffer sx
      (sy + (s.context context).read_yoffset) w h)
    (hdst : RectInside (s.fb (s.context context).draw_fb).todglPixelBuffer dx
      (dy + (s.context context).draw_yoffset) w h)
    (hdisj : StorageDisjoint (s.fb (s.context context).read_fb).todglPixelBuffer
      (s.fb (s.context context).draw_fb).todglPixelBuffer) :
    (∀ i j c : Int, 0 ≤ i → i < w → 0 ≤ j → j < h →
      0 ≤ c → c < (s.fb (s.context context).draw_fb).bytes_per_pixel →
      (dglCopyArea dev s context sx sy dx dy w h).mem
          (pixelAddr (s.fb (s.context context).draw_fb).todglPixelBuffer (dx + i)
            (dy + (s.context context).draw_yoffset + j) + c)
        = s.mem (pixelAddr (s.fb (s.context context).read_fb).todglPixelBuffer (sx + i)
            (sy + (s.context context).read_yoffset + j) + c)) ∧
    (∀ a : Int, InStorage (s.fb (s.context context).read_fb).todglPixelBuffer a →
      (dglCopyArea dev s context sx sy dx dy w h).mem a = s.mem a) ∧
    (∀ a : Int, ¬ InRect (s.fb (s.context context).draw_fb).todglPixelBuffer dx
        (dy + (s.context context).draw_yoffset) w h a →
      (dglCopyArea dev s context sx sy dx dy w h).mem a = s.mem a) := by
  have hmem : (dglCopyArea dev s context sx sy dx dy w h).mem =
      dglCopyAreaAcross (s.fb (s.context context).read_fb).todglPixelBuffer
        (s.fb (s.context context).draw_fb).todglPixelBuffer s.mem sx
        (sy + (s.context context).read_yoffset) dx (dy + (s.context context).draw_yoffset) w h := by
    unfold dglCopyArea
    rw [if_neg (by omega)]
    simp only [if_neg hne]
    rw [if_pos hbpp]
  have hframe : ∀ a : Int, ¬ InRect (s.fb (s.context context).draw_fb).todglPixelBuffer dx
        (dy + (s.context context).draw_yoffset) w h a →
      (dglCopyArea dev s context sx sy dx dy w h).mem a = s.mem a := by
    intro a ha
    rw [hmem]
    exact dglCopyAreaAcross_frame _ _ _ _ _ _ _ _ _ hwfD.1 hw hh a ha
  refine ⟨?_, ?_, hframe⟩
  · intro i j c hi0 hi1 hj0 hj1 hc0 hc1
    obtain ⟨t0, t1⟩ := row_offset_bounds _ w i c hi0 hi1 hc0 hc1
    have key := dglCopyAreaAcross_rows _ _ s.mem sx (sy + (s.context context).read_yoffset) dx
      (dy + (s.context context).draw_yoffset) w h hbpp hwfR hwfD hsrc hdst hdisj hw hh j _
      hj0 hj1 t0 t1
    rw [hmem]
    have e1 : pixelAddr (s.fb (s.context context).draw_fb).todglPixelBuffer (dx + i)
          (dy + (s.context context).draw_yoffset + j) + c
        = (s.fb (s.context context).draw_fb).framebuffer_addr
          + (dy + (s.context context).draw_yoffset) * (s.fb (s.context context).draw_fb).stride
          + dx * (s.fb (s.context context).draw_fb).bytes_per_pixel
          + j * (s.fb (s.context context).draw_fb).stride
          + (i * (s.fb (s.context context).draw_fb).bytes_per_pixel + c) := by
      unfold pixelAddr; ring
    have e2 : pixelAddr (s.fb (s.context context).read_fb).todglPixelBuffer (sx + i)
          (sy + (s.context context).read_yoffset + j) + c
        = (s.fb (s.context context).read_fb).framebuffer_addr
          + (sy + (s.context context).read_yoffset) * (s.fb (s.context context).read_fb).stride
          + sx * (s.fb (s.context context).read_fb).bytes_per_pixel
          + j * (s.fb (s.context context).read_fb).stride
          + (i * (s.fb (s.context context).draw_fb).bytes_per_pixel + c) := by
      unfold pixelAddr; rw [hbpp]; ring
    rw [e1, e2]
    exact key
  · intro a ha
    apply hframe
    intro hin
    have hD := inRect_inStorage _ _ _ _ _ _ hwfD hdst hin
    unfold InStorage at ha hD
    unfold StorageDisjoint at hdisj
    omega

/-- Instance of C4: the 2x2 block at the origin of the first pixmap copied to
`(1, 1)` of the second one; a pixel read back, and a byte of the read buffer. -/
theorem copyArea_across_buffers_witness :
    (dglCopyArea idleDevice twoPixmapState 0 0 0 1 1 2 2).mem
        (pixelAddr pixmapBuf2 (1 + 1) (1 + 0 + 1) + 1)
      = rampMem (pixelAddr pixmapBuf (0 + 1) (0 + 0 + 1) + 1) ∧
    (dglCopyArea idleDevice twoPixmapState 0 0 0 1 1 2 2).mem 5 = rampMem 5 :=
  have H := copyArea_across_buffers idleDevice twoPixmapState 0 0 0 1 1 2 2 (by decide)
    (by decide) (by decide) (by decide) (by unfold WellFormed; decide)
    (by unfold WellFormed; decide) (by unfold RectInside; decide)
    (by unfold RectInside; decide) (by unfold StorageDisjoint; decide)
  ⟨H.1 1 1 1 (by decide) (by decide) (by decide) (by decide) (by decide) (by decide),
   H.2.1 5 (by unfold InStorage; decide)⟩

/-! ## Error path, hardware dispatch and degenerate calls -/

theorem dglMessage_dispatched (s : State) (priority : Int) (format : String) :
    (dglMessage s priority format).dispatched = s.dispatched := by
  unfold dglMessage; split_ifs <;> rfl

theorem dglMessage_warning_sigabrt (s : State) (format : String) :
    (dglMessage s DGL_MESSAGE_WARNING format).sigabrt_raised = s.sigabrt_raised := by
  have hne : DGL_MESSAGE_WARNING ≠ DGL_MESSAGE_FATAL_ERROR := by decide
  unfold dglMessage
  by_cases h1 : DGL_MESSAGE_WARNING > s.dgl_internal_debug_message_level
  · rw [if_pos h1]
  · rw [if_neg h1]
    simp [hne]

/-- Counterexample to C5 as stated ("with any arguments ... reports a
warning"): on buffers of different pixel size a call with `w = 0` prints no
warning, at the default message level. -/
theorem copyArea_mixed_format_degenerate_silent :
    (mixedFormatState.context 0).read_fb ≠ (mixedFormatState.context 0).draw_fb ∧
    (mixedFormatState.fb (mixedFormatState.context 0).read_fb).bytes_per_pixel
      ≠ (mixedFormatState.fb (mixedFormatState.context 0).draw_fb).bytes_per_pixel ∧
    (dglCopyArea idleDevice mixedFormatState 0 0 0 0 0 0 4).stdout = [] := by
  refine ⟨by decide, by decide, rfl⟩

/-- C5 (amended): for a context whose read and draw buffers are distinct and
differ in `bytes_per_pixel`, `dglCopyArea` with any arguments leaves all memory
unchanged and does not raise `SIGABRT`; when `w > 0` and `h > 0` it passes the
format warning to `dglMessage` (which prints it whenever the message level
admits warnings), and otherwise it returns at once and reports nothing. -/
theorem copyArea_mixed_format (dev : FbDevice) (s : State) (context : Nat)
    (sx sy dx dy w h : Int)
    (hne : (s.context context).read_fb ≠ (s.context context).draw_fb)
    (hbpp : (s.fb (s.context context).read_fb).bytes_per_pixel
      ≠ (s.fb (s.context context).draw_fb).bytes_per_pixel) :
    (dglCopyArea dev s context sx sy dx dy w h).mem = s.mem ∧
    (dglCopyArea dev s context sx sy dx dy w h).sigabrt_raised = s.sigabrt_raised ∧
    dglCopyArea dev s context sx sy dx dy w h
      = (if 0 < w ∧ 0 < h then dglMessage s DGL_MESSAGE_WARNING formatWarning else s) ∧
    (0 < w → 0 < h → DGL_MESSAGE_WARNING ≤ s.dgl_internal_debug_message_level →
      (dglCopyArea dev s context sx sy dx dy w h).stdout
        = s.stdout ++ ["dgl: ", "WARNING: ", formatWarning]) := by
  have key : dglCopyArea dev s context sx sy dx dy w h
      = (if 0 < w ∧ 0 < h then dglMessage s DGL_MESSAGE_WARNING formatWarning else s) := by
    unfold dglCopyArea
    by_cases hd : w ≤ 0 ∨ h ≤ 0
    · rw [if_pos hd, if_neg (show ¬ (0 < w ∧ 0 < h) by omega)]
    · rw [if_neg hd, if_pos (show 0 < w ∧ 0 < h by omega)]
      simp only [if_neg hne, if_neg hbpp]
      rfl
  refine ⟨?_, ?_, key, ?_⟩
  · rw [key]; split_ifs
    · exact dglMessage_mem _ _ _
    · rfl
  · rw [key]; split_ifs
    · exact dglMessage_warning_sigabrt _ _
    · rfl
  · intro hw hh hlevel
    rw [key, if_pos ⟨hw, hh⟩]
    unfold dglMessage
    rw [if_neg (by omega)]
    simp

/-- Instance of C5 (amended): a 2x2 copy from the RGB565 pixmap into the
XRGB8888 pixmap prints exactly the warning. -/
theorem copyArea_mixed_format_witness :
    (dglCopyArea idleDevice mixedFormatState 0 0 0 0 0 2 2).stdout
      = mixedFormatState.stdout ++ ["dgl: ", "WARNING: ", formatWarning] :=
  (copyArea_mixed_format idleDevice mixedFormatState 0 0 0 0 0 2 2 (by decide)
    (by decide)).2.2.2 (by decide) (by decide) (by decide)

/-- C6: for a context with `read_fb == draw_fb` and `w > 0`, `h > 0`: if the
buffer's flags contain the hardware copy-area capability, `dglCopyArea` is
exactly one call of the surface's copy-area dispatch entry with arguments
`(sx, sy + read_yoffset, dx, dy + draw_yoffset, w, h)`, and memory is what that
entry leaves (no software write); if the flag is clear, whatever the dispatch
entry is bound to, no dispatch call is made and memory is what the software
path (`dglCopyAreaSimple` or `dglCopyAreaDifficult`) leaves. -/
theorem copyArea_hardware_dispatch (dev : FbDevice) (s : State) (context : Nat)
    (sx sy dx dy w h : Int) (hw : 0 < w) (hh : 0 < h)
    (hsame : (s.context context).read_fb = (s.context context).draw_fb) :
    (HaveCopyArea (s.fb (s.context context).draw_fb).todglPixelBuffer →
      dglCopyArea dev s context sx sy dx dy w h
        = callCopyAreaFunc dev s (s.context context).draw_fb sx
            (sy + (s.context context).read_yoffset) dx
            (dy + (s.context context).draw_yoffset) w h ∧
      (dglCopyArea dev s context sx sy dx dy w h).dispatched
        = s.dispatched ++ [DispatchCall.CopyAreaFunc (s.context context).draw_fb sx
            (sy + (s.context context).read_yoffset) dx
            (dy + (s.context context).draw_yoffset) w h] ∧
      (dglCopyArea dev s context sx sy dx dy w h).mem
        = (match (s.fb (s.context context).draw_fb).CopyAreaFunc with
          | CopyAreaFuncPtr.dglConsoleFBCopyArea =>
            (dev.FBIOCOPYAREA (s.fb (s.context context).draw_fb).fd sx
              (sy + (s.context context).read_yoffset) dx
              (dy + (s.context context).draw_yoffset) w h s.mem).2
          | CopyAreaFuncPtr.dglConsoleFBCopyAreaNoOp => s.mem)) ∧
    (¬ HaveCopyArea (s.fb (s.context context).draw_fb).todglPixelBuffer →
      (dglCopyArea dev s context sx sy dx dy w h).dispatched = s.dispatched ∧
      (dglCopyArea dev s context sx sy dx dy w h).mem =
        if dy + (s.context context).draw_yoffset < sy + (s.context context).read_yoffset ∨
            dy + (s.context context).draw_yoffset ≥ sy + (s.context context).read_yoffset + h ∨
            dx < sx ∨ dx ≥ sx + w then
          dglCopyAreaSimple (s.fb (s.context context).draw_fb).todglPixelBuffer s.mem sx
            (sy + (s.context context).read_yoffset) dx (dy + (s.context context).draw_yoffset) w h
        else
          dglCopyAreaDifficult (s.fb (s.context context).draw_fb).todglPixelBuffer s.mem sx
            (sy + (s.context context).read_yoffset) dx
            (dy + (s.context context).draw_yoffset) w h) := by
  constructor
  · intro hflag
    have key : dglCopyArea dev s context sx sy dx dy w h
        = callCopyAreaFunc dev s (s.context context).draw_fb sx
            (sy + (s.context context).read_yoffset) dx
            (dy + (s.context context).draw_yoffset) w h := by
      unfold HaveCopyArea at hflag
      unfold dglCopyArea
      rw [if_neg (by omega)]
      simp only [hsame, if_true]
      rw [if_pos hflag]
      unfold dglCopyAreaScreenFB
      rw [if_pos hflag]
    refine ⟨key, ?_, ?_⟩
    · rw [key]
      unfold callCopyAreaFunc
      cases (s.fb (s.context context).draw_fb).CopyAreaFunc
      · simp only [dglConsoleFBCopyArea]
        split_ifs
        · rw [dglMessage_dispatched]
        · rfl
      · rfl
    · rw [key]
      unfold callCopyAreaFunc
      cases (s.fb (s.context context).draw_fb).CopyAreaFunc
      · simp only [dglConsoleFBCopyArea]
        split_ifs
        · rw [dglMessage_mem]
        · rfl
      · rfl
  · intro hflag
    refine ⟨?_, dglCopyArea_software_mem dev s context sx sy dx dy w h hw hh hsame hflag⟩
    unfold HaveCopyArea at hflag
    unfold dglCopyArea
    rw [if_neg (by omega)]
    simp only [hsame, if_true]
    rw [if_neg hflag]
    split_ifs
    · rfl
    · rw [dglMessage_dispatched]

/-- Instances of C6 on a console surface bound to the hardware implementation:
with the flag set the entry is called once, with the offsets added; with the
flag masked by the caller nothing is dispatched. -/
theorem copyArea_hardware_dispatch_witness :
    (dglCopyArea idleDevice
        (consoleState (DGL_FB_TYPE_CONSOLE ||| DGL_FB_FLAG_HAVE_COPY_AREA)
          CopyAreaFuncPtr.dglConsoleFBCopyArea) 0 0 0 2 0 2 2).dispatched
      = [] ++ [DispatchCall.CopyAreaFunc 1 0 (0 + 1) 2 (0 + 4) 2 2] ∧
    (dglCopyArea idleDevice
        (consoleState DGL_FB_TYPE_CONSOLE CopyAreaFuncPtr.dglConsoleFBCopyArea)
        0 0 0 2 0 2 2).dispatched = [] :=
  ⟨((copyArea_hardware_dispatch idleDevice
        (consoleState (DGL_FB_TYPE_CONSOLE ||| DGL_FB_FLAG_HAVE_COPY_AREA)
          CopyAreaFuncPtr.dglConsoleFBCopyArea) 0 0 0 2 0 2 2 (by decide) (by decide) rfl).1
      (by decide)).2.1,
   ((copyArea_hardware_dispatch idleDevice
        (consoleState DGL_FB_TYPE_CONSOLE CopyAreaFuncPtr.dglConsoleFBCopyArea)
        0 0 0 2 0 2 2 (by decide) (by decide) rfl).2 (by decide)).1⟩

/-- C7: for every context and every arguments with `w <= 0` or `h <= 0`, both
`dglFill` and `dglCopyArea` return the machine state they were given: every
byte of memory (hence of the read and draw buffers), every context field and
the trace of dispatch calls are unchanged. -/
theorem degenerate_calls_noop (dev : FbDevice) (s : State) (context : Nat)
    (x y sx sy dx dy w h : Int) (pixel : Nat) (hdeg : w ≤ 0 ∨ h ≤ 0) :
    dglFill s context x y w h pixel = s ∧
    dglCopyArea dev s context sx sy dx dy w h = s := by
  constructor
  · unfold dglFill; rw [if_pos hdeg]
  · unfold dglCopyArea; rw [if_pos hdeg]

/-- Instance of C7: zero width on the hardware-capable console surface. -/
theorem degenerate_calls_noop_witness :
    dglFill (consoleState (DGL_FB_TYPE_CONSOLE ||| DGL_FB_FLAG_HAVE_COPY_AREA)
        CopyAreaFuncPtr.dglConsoleFBCopyArea) 0 1 1 0 3 0x1234
      = consoleState (DGL_FB_TYPE_CONSOLE ||| DGL_FB_FLAG_HAVE_COPY_AREA)
        CopyAreaFuncPtr.dglConsoleFBCopyArea ∧
    dglCopyArea idleDevice (consoleState (DGL_FB_TYPE_CONSOLE ||| DGL_FB_FLAG_HAVE_COPY_AREA)
        CopyAreaFuncPtr.dglConsoleFBCopyArea) 0 0 0 2 0 0 3
      = consoleState (DGL_FB_TYPE_CONSOLE ||| DGL_FB_FLAG_HAVE_COPY_AREA)
        CopyAreaFuncPtr.dglConsoleFBCopyArea :=
  degenerate_calls_noop idleDevice _ 0 1 1 0 0 2 0 0 3 0x1234 (by decide)

/-! ## Lemmas on the fills -/

theorem store16_apply (m : Mem) (a : Int) (v : Nat) (x : Int) :
    store16 m a v x = if a ≤ x ∧ x < a + 2 then byte16 v (x - a) else m x := by
  unfold store16 store8 byte16
  split_ifs <;> first | rfl | omega

theorem store32_apply (m : Mem) (a : Int) (v : Nat) (x : Int) :
    store32 m a v x = if a ≤ x ∧ x < a + 4 then byte32 v (x - a) else m x := by
  unfold store32 store8 byte32
  split_ifs <;> first | rfl | omega

/-- Closed form of the loops of `memset32`: `size` consecutive 32-bit words hold
the value, everything else is untouched. -/
theorem memset32Loop_apply (v : Nat) (size : Nat) : ∀ (m : Mem) (dp x : Int),
    memset32Loop m dp v size x
      = if dp ≤ x ∧ x < dp + 4 * size then byte32 v ((x - dp) % 4) else m x := by
  induction size using Nat.strong_induction_on with
  | _ size ih =>
    intro m dp x
    match size, ih with
    | 0, _ =>
      rw [memset32Loop, if_neg (by push_cast; omega)]
    | 1, ih =>
      change memset32Loop (store32 m dp v) (dp + 4) v 0 x = _
      rw [ih 0 (by omega), store32_apply]
      push_cast
      split_ifs <;> first | rfl | omega | (congr 1; omega)
    | 2, ih =>
      change memset32Loop (store32 m dp v) (dp + 4) v 1 x = _
      rw [ih 1 (by omega), store32_apply]
      push_cast
      split_ifs <;> first | rfl | omega | (congr 1; omega)
    | 3, ih =>
      change memset32Loop (store32 m dp v) (dp + 4) v 2 x = _
      rw [ih 2 (by omega), store32_apply]
      push_cast
      split_ifs <;> first | rfl | omega | (congr 1; omega)
    | n + 4, ih =>
      rw [memset32Loop, ih n (by omega), store32_apply, store32_apply, store32_apply,
        store32_apply]
      push_cast
      split_ifs <;> first | rfl | omega | (congr 1; omega)

theorem memset32_apply (m : Mem) (dp : Int) (v : Nat) (w : Int) (hw : 0 ≤ w) (x : Int) :
    memset32 m dp v w x
      = if dp ≤ x ∧ x < dp + 4 * w then byte32 v ((x - dp) % 4) else m x := by
  unfold memset32
  rw [memset32Loop_apply, Int.toNat_of_nonneg hw]

/-- For a value below `2^16` the doubled word of `memset16` is two copies of it. -/
theorem value32_eq (v : Nat) (hv : v < 65536) :
    v ||| ((v <<< 16) % 4294967296) = 65536 * v + v := by
  have h1 : (v <<< 16) % 4294967296 = 2 ^ 16 * v := by
    rw [Nat.shiftLeft_eq]; omega
  rw [h1, Nat.lor_comm, ← Nat.mul_add_lt_is_or (by omega)]

/-- The bytes of a 32-bit store of two copies of a 16-bit value. -/
theorem byte32_double (v : Nat) (hv : v < 65536) (r : Int) (hr0 : 0 ≤ r) (hr1 : r < 4) :
    byte32 (65536 * v + v) r = byte16 v (r % 2) := by
  have f0 : (65536 * v + v) % 256 = v % 256 := by omega
  have a1 : (65536 * v + v) / 256 = 256 * v + v / 256 := by omega
  have a2 : (65536 * v + v) / 65536 = v := by omega
  have a3 : (65536 * v + v) / 16777216 = v / 256 := by omega
  have f1 : (256 * v + v / 256) % 256 = v / 256 % 256 := by omega
  have f3 : v / 256 % 256 = v / 256 := by omega
  unfold byte32 byte16
  rw [f0, a1, a2, a3, f1]
  split_ifs <;> omega

/-- Closed form of the loop of `memset16` when the doubled word is two copies of
a 16-bit value. -/
theorem memset16Loop_apply (v : Nat) (hv : v < 65536) (size : Nat) : ∀ (m : Mem) (dp x : Int),
    memset16Loop m dp v (65536 * v + v) size x
      = if dp ≤ x ∧ x < dp + 2 * size then byte16 v ((x - dp) % 2) else m x := by
  induction size using Nat.strong_induction_on with
  | _ size ih =>
    intro m dp x
    match size, ih with
    | 0, _ =>
      rw [memset16Loop, if_neg (by push_cast; omega)]
    | 1, _ =>
      rw [memset16Loop, store16_apply]
      push_cast
      split_ifs <;> first | rfl | omega | (congr 1; omega)
    | n + 2, ih =>
      rw [memset16Loop, ih n (by omega), store32_apply]
      push_cast
      by_cases hx : dp ≤ x ∧ x < dp + 4
      · rw [if_neg (by omega), if_pos hx, if_pos (by omega),
          byte32_double v hv (x - dp) (by omega) (by omega)]
      · rw [if_neg hx]
        split_ifs <;> first | rfl | omega | (congr 1; omega)

theorem memset16_apply (m : Mem) (dp : Int) (v : Nat) (hv : v < 65536) (w : Int) (hw : 0 < w)
    (x : Int) :
    memset16 m dp v w x
      = if dp ≤ x ∧ x < dp + 2 * w then byte16 v ((x - dp) % 2) else m x := by
  unfold memset16
  simp only [value32_eq v hv]
  split_ifs with h1 h2 h2
  · rw [memset16Loop_apply v hv, store16_apply, Int.toNat_of_nonneg (by omega)]
    split_ifs <;> first | rfl | omega | (congr 1; omega)
  · rw [memset16Loop_apply v hv, store16_apply, Int.toNat_of_nonneg (by omega)]
    split_ifs <;> first | rfl | omega
  · rw [memset16Loop_apply v hv, Int.toNat_of_nonneg (by omega), if_pos h2]
  · rw [memset16Loop_apply v hv, Int.toNat_of_nonneg (by omega), if_neg h2]

/-- Frame of the row loop of `dglFill`, for a row operation that writes only
the `n` bytes from `dp` on. -/
theorem fillRows_frame (f : Mem → Int → Nat → Int → Mem) (pixel : Nat) (w n S : Int)
    (hfr : ∀ (m : Mem) (dp a : Int), (a < dp ∨ dp + n ≤ a) → f m dp pixel w a = m a)
    (a : Int) (h : Nat) : ∀ (m : Mem) (dp : Int),
    (∀ k : Nat, k < h → a < dp + k * S ∨ dp + k * S + n ≤ a) →
    fillRows f m dp S pixel w h a = m a := by
  induction h with
  | zero => intro m dp _; rfl
  | succ h ih =>
    intro m dp hout
    rw [fillRows, ih]
    · apply hfr
      have := hout 0 (Nat.succ_pos h)
      simpa using this
    · intro k hk
      have := hout (k + 1) (Nat.succ_lt_succ hk)
      push_cast at this
      rcases this with h1 | h1
      · left; linarith
      · right; linarith

/-- Values left by the row loop of `dglFill`, for a row operation that writes
the pattern `P` over the `n` bytes from `dp` on, when rows do not overlap. -/
theorem fillRows_value (f : Mem → Int → Nat → Int → Mem) (pixel : Nat) (w n S : Int)
    (P : Int → Nat) (hnS : n ≤ S)
    (hfr : ∀ (m : Mem) (dp a : Int), (a < dp ∨ dp + n ≤ a) → f m dp pixel w a = m a)
    (hval : ∀ (m : Mem) (dp t : Int), 0 ≤ t → t < n → f m dp pixel w (dp + t) = P t)
    (h : Nat) : ∀ (m : Mem) (dp : Int) (k : Nat), k < h → ∀ t : Int, 0 ≤ t → t < n →
    fillRows f m dp S pixel w h (dp + k * S + t) = P t := by
  induction h with
  | zero => intro m dp k hk; omega
  | succ h ih =>
    intro m dp k hk t t0 t1
    rw [fillRows]
    cases k with
    | zero =>
      rw [fillRows_frame f pixel w n S hfr]
      · simp only [Nat.cast_zero, zero_mul, add_zero]
        exact hval m dp t t0 t1
      · intro k2 _
        left
        have : 0 ≤ (k2 : Int) * S := mul_nonneg (Int.natCast_nonneg k2) (by linarith)
        simp only [Nat.cast_zero, zero_mul, add_zero]
        linarith
    | succ k =>
      have e : dp + ((k + 1 : Nat) : Int) * S + t = (dp + S) + (k : Int) * S + t := by
        push_cast; ring
      rw [e]
      exact ih _ _ k (Nat.lt_of_succ_lt_succ hk) t t0 t1

/-- What `dglFill` leaves in memory when `w > 0` and `h > 0`. -/
theorem dglFill_mem (s : State) (context : Nat) (x y w h : Int) (pixel : Nat)
    (hw : 0 < w) (hh : 0 < h) :
    (dglFill s context x y w h pixel).mem =
      if (s.fb (s.context context).draw_fb).bytes_per_pixel = 4 then
        fillRows memset32 s.mem
          (pixelAddr (s.fb (s.context context).draw_fb).todglPixelBuffer x
            (y + (s.context context).draw_yoffset))
          (s.fb (s.context context).draw_fb).stride pixel w h.toNat
      else
        fillRows memset16 s.mem
          (pixelAddr (s.fb (s.context context).draw_fb).todglPixelBuffer x
            (y + (s.context context).draw_yoffset))
          (s.fb (s.context context).draw_fb).stride pixel w h.toNat := by
  unfold dglFill pixelAddr
  rw [if_neg (by omega)]
  by_cases hb : (s.fb (s.context context).draw_fb).bytes_per_pixel = 4
  · simp only [if_pos hb]
  · simp only [if_neg hb]

/-- Bytes of a filled pixel on a 32-bit buffer. -/
theorem dglFill_byte32 (s : State) (context : Nat) (x y w h : Int) (p : Nat)
    (hw : 0 < w) (hh : 0 < h)
    (hbpp : (s.fb (s.context context).draw_fb).bytes_per_pixel = 4)
    (hwf : WellFormed (s.fb (s.context context).draw_fb).todglPixelBuffer)
    (hin : RectInside (s.fb (s.context context).draw_fb).todglPixelBuffer x
      (y + (s.context context).draw_yoffset) w h)
    (i j c : Int) (hi0 : 0 ≤ i) (hi1 : i < w) (hj0 : 0 ≤ j) (hj1 : j < h)
    (hc0 : 0 ≤ c) (hc1 : c < 4) :
    (dglFill s context x y w h p).mem
        (pixelAddr (s.fb (s.context context).draw_fb).todglPixelBuffer (x + i)
          (y + (s.context context).draw_yoffset + j) + c)
      = byte32 p c := by
  rw [dglFill_mem s context x y w h p hw hh, if_pos hbpp]
  obtain ⟨hb, hstr⟩ := hwf
  obtain ⟨hx0, hx1, -, -⟩ := hin
  rw [hbpp] at hstr
  have hk : ((j.toNat : Nat) : Int) = j := Int.toNat_of_nonneg hj0
  have hhcast : ((h.toNat : Nat) : Int) = h := Int.toNat_of_nonneg hh.le
  have key := fillRows_value memset32 p w (4 * w) (s.fb (s.context context).draw_fb).stride
    (fun t => byte32 p (t % 4)) (by linarith)
    (by
      intro m dp a ha
      rw [memset32_apply m dp p w hw.le, if_neg (by omega)])
    (by
      intro m dp t t0 t1
      rw [memset32_apply m dp p w hw.le, if_pos (by omega)]
      congr 1; omega)
    h.toNat s.mem
    (pixelAddr (s.fb (s.context context).draw_fb).todglPixelBuffer x
      (y + (s.context context).draw_yoffset))
    j.toNat (by zify; rw [hk, hhcast]; exact hj1) (4 * i + c) (by omega) (by omega)
  rw [hk] at key
  have e : pixelAddr (s.fb (s.context context).draw_fb).todglPixelBuffer (x + i)
        (y + (s.context context).draw_yoffset + j) + c
      = pixelAddr (s.fb (s.context context).draw_fb).todglPixelBuffer x
          (y + (s.context context).draw_yoffset)
        + j * (s.fb (s.context context).draw_fb).stride + (4 * i + c) := by
    unfold pixelAddr; rw [hbpp]; ring
  rw [e, key]
  show byte32 p ((4 * i + c) % 4) = byte32 p c
  congr 1; omega

/-- Bytes of a filled pixel on a 16-bit buffer, for a pixel value below `2^16`. -/
theorem dglFill_byte16 (s : State) (context : Nat) (x y w h : Int) (p : Nat)
    (hw : 0 < w) (hh : 0 < h) (hp : p < 65536)
    (hbpp : (s.fb (s.context context).draw_fb).bytes_per_pixel = 2)
    (hwf : WellFormed (s.fb (s.context context).draw_fb).todglPixelBuffer)
    (hin : RectInside (s.fb (s.context context).draw_fb).todglPixelBuffer x
      (y + (s.context context).draw_yoffset) w h)
    (i j c : Int) (hi0 : 0 ≤ i) (hi1 : i < w) (hj0 : 0 ≤ j) (hj1 : j < h)
    (hc0 : 0 ≤ c) (hc1 : c < 2) :
    (dglFill s context x y w h p).mem
        (pixelAddr (s.fb (s.context context).draw_fb).todglPixelBuffer (x + i)
          (y + (s.context context).draw_yoffset + j) + c)
      = byte16 p c := by
  rw [dglFill_mem s context x y w h p hw hh, if_neg (by omega)]
  obtain ⟨hb, hstr⟩ := hwf
  obtain ⟨hx0, hx1, -, -⟩ := hin
  rw [hbpp] at hstr
  have hk : ((j.toNat : Nat) : Int) = j := Int.toNat_of_nonneg hj0
  have hhcast : ((h.toNat : Nat) : Int) = h := Int.toNat_of_nonneg hh.le
  have key := fillRows_value memset16 p w (2 * w) (s.fb (s.context context).draw_fb).stride
    (fun t => byte16 p (t % 2)) (by linarith)
    (by
      intro m dp a ha
      rw [memset16_apply m dp p hp w hw, if_neg (by omega)])
    (by
      intro m dp t t0 t1
      rw [memset16_apply m dp p hp w hw, if_pos (by omega)]
      congr 1; omega)
    h.toNat s.mem
    (pixelAddr (s.fb (s.context context).draw_fb).todglPixelBuffer x
      (y + (s.context context).draw_yoffset))
    j.toNat (by zify; rw [hk, hhcast]; exact hj1) (2 * i + c) (by omega) (by omega)
  rw [hk] at key
  have e : pixelAddr (s.fb (s.context context).draw_fb).todglPixelBuffer (x + i)
        (y + (s.context context).draw_yoffset + j) + c
      = pixelAddr (s.fb (s.context context).draw_fb).todglPixelBuffer x
          (y + (s.context context).draw_yoffset)
        + j * (s.fb (s.context context).draw_fb).stride + (2 * i + c) := by
    unfold pixelAddr; rw [hbpp]; ring
  rw [e, key]
  show byte16 p ((2 * i + c) % 2) = byte16 p c
  congr 1; omega

/-! ## Fills read back -/

/-- C8: on a 32-bit (4 bytes per pixel) draw buffer, for every rectangle
`(x, y + draw_yoffset, w, h)` with `w > 0`, `h > 0` inside the buffer and every
32-bit pixel value `p`, after `dglFill(ctx, x, y, w, h, p)` every pixel of the
rectangle reads back exactly `p`, for every `w` (multiple of 4 or not). -/
theorem fill32_reads_back (s : State) (context : Nat) (x y w h : Int) (p : Nat)
    (hw : 0 < w) (hh : 0 < h) (hp : p < 4294967296)
    (hbpp : (s.fb (s.context context).draw_fb).bytes_per_pixel = 4)
    (hwf : WellFormed (s.fb (s.context context).draw_fb).todglPixelBuffer)
    (hin : RectInside (s.fb (s.context context).draw_fb).todglPixelBuffer x
      (y + (s.context context).draw_yoffset) w h) :
    ∀ i j : Int, 0 ≤ i → i < w → 0 ≤ j → j < h →
      loadPixel (s.fb (s.context context).draw_fb).todglPixelBuffer
        (dglFill s context x y w h p).mem (x + i)
        (y + (s.context context).draw_yoffset + j) = p := by
  intro i j hi0 hi1 hj0 hj1
  have hb := fun (c : Int) (hc0 : 0 ≤ c) (hc1 : c < 4) =>
    dglFill_byte32 s context x y w h p hw hh hbpp hwf hin i j c hi0 hi1 hj0 hj1 hc0 hc1
  have b0 := hb 0 (by omega) (by omega)
  have b1 := hb 1 (by omega) (by omega)
  have b2 := hb 2 (by omega) (by omega)
  have b3 := hb 3 (by omega) (by omega)
  rw [add_zero] at b0
  unfold loadPixel load32
  rw [if_pos hbpp, b0, b1, b2, b3]
  simp only [byte32]
  norm_num
  omega

/-- Instance of C8: the 4x4 ARGB8888 pixmap filled with `0x11223344` holds
`0x11223344` at all 16 positions. -/
theorem fill32_reads_back_witness :
    loadPixel argbBuf (dglFill argbState 0 0 0 4 4 0x11223344).mem (0 + 0) (0 + 0 + 0) = 0x11223344 ∧
    loadPixel argbBuf (dglFill argbState 0 0 0 4 4 0x11223344).mem (0 + 1) (0 + 0 + 0) = 0x11223344 ∧
    loadPixel argbBuf (dglFill argbState 0 0 0 4 4 0x11223344).mem (0 + 2) (0 + 0 + 0) = 0x11223344 ∧
    loadPixel argbBuf (dglFill argbState 0 0 0 4 4 0x11223344).mem (0 + 3) (0 + 0 + 0) = 0x11223344 ∧
    loadPixel argbBuf (dglFill argbState 0 0 0 4 4 0x11223344).mem (0 + 0) (0 + 0 + 1) = 0x11223344 ∧
    loadPixel argbBuf (dglFill argbState 0 0 0 4 4 0x11223344).mem (0 + 1) (0 + 0 + 1) = 0x11223344 ∧
    loadPixel argbBuf (dglFill argbState 0 0 0 4 4 0x11223344).mem (0 + 2) (0 + 0 + 1) = 0x11223344 ∧
    loadPixel argbBuf (dglFill argbState 0 0 0 4 4 0x11223344).mem (0 + 3) (0 + 0 + 1) = 0x11223344 ∧
    loadPixel argbBuf (dglFill argbState 0 0 0 4 4 0x11223344).mem (0 + 0) (0 + 0 + 2) = 0x11223344 ∧
    loadPixel argbBuf (dglFill argbState 0 0 0 4 4 0x11223344).mem (0 + 1) (0 + 0 + 2) = 0x11223344 ∧
    loadPixel argbBuf (dglFill argbState 0 0 0 4 4 0x11223344).mem (0 + 2) (0 + 0 + 2) = 0x11223344 ∧
    loadPixel argbBuf (dglFill argbState 0 0 0 4 4 0x11223344).mem (0 + 3) (0 + 0 + 2) = 0x11223344 ∧
    loadPixel argbBuf (dglFill argbState 0 0 0 4 4 0x11223344).mem (0 + 0) (0 + 0 + 3) = 0x11223344 ∧
    loadPixel argbBuf (dglFill argbState 0 0 0 4 4 0x11223344).mem (0 + 1) (0 + 0 + 3) = 0x11223344 ∧
    loadPixel argbBuf (dglFill argbState 0 0 0 4 4 0x11223344).mem (0 + 2) (0 + 0 + 3) = 0x11223344 ∧
    loadPixel argbBuf (dglFill argbState 0 0 0 4 4 0x11223344).mem (0 + 3) (0 + 0 + 3) = 0x11223344 :=
  have H := fill32_reads_back argbState 0 0 0 4 4 0x11223344 (by decide) (by decide)
    (by decide) (by decide) (by unfold WellFormed; decide) (by unfold RectInside; decide)
  ⟨H 0 0 (by decide) (by decide) (by decide) (by decide),
   H 1 0 (by decide) (by decide) (by decide) (by decide),
   H 2 0 (by decide) (by decide) (by decide) (by decide),
   H 3 0 (by decide) (by decide) (by decide) (by decide),
   H 0 1 (by decide) (by decide) (by decide) (by decide),
   H 1 1 (by decide) (by decide) (by decide) (by decide),
   H 2 1 (by decide) (by decide) (by decide) (by decide),
   H 3 1 (by decide) (by decide) (by decide) (by decide),
   H 0 2 (by decide) (by decide) (by decide) (by decide),
   H 1 2 (by decide) (by decide) (by decide) (by decide),
   H 2 2 (by decide) (by decide) (by decide) (by decide),
   H 3 2 (by decide) (by decide) (by decide) (by decide),
   H 0 3 (by decide) (by decide) (by decide) (by decide),
   H 1 3 (by decide) (by decide) (by decide) (by decide),
   H 2 3 (by decide) (by decide) (by decide) (by decide),
   H 3 3 (by decide) (by decide) (by decide) (by decide)⟩

/-- C9: on a 16-bit (2 bytes per pixel) draw buffer, for every rectangle with
`w > 0`, `h > 0` inside the buffer and every pixel value `p < 2^16`, after
`dglFill(ctx, x, y, w, h, p)` every pixel of the rectangle reads back exactly
`p`, whatever the alignment of the row start and the parity of `w` (so whether
or not the leading single store, the paired stores and the trailing single
store are used); this holds for every base address, 4-byte aligned or not. -/
theorem fill16_reads_back (s : State) (context : Nat) (x y w h : Int) (p : Nat)
    (hw : 0 < w) (hh : 0 < h) (hp : p < 65536)
    (hbpp : (s.fb (s.context context).draw_fb).bytes_per_pixel = 2)
    (hwf : WellFormed (s.fb (s.context context).draw_fb).todglPixelBuffer)
    (hin : RectInside (s.fb (s.context context).draw_fb).todglPixelBuffer x
      (y + (s.context context).draw_yoffset) w h) :
    ∀ i j : Int, 0 ≤ i → i < w → 0 ≤ j → j < h →
      loadPixel (s.fb (s.context context).draw_fb).todglPixelBuffer
        (dglFill s context x y w h p).mem (x + i)
        (y + (s.context context).draw_yoffset + j) = p := by
  intro i j hi0 hi1 hj0 hj1
  have hb := fun (c : Int) (hc0 : 0 ≤ c) (hc1 : c < 2) =>
    dglFill_byte16 s context x y w h p hw hh hp hbpp hwf hin i j c hi0 hi1 hj0 hj1 hc0 hc1
  have b0 := hb 0 (by omega) (by omega)
  have b1 := hb 1 (by omega) (by omega)
  rw [add_zero] at b0
  unfold loadPixel load16
  rw [if_neg (by omega), b0, b1]
  simp only [byte16]
  norm_num
  omega

/-- Instance of C9 on the 4x4 RGB565 pixmap: a 3x2 fill starting at column 1,
whose first row starts at an address that is not 4-byte aligned (leading single
store, then a pair) and whose pixels all read back `0xF81F`. -/
theorem fill16_reads_back_witness :
    loadPixel pixmapBuf (dglFill pixmapState 0 1 0 3 2 0xF81F).mem (1 + 0) (0 + 0 + 0) = 0xF81F ∧
    loadPixel pixmapBuf (dglFill pixmapState 0 1 0 3 2 0xF81F).mem (1 + 1) (0 + 0 + 0) = 0xF81F ∧
    loadPixel pixmapBuf (dglFill pixmapState 0 1 0 3 2 0xF81F).mem (1 + 2) (0 + 0 + 0) = 0xF81F ∧
    loadPixel pixmapBuf (dglFill pixmapState 0 1 0 3 2 0xF81F).mem (1 + 2) (0 + 0 + 1) = 0xF81F :=
  have H := fill16_reads_back pixmapState 0 1 0 3 2 0xF81F (by decide) (by decide)
    (by decide) (by decide) (by unfold WellFormed; decide) (by unfold RectInside; decide)
  ⟨H 0 0 (by decide) (by decide) (by decide) (by decide),
   H 1 0 (by decide) (by decide) (by decide) (by decide),
   H 2 0 (by decide) (by decide) (by decide) (by decide),
   H 2 1 (by decide) (by decide) (by decide) (by decide)⟩

/-- C10 (failing input): on the 4x4 RGB565 pixmap, `dglFill(ctx, 0, 0, 2, 1,
0x10000)` leaves `1` in pixel `(1, 0)`, the upper half of the paired 32-bit
store `value | (value << 16)`, whereas `dglPutPixel` with the same pixel
argument at `(0, 0)` and `(1, 0)` leaves `0` there. -/
theorem fill16_wide_pixel_differs_from_putPixel :
    loadPixel pixmapBuf (dglFill pixmapState 0 0 0 2 1 0x10000).mem 1 0 = 1 ∧
    loadPixel pixmapBuf
      (dglPutPixel (dglPutPixel pixmapState 0 0 0 0x10000) 0 1 0 0x10000).mem 1 0 = 0 := by
  decide

/-! ## Pixel writes -/

theorem load32_store32 (m : Mem) (a : Int) (v : Nat) :
    load32 (store32 m a v) a = v % 4294967296 := by
  have b0 : store32 m a v a = byte32 v 0 := by
    rw [store32_apply, if_pos (by omega)]; congr 1; omega
  have b1 : store32 m a v (a + 1) = byte32 v 1 := by
    rw [store32_apply, if_pos (by omega)]; congr 1; omega
  have b2 : store32 m a v (a + 2) = byte32 v 2 := by
    rw [store32_apply, if_pos (by omega)]; congr 1; omega
  have b3 : store32 m a v (a + 3) = byte32 v 3 := by
    rw [store32_apply, if_pos (by omega)]; congr 1; omega
  unfold load32
  rw [b0, b1, b2, b3]
  simp only [byte32]
  norm_num
  omega

theorem load16_store16 (m : Mem) (a : Int) (v : Nat) :
    load16 (store16 m a v) a = v % 65536 := by
  have b0 : store16 m a v a = byte16 v 0 := by
    rw [store16_apply, if_pos (by omega)]; congr 1; omega
  have b1 : store16 m a v (a + 1) = byte16 v 1 := by
    rw [store16_apply, if_pos (by omega)]; congr 1; omega
  unfold load16
  rw [b0, b1]
  simp only [byte16]
  norm_num
  omega

/-- What `dglPutPixel` leaves in memory. -/
theorem dglPutPixel_mem (s : State) (context : Nat) (x y : Int) (p : Nat) :
    (dglPutPixel s context x y p).mem =
      if (s.fb (s.context context).draw_fb).bytes_per_pixel = 4 then
        store32 s.mem (pixelAddr (s.fb (s.context context).draw_fb).todglPixelBuffer x
          (y + (s.context context).draw_yoffset)) p
      else
        store16 s.mem (pixelAddr (s.fb (s.context context).draw_fb).todglPixelBuffer x
          (y + (s.context context).draw_yoffset)) p := by
  unfold dglPutPixel pixelAddr
  by_cases hb : (s.fb (s.context context).draw_fb).bytes_per_pixel = 4
  · simp only [if_pos hb]
  · simp only [if_neg hb]

/-- The pixel written by `dglPutPixel` reads back truncated to the pixel size. -/
theorem dglPutPixel_load (s : State) (context : Nat) (x y : Int) (p : Nat) :
    loadPixel (s.fb (s.context context).draw_fb).todglPixelBuffer
        (dglPutPixel s context x y p).mem x (y + (s.context context).draw_yoffset)
      = if (s.fb (s.context context).draw_fb).bytes_per_pixel = 4 then p % 4294967296
        else p % 65536 := by
  rw [dglPutPixel_mem]
  unfold loadPixel
  by_cases hb : (s.fb (s.context context).draw_fb).bytes_per_pixel = 4
  · rw [if_pos hb, if_pos hb, if_pos hb, load32_store32]
  · rw [if_neg hb, if_neg hb, if_neg hb, load16_store16]

/-- C11: on a draw buffer of 4 or 2 bytes per pixel, after
`dglPutPixel(ctx, x, y, p)` with a 32-bit `p` the pixel at column `x`, row
`y + draw_yoffset` reads back `p` on a 4-byte buffer and `p mod 2^16` on a
2-byte buffer, every byte outside that pixel is unchanged, and the resulting
state is that of `dglPutPixel32` (4-byte buffers) respectively `dglPutPixel16`
(2-byte buffers). -/
theorem putPixel_reads_back (s : State) (context : Nat) (x y : Int) (p : Nat)
    (hp : p < 4294967296)
    (hbpp : (s.fb (s.context context).draw_fb).bytes_per_pixel = 4 ∨
      (s.fb (s.context context).draw_fb).bytes_per_pixel = 2) :
    ((s.fb (s.context context).draw_fb).bytes_per_pixel = 4 →
      loadPixel (s.fb (s.context context).draw_fb).todglPixelBuffer
          (dglPutPixel s context x y p).mem x (y + (s.context context).draw_yoffset) = p ∧
      dglPutPixel s context x y p = dglPutPixel32 s context x y p) ∧
    ((s.fb (s.context context).draw_fb).bytes_per_pixel = 2 →
      loadPixel (s.fb (s.context context).draw_fb).todglPixelBuffer
          (dglPutPixel s context x y p).mem x (y + (s.context context).draw_yoffset)
        = p % 65536 ∧
      dglPutPixel s context x y p = dglPutPixel16 s context x y p) ∧
    (∀ a : Int,
      (a < pixelAddr (s.fb (s.context context).draw_fb).todglPixelBuffer x
          (y + (s.context context).draw_yoffset) ∨
        pixelAddr (s.fb (s.context context).draw_fb).todglPixelBuffer x
          (y + (s.context context).draw_yoffset)
          + (s.fb (s.context context).draw_fb).bytes_per_pixel ≤ a) →
      (dglPutPixel s context x y p).mem a = s.mem a) := by
  refine ⟨?_, ?_, ?_⟩
  · intro hb
    constructor
    · rw [dglPutPixel_load, if_pos hb]; omega
    · unfold dglPutPixel dglPutPixel32
      simp [hb]
  · intro hb
    constructor
    · rw [dglPutPixel_load, if_neg (by omega)]
    · unfold dglPutPixel dglPutPixel16
      simp [hb]
  · intro a ha
    rw [dglPutPixel_mem]
    rcases hbpp with hb | hb
    · rw [if_pos hb, store32_apply, if_neg (by omega)]
    · rw [if_neg (by omega), store16_apply, if_neg (by omega)]

/-- Instance of C11 on the 4x4 RGB565 pixmap: `0x12345` written at `(1, 2)`
reads back `0x2345`, and the byte before the pixel keeps its value. -/
theorem putPixel_reads_back_witness :
    loadPixel pixmapBuf (dglPutPixel pixmapState 0 1 2 0x12345).mem 1 (2 + 0)
      = 0x12345 % 65536 ∧
    (dglPutPixel pixmapState 0 1 2 0x12345).mem 17 = rampMem 17 :=
  have H := putPixel_reads_back pixmapState 0 1 2 0x12345 (by decide) (by decide)
  ⟨(H.2.1 (by decide)).1, H.2.2 17 (by decide)⟩

/-! ## Contexts and pages -/

theorem setContext_context_same (s : State) (context : Nat) (c : dglContext) :
    (setContext s context c).context context = c := by
  simp [setContext]

theorem setContext_context_other (s : State) (context other : Nat) (c : dglContext)
    (h : other ≠ context) : (setContext s context c).context other = s.context other := by
  simp [setContext, Function.update_noteq h]

/-- C15: `dglCreateContext(r, d)` yields a context with `read_fb = r`,
`draw_fb = d` and both y-offsets 0; `dglSetReadYOffset` / `dglSetDrawYOffset`
set the named offset to the given value; `dglSetReadPage(n)` sets
`read_yoffset` to `n * read_fb->yres` and `dglSetDrawPage(n)` sets
`draw_yoffset` to `n * draw_fb->yres` for the buffer bound at the time of the
call; each setter, and `dglSetReadFramebuffer` / `dglSetDrawFramebuffer`,
leaves the other three fields, every other context and the rest of the state
as they were, so a page offset survives a later rebinding of the buffer. -/
theorem context_setters (s : State) (p context r d fb : Nat) (yoffset n : Int) :
    ((dglCreateContext s p r d).2 = p ∧
      (dglCreateContext s p r d).1.context p
        = { read_fb := r, draw_fb := d, read_yoffset := 0, draw_yoffset := 0 }) ∧
    (dglSetReadYOffset s context yoffset).context context
      = { read_fb := (s.context context).read_fb, draw_fb := (s.context context).draw_fb,
          read_yoffset := yoffset, draw_yoffset := (s.context context).draw_yoffset } ∧
    (dglSetDrawYOffset s context yoffset).context context
      = { read_fb := (s.context context).read_fb, draw_fb := (s.context context).draw_fb,
          read_yoffset := (s.context context).read_yoffset, draw_yoffset := yoffset } ∧
    (dglSetReadPage s context n).context context
      = { read_fb := (s.context context).read_fb, draw_fb := (s.context context).draw_fb,
          read_yoffset := n * (s.fb (s.context context).read_fb).yres,
          draw_yoffset := (s.context context).draw_yoffset } ∧
    (dglSetDrawPage s context n).context context
      = { read_fb := (s.context context).read_fb, draw_fb := (s.context context).draw_fb,
          read_yoffset := (s.context context).read_yoffset,
          draw_yoffset := n * (s.fb (s.context context).draw_fb).yres } ∧
    (dglSetReadFramebuffer s context fb).context context
      = { read_fb := fb, draw_fb := (s.context context).draw_fb,
          read_yoffset := (s.context context).read_yoffset,
          draw_yoffset := (s.context context).draw_yoffset } ∧
    (dglSetDrawFramebuffer s context fb).context context
      = { read_fb := (s.context context).read_fb, draw_fb := fb,
          read_yoffset := (s.context context).read_yoffset,
          draw_yoffset := (s.context context).draw_yoffset } ∧
    ((dglSetDrawFramebuffer (dglSetDrawPage s context n) context fb).context context).draw_yoffset
      = n * (s.fb (s.context context).draw_fb).yres ∧
    ((dglSetReadFramebuffer (dglSetReadPage s context n) context fb).context context).read_yoffset
      = n * (s.fb (s.context context).read_fb).yres ∧
    (∀ t : State,
      (t = (dglCreateContext s context r d).1 ∨ t = dglSetReadYOffset s context yoffset ∨
        t = dglSetDrawYOffset s context yoffset ∨ t = dglSetReadPage s context n ∨
        t = dglSetDrawPage s context n ∨ t = dglSetReadFramebuffer s context fb ∨
        t = dglSetDrawFramebuffer s context fb) →
      t.mem = s.mem ∧ t.fb = s.fb ∧ t.stdout = s.stdout ∧ t.dispatched = s.dispatched ∧
      ∀ other : Nat, other ≠ context → t.context other = s.context other) := by
  refine ⟨⟨rfl, ?_⟩, ?_, ?_, ?_, ?_, ?_, ?_, ?_, ?_, ?_⟩
  · simp [dglCreateContext, setContext]
  · simp [dglSetReadYOffset, setContext]
  · simp [dglSetDrawYOffset, setContext]
  · simp [dglSetReadPage, setContext]
  · simp [dglSetDrawPage, setContext]
  · simp [dglSetReadFramebuffer, setContext]
  · simp [dglSetDrawFramebuffer, setContext]
  · simp [dglSetDrawFramebuffer, dglSetDrawPage, setContext]
  · simp [dglSetReadFramebuffer, dglSetReadPage, setContext]
  · intro t ht
    rcases ht with h | h | h | h | h | h | h <;> subst h <;>
      refine ⟨rfl, rfl, rfl, rfl, fun other ho => ?_⟩ <;>
      exact setContext_context_other _ _ _ _ ho

/-! ## Page offsets and draw calls -/

/-- The memory the hardware path leaves depends on memory and the buffer table
only. -/
theorem dglCopyAreaScreenFB_mem_congr (dev : FbDevice) (s1 s2 : State) (fb : Nat)
    (sx sy dx dy w h : Int) (hm : s1.mem = s2.mem) (hf : s1.fb = s2.fb) :
    (dglCopyAreaScreenFB dev s1 fb sx sy dx dy w h).mem
      = (dglCopyAreaScreenFB dev s2 fb sx sy dx dy w h).mem := by
  unfold dglCopyAreaScreenFB callCopyAreaFunc dglConsoleFBCopyArea dglConsoleFBCopyAreaNoOp
  rw [hf]
  split_ifs
  · cases (s2.fb fb).CopyAreaFunc
    · simp only [hm, hf]
      split_ifs
      · rw [dglMessage_mem, dglMessage_mem]
      · rfl
    · exact hm
  · exact hm

/-- The memory `dglCopyArea` leaves depends on the state only through memory,
the buffer table, the two buffers bound and the offset-adjusted rows. -/
theorem dglCopyArea_mem_congr (dev : FbDevice) (s1 s2 : State) (c1 c2 : Nat)
    (sx sy1 sy2 dx dy1 dy2 w h : Int) (hm : s1.mem = s2.mem) (hf : s1.fb = s2.fb)
    (hr : (s1.context c1).read_fb = (s2.context c2).read_fb)
    (hd : (s1.context c1).draw_fb = (s2.context c2).draw_fb)
    (hsy : sy1 + (s1.context c1).read_yoffset = sy2 + (s2.context c2).read_yoffset)
    (hdy : dy1 + (s1.context c1).draw_yoffset = dy2 + (s2.context c2).draw_yoffset) :
    (dglCopyArea dev s1 c1 sx sy1 dx dy1 w h).mem
      = (dglCopyArea dev s2 c2 sx sy2 dx dy2 w h).mem := by
  unfold dglCopyArea
  simp only [hsy, hdy, hr, hd, hf, hm]
  split_ifs
  · exact hm
  · exact dglCopyAreaScreenFB_mem_congr dev s1 s2 _ _ _ _ _ _ _ hm hf
  · rfl
  · rw [dglMessage_mem, dglMessage_mem]
  · rfl
  · rw [dglMessage_mem, dglMessage_mem]; exact hm

/-- C12: for every context, page number `n` and draw call among `dglPutPixel`,
`dglFill` and `dglCopyArea` (destination side), `dglSetDrawPage(ctx, n)`
followed by the call with row `y` leaves the same memory as the same call with
row `y + n * draw_fb->yres` on the context with draw offset 0; and
`dglSetReadPage(ctx, n)` followed by `dglCopyArea` with source row `sy` leaves
the same memory as source row `sy + n * read_fb->yres` with read offset 0. -/
theorem page_offset_equivalence (dev : FbDevice) (s : State) (context : Nat) (n : Int)
    (x y w h sx sy dx dy : Int) (p : Nat) :
    (dglPutPixel (dglSetDrawPage s context n) context x y p).mem
      = (dglPutPixel (dglSetDrawYOffset s context 0) context x
          (y + n * (s.fb (s.context context).draw_fb).yres) p).mem ∧
    (dglFill (dglSetDrawPage s context n) context x y w h p).mem
      = (dglFill (dglSetDrawYOffset s context 0) context x
          (y + n * (s.fb (s.context context).draw_fb).yres) w h p).mem ∧
    (dglCopyArea dev (dglSetDrawPage s context n) context sx sy dx dy w h).mem
      = (dglCopyArea dev (dglSetDrawYOffset s context 0) context sx sy dx
          (dy + n * (s.fb (s.context context).draw_fb).yres) w h).mem ∧
    (dglCopyArea dev (dglSetReadPage s context n) context sx sy dx dy w h).mem
      = (dglCopyArea dev (dglSetReadYOffset s context 0) context sx
          (sy + n * (s.fb (s.context context).read_fb).yres) dx dy w h).mem := by
  refine ⟨?_, ?_, ?_, ?_⟩
  · rw [dglPutPixel_mem, dglPutPixel_mem]
    simp [dglSetDrawPage, dglSetDrawYOffset, setContext]
  · unfold dglFill
    simp [dglSetDrawPage, dglSetDrawYOffset, setContext]
    split_ifs <;> rfl
  · apply dglCopyArea_mem_congr <;> simp [dglSetDrawPage, dglSetDrawYOffset, setContext]
  · apply dglCopyArea_mem_congr <;> simp [dglSetReadPage, dglSetReadYOffset, setContext]

/-! ## Image puts -/

/-- Pixel form of the correctness of `dglCopyAreaAcross`. -/
theorem dglCopyAreaAcross_pixels (R D : dglPixelBuffer) (m : Mem) (sx sy dx dy w h : Int)
    (hbpp : R.bytes_per_pixel = D.bytes_per_pixel) (hwfR : WellFormed R) (hwfD : WellFormed D)
    (hsrc : RectInside R sx sy w h) (hdst : RectInside D dx dy w h)
    (hdisj : StorageDisjoint R D) (hw : 0 < w) (hh : 0 < h)
    (i j c : Int) (hi0 : 0 ≤ i) (hi1 : i < w) (hj0 : 0 ≤ j) (hj1 : j < h)
    (hc0 : 0 ≤ c) (hc1 : c < D.bytes_per_pixel) :
    dglCopyAreaAcross R D m sx sy dx dy w h (pixelAddr D (dx + i) (dy + j) + c)
      = m (pixelAddr R (sx + i) (sy + j) + c) := by
  obtain ⟨t0, t1⟩ := row_offset_bounds _ w i c hi0 hi1 hc0 hc1
  have key := dglCopyAreaAcross_rows R D m sx sy dx dy w h hbpp hwfR hwfD hsrc hdst hdisj hw hh
    j _ hj0 hj1 t0 t1
  have e1 : pixelAddr D (dx + i) (dy + j) + c
      = D.framebuffer_addr + dy * D.stride + dx * D.bytes_per_pixel + j * D.stride
        + (i * D.bytes_per_pixel + c) := by
    unfold pixelAddr; ring
  have e2 : pixelAddr R (sx + i) (sy + j) + c
      = R.framebuffer_addr + sy * R.stride + sx * R.bytes_per_pixel + j * R.stride
        + (i * D.bytes_per_pixel + c) := by
    unfold pixelAddr; rw [hbpp]; ring
  rw [e1, e2]
  exact key

/-- `dglCopyAreaAcross` leaves the source buffer as it was when the storages of
the two buffers are disjoint. -/
theorem dglCopyAreaAcross_source (R D : dglPixelBuffer) (m : Mem) (sx sy dx dy w h : Int)
    (hwfD : WellFormed D) (hdst : RectInside D dx dy w h) (hdisj : StorageDisjoint R D)
    (hw : 0 < w) (hh : 0 < h) (a : Int) (ha : InStorage R a) :
    dglCopyAreaAcross R D m sx sy dx dy w h a = m a := by
  apply dglCopyAreaAcross_frame R D m sx sy dx dy w h hwfD.1 hw hh
  intro hin
  have hD := inRect_inStorage _ _ _ _ _ _ hwfD hdst hin
  unfold InStorage at ha hD
  unfold StorageDisjoint at hdisj
  omega

/-- C13 (failing input): on the two-page surface, after `dglSetDrawPage(ctx, 1)`
the draw offset is 4 rows, yet `dglPutImage(ctx, 0, 0, image)` and
`dglPutPartialImage(ctx, 0, 0, 0, 0, 2, 2, image)` write the image into rows
0..1 (byte 0 becomes the image byte 64, byte 32 of row 4 keeps its value),
whereas the same calls with row `0 + 1 * 4` and draw offset 0 write rows 4..5
(byte 0 keeps its value, byte 32 becomes 64). -/
theorem putImage_ignores_draw_offset :
    ((dglSetDrawPage surfaceAndImageState 0 1).context 0).draw_yoffset = 4 ∧
    (dglPutImage (dglSetDrawPage surfaceAndImageState 0 1) 0 0 0 2).mem 0 = 64 ∧
    (dglPutImage (dglSetDrawPage surfaceAndImageState 0 1) 0 0 0 2).mem 32 = 32 ∧
    (dglPutImage (dglSetDrawYOffset surfaceAndImageState 0 0) 0 0 (0 + 1 * 4) 2).mem 0 = 0 ∧
    (dglPutImage (dglSetDrawYOffset surfaceAndImageState 0 0) 0 0 (0 + 1 * 4) 2).mem 32 = 64 ∧
    (dglPutPartialImage (dglSetDrawPage surfaceAndImageState 0 1) 0 0 0 0 0 2 2 2).mem 0 = 64 ∧
    (dglPutPartialImage (dglSetDrawYOffset surfaceAndImageState 0 0) 0 0 0 0 (0 + 1 * 4)
      2 2 2).mem 0 = 0 := by
  decide

/-- C14: for an image and a draw buffer with equal `bytes_per_pixel` (and
non-overlapping storage) and every `dglPutPartialImage(ctx, sx, sy, dx, dy, w,
h, image)` with `w > 0`, `h > 0`, the source rectangle inside the image and the
destination rectangle inside the draw buffer, afterwards the draw-buffer pixel
`(dx+i, dy+j)` holds the bytes of image pixel `(sx+i, sy+j)` and the image is
unchanged; and `dglPutImage(ctx, x, y, image)` is
`dglPutPartialImage(ctx, 0, 0, x, y, image.xres, image.yres, image)`. -/
theorem putPartialImage_copies (s : State) (context image : Nat)
    (sx sy dx dy w h x y : Int) (hw : 0 < w) (hh : 0 < h)
    (hbpp : (s.fb image).bytes_per_pixel
      = (s.fb (s.context context).draw_fb).bytes_per_pixel)
    (hwfI : WellFormed (s.fb image).todglPixelBuffer)
    (hwfD : WellFormed (s.fb (s.context context).draw_fb).todglPixelBuffer)
    (hsrc : RectInside (s.fb image).todglPixelBuffer sx sy w h)
    (hdst : RectInside (s.fb (s.context context).draw_fb).todglPixelBuffer dx dy w h)
    (hdisj : StorageDisjoint (s.fb image).todglPixelBuffer
      (s.fb (s.context context).draw_fb).todglPixelBuffer) :
    (∀ i j c : Int, 0 ≤ i → i < w → 0 ≤ j → j < h →
      0 ≤ c → c < (s.fb (s.context context).draw_fb).bytes_per_pixel →
      (dglPutPartialImage s context sx sy dx dy w h image).mem
          (pixelAddr (s.fb (s.context context).draw_fb).todglPixelBuffer (dx + i) (dy + j) + c)
        = s.mem (pixelAddr (s.fb image).todglPixelBuffer (sx + i) (sy + j) + c)) ∧
    (∀ a : Int, InStorage (s.fb image).todglPixelBuffer a →
      (dglPutPartialImage s context sx sy dx dy w h image).mem a = s.mem a) ∧
    dglPutImage s context x y image
      = dglPutPartialImage s context 0 0 x y (s.fb image).xres (s.fb image).yres image := by
  refine ⟨?_, ?_, rfl⟩
  · intro i j c hi0 hi1 hj0 hj1 hc0 hc1
    exact dglCopyAreaAcross_pixels _ _ s.mem sx sy dx dy w h hbpp hwfI hwfD hsrc hdst hdisj
      hw hh i j c hi0 hi1 hj0 hj1 hc0 hc1
  · intro a ha
    exact dglCopyAreaAcross_source _ _ s.mem sx sy dx dy w h hwfD hdst hdisj hw hh a ha

/-- Instance of C14: the 2x2 image put at `(1, 2)` of the surface; a pixel of
the destination and a byte of the image. -/
theorem putPartialImage_copies_witness :
    (dglPutPartialImage surfaceAndImageState 0 0 0 1 2 2 2 2).mem
        (pixelAddr surfaceBuf (1 + 1) (2 + 1) + 1)
      = rampMem (pixelAddr imageBuf (0 + 1) (0 + 1) + 1) ∧
    (dglPutPartialImage surfaceAndImageState 0 0 0 1 2 2 2 2).mem 66 = rampMem 66 :=
  have H := putPartialImage_copies surfaceAndImageState 0 2 0 0 1 2 2 2 1 2 (by decide)
    (by decide) (by decide) (by unfold WellFormed; decide) (by unfold WellFormed; decide)
    (by unfold RectInside; decide) (by unfold RectInside; decide)
    (by unfold StorageDisjoint; decide)
  ⟨H.1 1 1 1 (by decide) (by decide) (by decide) (by decide) (by decide) (by decide),
   H.2.1 66 (by unfold InStorage; decide)⟩

/-! ## Colour conversion -/

theorem floorScaled_bounds (c : ℚ) (h0 : 0 ≤ c) (h1 : c ≤ 1) :
    ((floorScaled c : Nat) : Int) = ⌊c * (511 / 2)⌋ ∧ floorScaled c ≤ 255 := by
  have hf0 : 0 ≤ ⌊c * (511 / 2)⌋ := Int.floor_nonneg.mpr (by positivity)
  have hf1 : ⌊c * (511 / 2)⌋ < 256 := Int.floor_lt.mpr (by push_cast; linarith)
  unfold floorScaled
  constructor <;> omega

theorem floorScaled_mono (c d : ℚ) (h0 : 0 ≤ c) (hcd : c ≤ d) (h1 : d ≤ 1) :
    floorScaled c ≤ floorScaled d := by
  have hc := (floorScaled_bounds c h0 (le_trans hcd h1)).1
  have hd := (floorScaled_bounds d (le_trans h0 hcd) h1).1
  have hm : ⌊c * (511 / 2)⌋ ≤ ⌊d * (511 / 2)⌋ := Int.floor_mono (by linarith)
  omega

theorem floorScaled_zero : floorScaled 0 = 0 := by
  unfold floorScaled; simp

theorem floorScaled_one : floorScaled 1 = 255 := by
  have h : ⌊(1 : ℚ) * (511 / 2)⌋ = 255 := by
    rw [Int.floor_eq_iff]; constructor <;> norm_num
  unfold floorScaled
  rw [h]; rfl

theorem floorScaled_half : floorScaled (1 / 2) = 127 := by
  have h : ⌊(1 / 2 : ℚ) * (511 / 2)⌋ = 127 := by
    rw [Int.floor_eq_iff]; constructor <;> norm_num
  unfold floorScaled
  rw [h]; rfl

theorem formatMask_eq :
    DGL_FORMAT_PIXEL_SIZE_16_BIT ||| DGL_FORMAT_LSB_ORDER_RGB_BIT = 5 := by decide

/-- The 32-bit branch of `dglConvertColor`, in plain arithmetic. -/
theorem dglConvertColor_bgr32 (s : State) (format : Nat) (r g b : ℚ)
    (hfmt : format &&& 5 = 0) :
    dglConvertColor s format r g b
      = (s, (floorScaled r * 65536 + floorScaled g * 256 + floorScaled b) % 4294967296) := by
  unfold dglConvertColor
  simp only [formatMask_eq]
  rw [if_pos hfmt, Nat.shiftLeft_eq, Nat.shiftLeft_eq]

/-- The 16-bit branch of `dglConvertColor`, in plain arithmetic, for scaled
channels that fit 8 bits. -/
theorem dglConvertColor_rgb16 (s : State) (format : Nat) (r g b : ℚ)
    (hfmt : format &&& 5 = 4)
    (hR : floorScaled r ≤ 255) (hG : floorScaled g ≤ 255) (hB : floorScaled b ≤ 255) :
    dglConvertColor s format r g b
      = (s, min (floorScaled r + 4) 255 / 8 * 2048 + min (floorScaled g + 2) 255 / 4 * 32
          + min (floorScaled b + 4) 255 / 8) := by
  unfold dglConvertColor
  simp only [formatMask_eq]
  rw [if_neg (by omega), if_pos (by rw [hfmt]; rfl)]
  simp only [Nat.shiftLeft_eq, Nat.shiftRight_eq_div_pow]
  congr 1
  generalize floorScaled r = R at *
  generalize floorScaled g = G at *
  generalize floorScaled b = B at *
  norm_num
  split_ifs <;> omega

/-- The error branch of `dglConvertColor`. -/
theorem dglConvertColor_rejected (s : State) (format : Nat) (r g b : ℚ)
    (h0 : format &&& 5 ≠ 0) (h4 : format &&& 5 ≠ 4) :
    dglConvertColor s format r g b = (dglMessage s DGL_MESSAGE_WARNING convertWarning, 0) := by
  unfold dglConvertColor
  simp only [formatMask_eq]
  rw [if_neg h0, if_neg (by intro h; exact h4 h)]

/-- Three 8-bit fields at bit 16, 8 and 0 do not overlap. -/
theorem pack888 (R G B : Nat) (hG : G ≤ 255) (hB : B ≤ 255) :
    (R <<< 16) ||| (G <<< 8) ||| B = R * 65536 + G * 256 + B := by
  have h1 : R <<< 16 = 2 ^ 16 * R := by rw [Nat.shiftLeft_eq, Nat.mul_comm]
  have h2 : G <<< 8 = 2 ^ 8 * G := by rw [Nat.shiftLeft_eq, Nat.mul_comm]
  have h3 : 2 ^ 16 * R ||| 2 ^ 8 * G = 2 ^ 8 * (2 ^ 8 * R + G) := by
    rw [← Nat.mul_add_lt_is_or (by omega)]; omega
  rw [h1, h2, h3, ← Nat.mul_add_lt_is_or (by omega)]
  omega

theorem and_31 (x : Nat) : x &&& 31 = x % 32 := Nat.and_pow_two_sub_one_eq_mod x 5

theorem and_63 (x : Nat) : x &&& 63 = x % 64 := Nat.and_pow_two_sub_one_eq_mod x 6

theorem and_255 (x : Nat) : x &&& 255 = x % 256 := Nat.and_pow_two_sub_one_eq_mod x 8

/-- Counterexample to C16 as stated: for XBGR8888 and full white the function
returns 0, not `(255 << 16) | (255 << 8) | 255`. -/
theorem convertColor_xbgr_returns_zero :
    (dglConvertColor pixmapState DGL_FORMAT_XBGR8888 1 1 1).2 = 0 ∧
    (floorScaled 1 <<< 16) ||| (floorScaled 1 <<< 8) ||| floorScaled 1 = 0xFFFFFF := by
  constructor
  · rw [dglConvertColor_rejected _ _ _ _ _ (by decide) (by decide)]
  · rw [floorScaled_one]; decide

/-- C16 (amended): for the 32-bit formats XRGB8888 and ARGB8888 and channel
inputs whose scaled values are `R`, `G`, `B` in 0..255, `dglConvertColor`
returns `(R << 16) | (G << 8) | B` and prints nothing; for XBGR8888 and
ABGR8888 it passes the unsupported-format warning to `dglMessage` and
returns 0. -/
theorem convertColor_32bit (s : State) (format : Nat) (r g b : ℚ) (R G B : Nat)
    (hR : floorScaled r = R) (hG : floorScaled g = G) (hB : floorScaled b = B)
    (hR255 : R ≤ 255) (hG255 : G ≤ 255) (hB255 : B ≤ 255) :
    ((format = DGL_FORMAT_XRGB8888 ∨ format = DGL_FORMAT_ARGB8888) →
      dglConvertColor s format r g b = (s, (R <<< 16) ||| (G <<< 8) ||| B)) ∧
    ((format = DGL_FORMAT_XBGR8888 ∨ format = DGL_FORMAT_ABGR8888) →
      dglConvertColor s format r g b
        = (dglMessage s DGL_MESSAGE_WARNING convertWarning, 0)) := by
  constructor
  · intro hf
    have hmask : format &&& 5 = 0 := by rcases hf with h | h <;> subst h <;> decide
    rw [dglConvertColor_bgr32 s format r g b hmask, hR, hG, hB, pack888 R G B hG255 hB255]
    congr 1
    omega
  · intro hf
    have h0 : format &&& 5 ≠ 0 := by rcases hf with h | h <;> subst h <;> decide
    have h4 : format &&& 5 ≠ 4 := by rcases hf with h | h <;> subst h <;> decide
    exact dglConvertColor_rejected s format r g b h0 h4

/-- Instance of C16 (amended): ARGB8888 with red 1, green 1/2, blue 0. -/
theorem convertColor_32bit_witness :
    dglConvertColor pixmapState DGL_FORMAT_ARGB8888 1 (1 / 2) 0
      = (pixmapState, (255 <<< 16) ||| (127 <<< 8) ||| 0) :=
  (convertColor_32bit pixmapState DGL_FORMAT_ARGB8888 1 (1 / 2) 0 255 127 0 floorScaled_one
    floorScaled_half floorScaled_zero (by decide) (by decide) (by decide)).1 (Or.inr rfl)

/-- C17: for format RGB565 and scaled channels `R`, `G`, `B` in 0..255,
`dglConvertColor` returns `(r5 << 11) + (g6 << 5) + b5` with
`r5 = min(R+4, 255) >> 3`, `g6 = min(G+2, 255) >> 2`, `b5 = min(B+4, 255) >> 3`;
`r5` and `b5` are at most 31 and `g6` at most 63, and the fields are read back
as `result >> 11`, `(result >> 5) & 63` and `result & 31`; full red gives
`0xF800`, full green `0x07E0`, full blue `0x001F`. -/
theorem convertColor_rgb565 (s : State) (r g b : ℚ) (R G B : Nat)
    (hR : floorScaled r = R) (hG : floorScaled g = G) (hB : floorScaled b = B)
    (hR255 : R ≤ 255) (hG255 : G ≤ 255) (hB255 : B ≤ 255) :
    dglConvertColor s DGL_FORMAT_RGB565 r g b
      = (s, ((min (R + 4) 255 >>> 3) <<< 11) + ((min (G + 2) 255 >>> 2) <<< 5)
          + (min (B + 4) 255 >>> 3)) ∧
    min (R + 4) 255 >>> 3 ≤ 31 ∧ min (G + 2) 255 >>> 2 ≤ 63 ∧ min (B + 4) 255 >>> 3 ≤ 31 ∧
    (dglConvertColor s DGL_FORMAT_RGB565 r g b).2 >>> 11 = min (R + 4) 255 >>> 3 ∧
    ((dglConvertColor s DGL_FORMAT_RGB565 r g b).2 >>> 5) &&& 63 = min (G + 2) 255 >>> 2 ∧
    (dglConvertColor s DGL_FORMAT_RGB565 r g b).2 &&& 31 = min (B + 4) 255 >>> 3 ∧
    (R = 255 → G = 0 → B = 0 → (dglConvertColor s DGL_FORMAT_RGB565 r g b).2 = 0xF800) ∧
    (R = 0 → G = 255 → B = 0 → (dglConvertColor s DGL_FORMAT_RGB565 r g b).2 = 0x07E0) ∧
    (R = 0 → G = 0 → B = 255 → (dglConvertColor s DGL_FORMAT_RGB565 r g b).2 = 0x001F) := by
  have key := dglConvertColor_rgb16 s DGL_FORMAT_RGB565 r g b (by decide)
    (by rw [hR]; exact hR255) (by rw [hG]; exact hG255) (by rw [hB]; exact hB255)
  rw [hR, hG, hB] at key
  rw [key]
  simp only [Nat.shiftLeft_eq, Nat.shiftRight_eq_div_pow, and_63, and_31]
  refine ⟨trivial, ?_, ?_, ?_, ?_, ?_, ?_, ?_, ?_, ?_⟩ <;> norm_num <;> omega

/-- Instance of C17: full red. -/
theorem convertColor_rgb565_witness :
    (dglConvertColor pixmapState DGL_FORMAT_RGB565 1 0 0).2 = 0xF800 :=
  (convertColor_rgb565 pixmapState 1 0 0 255 0 0 floorScaled_one floorScaled_zero
    floorScaled_zero (by decide) (by decide) (by decide)).2.2.2.2.2.2.2.1 rfl rfl rfl

/-- C18: round trip of `dglConvertColor` at the 8-bit channel level. For scaled
channels `R`, `G`, `B` in 0..255, unpacking the fields of the RGB565 result by
a left shift gives `|8*q5 - R| < 8` and `|8*q5 - B| < 8` for the 5-bit red and
blue fields and `|4*q6 - G| < 4` for the 6-bit green field; and for the 32-bit
packing (XRGB8888, ARGB8888) the three unpacked bytes are `R`, `G`, `B`. -/
theorem convertColor_round_trip (s : State) (r g b : ℚ) (R G B : Nat)
    (hR : floorScaled r = R) (hG : floorScaled g = G) (hB : floorScaled b = B)
    (hR255 : R ≤ 255) (hG255 : G ≤ 255) (hB255 : B ≤ 255) :
    |((((dglConvertColor s DGL_FORMAT_RGB565 r g b).2 >>> 11) <<< 3 : Nat) : Int) - (R : Int)|
      < 8 ∧
    |(((((dglConvertColor s DGL_FORMAT_RGB565 r g b).2 >>> 5) &&& 63) <<< 2 : Nat) : Int)
      - (G : Int)| < 4 ∧
    |((((dglConvertColor s DGL_FORMAT_RGB565 r g b).2 &&& 31) <<< 3 : Nat) : Int) - (B : Int)|
      < 8 ∧
    (∀ format : Nat, format = DGL_FORMAT_XRGB8888 ∨ format = DGL_FORMAT_ARGB8888 →
      ((dglConvertColor s format r g b).2 >>> 16) &&& 255 = R ∧
      ((dglConvertColor s format r g b).2 >>> 8) &&& 255 = G ∧
      (dglConvertColor s format r g b).2 &&& 255 = B) := by
  have key := dglConvertColor_rgb16 s DGL_FORMAT_RGB565 r g b (by decide)
    (by rw [hR]; exact hR255) (by rw [hG]; exact hG255) (by rw [hB]; exact hB255)
  rw [hR, hG, hB] at key
  rw [key]
  simp only [Nat.shiftLeft_eq, Nat.shiftRight_eq_div_pow, and_63, and_31, and_255, abs_lt]
  refine ⟨?_, ?_, ?_, ?_⟩
  · norm_num; omega
  · norm_num; omega
  · norm_num; omega
  · intro format hf
    have hmask : format &&& 5 = 0 := by rcases hf with h | h <;> subst h <;> decide
    rw [dglConvertColor_bgr32 s format r g b hmask, hR, hG, hB]
    norm_num
    omega

/-- Instance of C18: red 1, green 1/2, blue 0. -/
theorem convertColor_round_trip_witness :
    |((((dglConvertColor pixmapState DGL_FORMAT_RGB565 1 (1 / 2) 0).2 >>> 11) <<< 3 : Nat) : Int)
      - ((255 : Nat) : Int)| < 8 :=
  (convertColor_round_trip pixmapState 1 (1 / 2) 0 255 127 0 floorScaled_one floorScaled_half
    floorScaled_zero (by decide) (by decide) (by decide)).1

/-- Read-back of a 32-bit fill, from its bytes. -/
theorem dglFill_load32 (s : State) (context : Nat) (x y w h : Int) (p : Nat)
    (hw : 0 < w) (hh : 0 < h) (hp : p < 4294967296)
    (hbpp : (s.fb (s.context context).draw_fb).bytes_per_pixel = 4)
    (hwf : WellFormed (s.fb (s.context context).draw_fb).todglPixelBuffer)
    (hin : RectInside (s.fb (s.context context).draw_fb).todglPixelBuffer x
      (y + (s.context context).draw_yoffset) w h)
    (i j : Int) (hi0 : 0 ≤ i) (hi1 : i < w) (hj0 : 0 ≤ j) (hj1 : j < h) :
    loadPixel (s.fb (s.context context).draw_fb).todglPixelBuffer
      (dglFill s context x y w h p).mem (x + i)
      (y + (s.context context).draw_yoffset + j) = p := by
  have hb := fun (c : Int) (hc0 : 0 ≤ c) (hc1 : c < 4) =>
    dglFill_byte32 s context x y w h p hw hh hbpp hwf hin i j c hi0 hi1 hj0 hj1 hc0 hc1
  have b0 := hb 0 (by omega) (by omega)
  have b1 := hb 1 (by omega) (by omega)
  have b2 := hb 2 (by omega) (by omega)
  have b3 := hb 3 (by omega) (by omega)
  rw [add_zero] at b0
  unfold loadPixel load32
  rw [if_pos hbpp, b0, b1, b2, b3]
  simp only [byte32]
  norm_num
  omega

/-- Read-back of a 16-bit fill, from its bytes. -/
theorem dglFill_load16 (s : State) (context : Nat) (x y w h : Int) (p : Nat)
    (hw : 0 < w) (hh : 0 < h) (hp : p < 65536)
    (hbpp : (s.fb (s.context context).draw_fb).bytes_per_pixel = 2)
    (hwf : WellFormed (s.fb (s.context context).draw_fb).todglPixelBuffer)
    (hin : RectInside (s.fb (s.context context).draw_fb).todglPixelBuffer x
      (y + (s.context context).draw_yoffset) w h)
    (i j : Int) (hi0 : 0 ≤ i) (hi1 : i < w) (hj0 : 0 ≤ j) (hj1 : j < h) :
    loadPixel (s.fb (s.context context).draw_fb).todglPixelBuffer
      (dglFill s context x y w h p).mem (x + i)
      (y + (s.context context).draw_yoffset + j) = p := by
  have hb := fun (c : Int) (hc0 : 0 ≤ c) (hc1 : c < 2) =>
    dglFill_byte16 s context x y w h p hw hh hp hbpp hwf hin i j c hi0 hi1 hj0 hj1 hc0 hc1
  have b0 := hb 0 (by omega) (by omega)
  have b1 := hb 1 (by omega) (by omega)
  rw [add_zero] at b0
  unfold loadPixel load16
  rw [if_neg (by omega), b0, b1]
  simp only [byte16]
  norm_num
  omega

/-- C19: for channel inputs `r`, `g`, `b` in `[0, 1]` (exact rationals) each
scaled channel `floor(c * 255.5)` lies in 0..255; the scaling is monotone on
`[0, 1]` and maps 0 to 0 and 1 to 255; `dglConvertColor` returns a value below
`2^24` for XRGB8888 and ARGB8888 and below `2^16` for RGB565; and that value is
stored without loss: written by `dglPutPixel` or `dglFill` into a buffer of the
format's pixel size it reads back unchanged. -/
theorem convertColor_range (r g b : ℚ) (hr0 : 0 ≤ r) (hr1 : r ≤ 1) (hg0 : 0 ≤ g) (hg1 : g ≤ 1)
    (hb0 : 0 ≤ b) (hb1 : b ≤ 1) :
    (floorScaled r ≤ 255 ∧ floorScaled g ≤ 255 ∧ floorScaled b ≤ 255) ∧
    (∀ c d : ℚ, 0 ≤ c → c ≤ d → d ≤ 1 → floorScaled c ≤ floorScaled d) ∧
    floorScaled 0 = 0 ∧ floorScaled 1 = 255 ∧
    (∀ (s : State) (format : Nat),
      format = DGL_FORMAT_XRGB8888 ∨ format = DGL_FORMAT_ARGB8888 →
      (dglConvertColor s format r g b).2 < 16777216 ∧
      (∀ (t : State) (context : Nat) (x y : Int),
        (t.fb (t.context context).draw_fb).bytes_per_pixel = 4 →
        loadPixel (t.fb (t.context context).draw_fb).todglPixelBuffer
          (dglPutPixel t context x y (dglConvertColor s format r g b).2).mem x
          (y + (t.context context).draw_yoffset) = (dglConvertColor s format r g b).2) ∧
      (∀ (t : State) (context : Nat) (x y w h i j : Int), 0 < w → 0 < h →
        (t.fb (t.context context).draw_fb).bytes_per_pixel = 4 →
        WellFormed (t.fb (t.context context).draw_fb).todglPixelBuffer →
        RectInside (t.fb (t.context context).draw_fb).todglPixelBuffer x
          (y + (t.context context).draw_yoffset) w h →
        0 ≤ i → i < w → 0 ≤ j → j < h →
        loadPixel (t.fb (t.context context).draw_fb).todglPixelBuffer
          (dglFill t context x y w h (dglConvertColor s format r g b).2).mem (x + i)
          (y + (t.context context).draw_yoffset + j) = (dglConvertColor s format r g b).2)) ∧
    (∀ s : State,
      (dglConvertColor s DGL_FORMAT_RGB565 r g b).2 < 65536 ∧
      (∀ (t : State) (context : Nat) (x y : Int),
        (t.fb (t.context context).draw_fb).bytes_per_pixel = 2 →
        loadPixel (t.fb (t.context context).draw_fb).todglPixelBuffer
          (dglPutPixel t context x y (dglConvertColor s DGL_FORMAT_RGB565 r g b).2).mem x
          (y + (t.context context).draw_yoffset)
          = (dglConvertColor s DGL_FORMAT_RGB565 r g b).2) ∧
      (∀ (t : State) (context : Nat) (x y w h i j : Int), 0 < w → 0 < h →
        (t.fb (t.context context).draw_fb).bytes_per_pixel = 2 →
        WellFormed (t.fb (t.context context).draw_fb).todglPixelBuffer →
        RectInside (t.fb (t.context context).draw_fb).todglPixelBuffer x
          (y + (t.context context).draw_yoffset) w h →
        0 ≤ i → i < w → 0 ≤ j → j < h →
        loadPixel (t.fb (t.context context).draw_fb).todglPixelBuffer
          (dglFill t context x y w h (dglConvertColor s DGL_FORMAT_RGB565 r g b).2).mem (x + i)
          (y + (t.context context).draw_yoffset + j)
          = (dglConvertColor s DGL_FORMAT_RGB565 r g b).2)) := by
  have hR := (floorScaled_bounds r hr0 hr1).2
  have hG := (floorScaled_bounds g hg0 hg1).2
  have hB := (floorScaled_bounds b hb0 hb1).2
  refine ⟨⟨hR, hG, hB⟩, fun c d h0 hcd h1 => floorScaled_mono c d h0 hcd h1,
    floorScaled_zero, floorScaled_one, ?_, ?_⟩
  · intro s format hf
    have hmask : format &&& 5 = 0 := by rcases hf with h | h <;> subst h <;> decide
    have hlt : (dglConvertColor s format r g b).2 < 16777216 := by
      rw [dglConvertColor_bgr32 s format r g b hmask]
      show (floorScaled r * 65536 + floorScaled g * 256 + floorScaled b) % 4294967296 < 16777216
      omega
    refine ⟨hlt, ?_, ?_⟩
    · intro t context x y hbpp
      rw [dglPutPixel_load, if_pos hbpp]
      omega
    · intro t context x y w h i j hw hh hbpp hwf hin hi0 hi1 hj0 hj1
      exact dglFill_load32 t context x y w h _ hw hh (by omega) hbpp hwf hin i j hi0 hi1 hj0 hj1
  · intro s
    have hlt : (dglConvertColor s DGL_FORMAT_RGB565 r g b).2 < 65536 := by
      rw [dglConvertColor_rgb16 s DGL_FORMAT_RGB565 r g b (by decide) hR hG hB]
      show min (floorScaled r + 4) 255 / 8 * 2048 + min (floorScaled g + 2) 255 / 4 * 32
        + min (floorScaled b + 4) 255 / 8 < 65536
      omega
    refine ⟨hlt, ?_, ?_⟩
    · intro t context x y hbpp
      rw [dglPutPixel_load, if_neg (by omega)]
      omega
    · intro t context x y w h i j hw hh hbpp hwf hin hi0 hi1 hj0 hj1
      exact dglFill_load16 t context x y w h _ hw hh hlt hbpp hwf hin i j hi0 hi1 hj0 hj1

/-- Instance of C19: red 1, green 1/2, blue 0. -/
theorem convertColor_range_witness :
    (floorScaled 1 ≤ 255 ∧ floorScaled (1 / 2) ≤ 255 ∧ floorScaled 0 ≤ 255) ∧
    (dglConvertColor pixmapState DGL_FORMAT_RGB565 1 (1 / 2) 0).2 < 65536 :=
  have H := convertColor_range 1 (1 / 2) 0 (by norm_num) (by norm_num) (by norm_num)
    (by norm_num) (by norm_num) (by norm_num)
  ⟨H.1, (H.2.2.2.2.2 pixmapState).1⟩

/-- C20: for every format value, `dglConvertColor(format, 0, 0, 0)` returns 0. -/
theorem convertColor_black (s : State) (format : Nat) :
    (dglConvertColor s format 0 0 0).2 = 0 := by
  by_cases h0 : format &&& 5 = 0
  · rw [dglConvertColor_bgr32 s format 0 0 0 h0, floorScaled_zero]
  · by_cases h4 : format &&& 5 = 4
    · rw [dglConvertColor_rgb16 s format 0 0 0 h4 (by rw [floorScaled_zero]; omega)
        (by rw [floorScaled_zero]; omega) (by rw [floorScaled_zero]; omega), floorScaled_zero]
      show min (0 + 4) 255 / 8 * 2048 + min (0 + 2) 255 / 4 * 32 + min (0 + 4) 255 / 8 = 0
      decide
    · rw [dglConvertColor_rejected s format 0 0 0 h0 h4]

/-! ## Buffer construction -/

theorem bytesPerPixel_cases (format : Nat) :
    (format &&& DGL_FORMAT_PIXEL_SIZE_16_BIT ≠ 0 → DGL_FORMAT_GET_BYTES_PER_PIXEL format = 2) ∧
    (format &&& DGL_FORMAT_PIXEL_SIZE_16_BIT = 0 → DGL_FORMAT_GET_BYTES_PER_PIXEL format = 4) := by
  have h := Nat.and_two_pow format 2
  have e : DGL_FORMAT_PIXEL_SIZE_16_BIT = 2 ^ 2 := rfl
  unfold DGL_FORMAT_GET_BYTES_PER_PIXEL
  rw [e, h]
  cases format.testBit 2 <;> simp

/-- C21: bytes-per-pixel is 2 when the 16-bit bit (`0x4`) of the format is set
and 4 otherwise; and the buffers returned by `dglCreatePixmapFB`,
`dglCreateImage` and `dglCreateImageFromBuffer` have `xres = w`, `yres = h`,
that `bytes_per_pixel`, `stride = w * bytes_per_pixel` and
`total_size = h * stride`, which is the number of bytes the two allocating
functions allocate; so `stride >= xres * bytes_per_pixel` and
`total_size >= stride * yres`, the type flag is pixmap respectively image and
no capability flag is set. -/
theorem created_buffers_geometry (s : State) (p : Nat) (addr : Int) (format : Nat)
    (w h : Int) :
    ((format &&& DGL_FORMAT_PIXEL_SIZE_16_BIT ≠ 0 → DGL_FORMAT_GET_BYTES_PER_PIXEL format = 2) ∧
      (format &&& DGL_FORMAT_PIXEL_SIZE_16_BIT = 0 →
        DGL_FORMAT_GET_BYTES_PER_PIXEL format = 4)) ∧
    (∀ r : NewBuffer,
      (r = dglCreatePixmapFB s p addr format w h ∨ r = dglCreateImage s p addr format w h ∨
        r = dglCreateImageFromBuffer s p format w h addr) →
      r.fb = p ∧
      (r.state.fb r.fb).framebuffer_addr = addr ∧
      (r.state.fb r.fb).format = format ∧
      (r.state.fb r.fb).xres = w ∧
      (r.state.fb r.fb).yres = h ∧
      (r.state.fb r.fb).bytes_per_pixel = DGL_FORMAT_GET_BYTES_PER_PIXEL format ∧
      (r.state.fb r.fb).stride = w * (r.state.fb r.fb).bytes_per_pixel ∧
      (r.state.fb r.fb).total_size = h * (r.state.fb r.fb).stride ∧
      (r.state.fb r.fb).stride ≥ (r.state.fb r.fb).xres * (r.state.fb r.fb).bytes_per_pixel ∧
      (r.state.fb r.fb).total_size ≥ (r.state.fb r.fb).stride * (r.state.fb r.fb).yres ∧
      (r.state.fb r.fb).flags &&& (DGL_FB_FLAG_HAVE_COPY_AREA ||| DGL_FB_FLAG_HAVE_PAN_DISPLAY
        ||| DGL_FB_FLAG_HAVE_WAIT_VSYNC) = 0) ∧
    ((dglCreatePixmapFB s p addr format w h).allocated
        = some ((dglCreatePixmapFB s p addr format w h).state.fb p).total_size ∧
      ((dglCreatePixmapFB s p addr format w h).state.fb p).flags &&& DGL_FB_TYPE_MASK
        = DGL_FB_TYPE_PIXMAP) ∧
    ((dglCreateImage s p addr format w h).allocated
        = some ((dglCreateImage s p addr format w h).state.fb p).total_size ∧
      ((dglCreateImage s p addr format w h).state.fb p).flags &&& DGL_FB_TYPE_MASK
        = DGL_FB_TYPE_IMAGE) ∧
    ((dglCreateImageFromBuffer s p format w h addr).allocated = none ∧
      ((dglCreateImageFromBuffer s p format w h addr).state.fb p).flags &&& DGL_FB_TYPE_MASK
        = DGL_FB_TYPE_IMAGE) := by
  refine ⟨bytesPerPixel_cases format, ?_, ?_, ?_, ?_⟩
  · intro r hr
    rcases hr with h1 | h1 | h1 <;> subst h1 <;>
      simp [dglCreatePixmapFB, dglCreateImage, dglCreateImageFromBuffer, bufferObject] <;>
      first | decide | (constructor <;> first | decide | (rw [mul_comm]))
  · simp [dglCreatePixmapFB, bufferObject]; decide
  · simp [dglCreateImage, dglCreateImageFromBuffer, bufferObject]
    constructor
    · ring
    · decide
  · simp [dglCreateImageFromBuffer, bufferObject]; decide

/-! ## Display panning and clipping -/

/-- What `dglConsoleFBPanDisplay` commits for a request with `x >= 0` and
`y >= 0`, on a surface whose sizes satisfy `0 <= xres <= virtual_xres < 2^32`
and `0 <= yres <= virtual_yres < 2^32`: exactly one origin `(x', y')`, with
`x' + xres <= virtual_xres` and `y' + yres <= virtual_yres`; a request with
`x + xres <= virtual_xres` keeps `x' = x` and one with
`y + yres <= virtual_yres` keeps `y' = y`. For every request, each coordinate
is treated independently of the other. -/
theorem panDisplay_clamps_nonneg (s : State) (fb : Nat) (x y x2 y2 : Int)
    (hx : 0 ≤ x) (hy : 0 ≤ y)
    (hxres : 0 ≤ (s.fb fb).xres) (hyres : 0 ≤ (s.fb fb).yres)
    (hvx : (s.fb fb).xres ≤ (s.fb fb).virtual_xres)
    (hvy : (s.fb fb).yres ≤ (s.fb fb).virtual_yres)
    (hbx : (s.fb fb).virtual_xres < 4294967296)
    (hby : (s.fb fb).virtual_yres < 4294967296) :
    (dglConsoleFBPanDisplay s fb x y).1 = s ∧
    (dglConsoleFBPanDisplay s fb x y).2.length = 1 ∧
    (∀ o ∈ (dglConsoleFBPanDisplay s fb x y).2,
      o.1 + (s.fb fb).xres ≤ (s.fb fb).virtual_xres ∧
      o.2 + (s.fb fb).yres ≤ (s.fb fb).virtual_yres ∧
      (x + (s.fb fb).xres ≤ (s.fb fb).virtual_xres → o.1 = x) ∧
      (y + (s.fb fb).yres ≤ (s.fb fb).virtual_yres → o.2 = y)) ∧
    (dglConsoleFBPanDisplay s fb x y2).2.map Prod.fst
      = (dglConsoleFBPanDisplay s fb x y).2.map Prod.fst ∧
    (dglConsoleFBPanDisplay s fb x2 y).2.map Prod.snd
      = (dglConsoleFBPanDisplay s fb x y).2.map Prod.snd := by
  refine ⟨rfl, rfl, ?_, rfl, rfl⟩
  intro o ho
  simp only [dglConsoleFBPanDisplay, List.mem_singleton] at ho
  subst ho
  refine ⟨?_, ?_, ?_, ?_⟩
  · show (if x + (s.fb fb).xres ≥ (s.fb fb).virtual_xres then
        (s.fb fb).virtual_xres - (s.fb fb).xres else x) % 4294967296 + (s.fb fb).xres
      ≤ (s.fb fb).virtual_xres
    split_ifs <;> omega
  · show (if y + (s.fb fb).yres ≥ (s.fb fb).virtual_yres then
        (s.fb fb).virtual_yres - (s.fb fb).yres else y) % 4294967296 + (s.fb fb).yres
      ≤ (s.fb fb).virtual_yres
    split_ifs <;> omega
  · intro hx1
    show (if x + (s.fb fb).xres ≥ (s.fb fb).virtual_xres then
        (s.fb fb).virtual_xres - (s.fb fb).xres else x) % 4294967296 = x
    split_ifs <;> omega
  · intro hy1
    show (if y + (s.fb fb).yres ≥ (s.fb fb).virtual_yres then
        (s.fb fb).virtual_yres - (s.fb fb).yres else y) % 4294967296 = y
    split_ifs <;> omega

/-- C28: on the created console surface (8x4 visible, virtual size 8x8, so
`virtual_xres >= xres` and `virtual_yres >= yres`) the request `(-1, -1)`
passes both tests unchanged and is committed through the `__u32` fields as
`(4294967295, 4294967295)`: the committed origin does not satisfy
`x' + xres <= virtual_xres` nor `y' + yres <= virtual_yres`. -/
theorem panDisplay_negative_origin_wraps :
    (createdConsoleState.fb 7).xres ≤ (createdConsoleState.fb 7).virtual_xres ∧
    (createdConsoleState.fb 7).yres ≤ (createdConsoleState.fb 7).virtual_yres ∧
    (dglConsoleFBPanDisplay createdConsoleState 7 (-1) (-1)).2
      = [(4294967295, 4294967295)] ∧
    ¬ ((4294967295 : Int) + (createdConsoleState.fb 7).xres
      ≤ (createdConsoleState.fb 7).virtual_xres) ∧
    ¬ ((4294967295 : Int) + (createdConsoleState.fb 7).yres
      ≤ (createdConsoleState.fb 7).virtual_yres) := by
  decide

/-- C29: for a surface with the pan capability flag set (its dispatch entry
bound to the hardware pan, as creation binds it), `virtual_xres = xres` and a
page `n` with `0 <= n` and `(n+1) * yres <= virtual_yres`,
`dglSetDisplayPage(surface, n)` makes one dispatch call and commits exactly the
origin `(0, n * yres)`; the heights are those of a surface, `0 <= yres` and
`virtual_yres < 2^32`, so that the page origin is a value of the `__u32` field
it is committed through. For a surface with the pan flag clear,
`dglSetDisplayPage` and `dglPanDisplay` return the state unchanged (no dispatch
call) and commit nothing. -/
theorem setDisplayPage_commits (s : State) (fb : Nat) (n x y : Int) :
    ((s.fb fb).flags &&& DGL_FB_FLAG_HAVE_PAN_DISPLAY ≠ 0 →
      (s.fb fb).PanDisplayFunc = PanDisplayFuncPtr.dglConsoleFBPanDisplay →
      (s.fb fb).virtual_xres = (s.fb fb).xres → 0 ≤ n →
      (n + 1) * (s.fb fb).yres ≤ (s.fb fb).virtual_yres →
      0 ≤ (s.fb fb).yres → (s.fb fb).virtual_yres < 4294967296 →
      (dglSetDisplayPage s fb n).2 = [(0, n * (s.fb fb).yres)] ∧
      (dglSetDisplayPage s fb n).1.dispatched
        = s.dispatched ++ [DispatchCall.PanDisplayFunc fb 0 (n * (s.fb fb).yres)]) ∧
    ((s.fb fb).flags &&& DGL_FB_FLAG_HAVE_PAN_DISPLAY = 0 →
      dglSetDisplayPage s fb n = (s, []) ∧ dglPanDisplay s fb x y = (s, [])) := by
  constructor
  · intro hflag hbound hvx hn hpage hyres hby
    have hy : (n + 1) * (s.fb fb).yres = n * (s.fb fb).yres + (s.fb fb).yres := by ring
    have hq0 : 0 ≤ n * (s.fb fb).yres := mul_nonneg hn hyres
    rw [hy] at hpage
    unfold dglSetDisplayPage dglPanDisplay
    rw [if_pos hflag]
    unfold callPanDisplayFunc
    rw [hbound]
    refine ⟨?_, rfl⟩
    show [((if 0 + (s.fb fb).xres ≥ (s.fb fb).virtual_xres then
          (s.fb fb).virtual_xres - (s.fb fb).xres else 0) % 4294967296,
        (if n * (s.fb fb).yres + (s.fb fb).yres ≥ (s.fb fb).virtual_yres then
          (s.fb fb).virtual_yres - (s.fb fb).yres else n * (s.fb fb).yres) % 4294967296)]
      = [(0, n * (s.fb fb).yres)]
    rw [if_pos (by omega)]
    congr 2
    · omega
    · split_ifs <;> omega
  · intro hflag
    unfold dglSetDisplayPage dglPanDisplay
    rw [if_neg (by rw [hflag]; simp), if_neg (by rw [hflag]; simp)]
    exact ⟨rfl, rfl⟩

/-- Instances of C29: on the created two-page console surface, page 1 (the
last page) is committed at `(0, 4)`; on a pixmap, whose flags hold no
capability, nothing is committed. -/
theorem setDisplayPage_commits_witness :
    (dglSetDisplayPage createdConsoleState 7 1).2
      = [(0, 1 * (createdConsoleState.fb 7).yres)] ∧
    dglSetDisplayPage pixmapState 1 1 = (pixmapState, []) :=
  ⟨((setDisplayPage_commits createdConsoleState 7 1 0 0).1 (by decide) (by decide) (by decide)
      (by decide) (by decide) (by decide) (by decide)).1,
   ((setDisplayPage_commits pixmapState 1 1 0 0).2 (by decide)).1⟩

/-- C30: for a clip rectangle with `x1 < x2` and `y1 < y2` and every point
`(x, y)`, `dglClip` returns `(x', y')` with `x1 <= x' < x2` and
`y1 <= y' < y2`, and returns the point itself when it already satisfies those
bounds; with the rectangle set by
`dglSetClipRectangleFromFramebufferDimensions` on a buffer with `xres > 0` and
`yres > 0` the clipped point satisfies `0 <= x' < xres` and `0 <= y' < yres`. -/
theorem clip_in_bounds (cr : dglClipRectangle) (x y : Int)
    (hx : cr.x1 < cr.x2) (hy : cr.y1 < cr.y2) :
    (cr.x1 ≤ (dglClip cr x y).1 ∧ (dglClip cr x y).1 < cr.x2 ∧
      cr.y1 ≤ (dglClip cr x y).2 ∧ (dglClip cr x y).2 < cr.y2) ∧
    (cr.x1 ≤ x → x < cr.x2 → cr.y1 ≤ y → y < cr.y2 → dglClip cr x y = (x, y)) ∧
    (∀ fb : dglPixelBuffer, 0 < fb.xres → 0 < fb.yres →
      0 ≤ (dglClip (dglSetClipRectangleFromFramebufferDimensions fb) x y).1 ∧
      (dglClip (dglSetClipRectangleFromFramebufferDimensions fb) x y).1 < fb.xres ∧
      0 ≤ (dglClip (dglSetClipRectangleFromFramebufferDimensions fb) x y).2 ∧
      (dglClip (dglSetClipRectangleFromFramebufferDimensions fb) x y).2 < fb.yres) := by
  refine ⟨?_, ?_, ?_⟩
  · simp only [dglClip]
    refine ⟨?_, ?_, ?_, ?_⟩ <;> split_ifs <;> omega
  · intro h1 h2 h3 h4
    simp only [dglClip]
    rw [if_neg (by omega), if_neg (by omega), if_neg (by omega), if_neg (by omega)]
  · intro fb hxres hyres
    simp only [dglClip, dglSetClipRectangleFromFramebufferDimensions]
    refine ⟨?_, ?_, ?_, ?_⟩ <;> split_ifs <;> omega

/-- Instance of C30: the point `(9, -3)` clipped to `[0, 8) x [0, 4)`. -/
theorem clip_in_bounds_witness :
    (dglSetClipRectangle 0 0 8 4).x1 ≤ (dglClip (dglSetClipRectangle 0 0 8 4) 9 (-3)).1 ∧
    (dglClip (dglSetClipRectangle 0 0 8 4) 9 (-3)).1 < (dglSetClipRectangle 0 0 8 4).x2 ∧
    (dglSetClipRectangle 0 0 8 4).y1 ≤ (dglClip (dglSetClipRectangle 0 0 8 4) 9 (-3)).2 ∧
    (dglClip (dglSetClipRectangle 0 0 8 4) 9 (-3)).2 < (dglSetClipRectangle 0 0 8 4).y2 :=
  (clip_in_bounds (dglSetClipRectangle 0 0 8 4) 9 (-3) (by decide) (by decide)).1

/-! ## Console surface creation -/

theorem dglMessage_fb (s : State) (priority : Int) (format : String) :
    (dglMessage s priority format).fb = s.fb := by
  unfold dglMessage; split_ifs <;> rfl

/-- A layout the classification rejects gives no surface and no mapping. -/
theorem create_rejected (c : ConsoleCalls) (s : State) (h : consoleFormat c.fb_var = none) :
    (dglCreateConsoleFramebuffer c s).cfb = none ∧
    (dglCreateConsoleFramebuffer c s).mmap_called = false := by
  unfold dglCreateConsoleFramebuffer
  split_ifs <;> simp [h]

/-- What a successful creation stores: the pointer is the new object, whose
format is the classified one and whose remaining fields follow the reports. -/
theorem create_succeeded (c : ConsoleCalls) (s : State) (p : Nat)
    (h : (dglCreateConsoleFramebuffer c s).cfb = some p) :
    p = c.new_cfb ∧
    consoleFormat c.fb_var = some ((dglCreateConsoleFramebuffer c s).state.fb p).format ∧
    ((dglCreateConsoleFramebuffer c s).state.fb p).bytes_per_pixel
      = (((c.fb_var.bits_per_pixel + 7) / 8 : Nat) : Int) ∧
    ((dglCreateConsoleFramebuffer c s).state.fb p).yres = (c.fb_var.yres : Int) ∧
    ((dglCreateConsoleFramebuffer c s).state.fb p).virtual_yres
      = Int.tdiv (c.fb_fix.smem_len : Int) (c.fb_fix.line_length : Int) ∧
    ((dglCreateConsoleFramebuffer c s).state.fb p).nu_pages
      = Int.tdiv (Int.tdiv (c.fb_fix.smem_len : Int) (c.fb_fix.line_length : Int))
          (c.fb_var.xres : Int) := by
  unfold dglCreateConsoleFramebuffer at h ⊢
  by_cases h1 : c.open_fb0 < 0
  · simp only [if_pos h1] at h
    exact absurd h (by simp)
  · by_cases h2 : c.ioctl_FBIOGET_VSCREENINFO < 0 ∨ c.ioctl_FBIOGET_FSCREENINFO < 0
    · simp only [if_neg h1, if_pos h2] at h
      exact absurd h (by simp)
    · simp only [if_neg h1, if_neg h2] at h ⊢
      cases hf : consoleFormat c.fb_var with
      | none =>
        simp only [hf] at h
        exact absurd h (by simp)
      | some format =>
        cases hm : c.mmap with
        | none =>
          simp only [hf, hm] at h
          exact absurd h (by simp)
        | some a =>
          simp only [hf, hm] at h ⊢
          have hp : c.new_cfb = p := Option.some.inj h
          subst hp
          simp [dglMessage_fb]

/-- C22: classification of a 32-bit device layout. With 8-bit channels at blue
offset 0, green offset 8, red offset 16 the format is XRGB8888 when the
transparency length is 0 and ARGB8888 when it is 8; with red offset 0, green
offset 8, blue offset 16 it is XBGR8888 respectively ABGR8888; for every
accepted 32-bit layout the order bit is set exactly when red is at offset 0,
the alpha bit exactly when the transparency length is 8, and bytes-per-pixel
derived from the format is 4; and a surface created from the layout carries
that format and 4 bytes per pixel. -/
theorem console_format_32bit (v : fb_var_screeninfo) (h32 : v.bits_per_pixel = 32) :
    (v.blue = ⟨0, 8⟩ → v.green = ⟨8, 8⟩ → v.red = ⟨16, 8⟩ →
      (v.transp.length = 0 → consoleFormat v = some DGL_FORMAT_XRGB8888) ∧
      (v.transp.length = 8 → consoleFormat v = some DGL_FORMAT_ARGB8888)) ∧
    (v.red = ⟨0, 8⟩ → v.green = ⟨8, 8⟩ → v.blue = ⟨16, 8⟩ →
      (v.transp.length = 0 → consoleFormat v = some DGL_FORMAT_XBGR8888) ∧
      (v.transp.length = 8 → consoleFormat v = some DGL_FORMAT_ABGR8888)) ∧
    (∀ f : Nat, consoleFormat v = some f →
      (f &&& DGL_FORMAT_LSB_ORDER_RGB_BIT ≠ 0 ↔ v.red.offset = 0) ∧
      (f &&& DGL_FORMAT_ALPHA_BIT ≠ 0 ↔ v.transp.length = 8) ∧
      DGL_FORMAT_GET_BYTES_PER_PIXEL f = 4) ∧
    (∀ (c : ConsoleCalls) (s : State) (p : Nat), c.fb_var = v →
      (dglCreateConsoleFramebuffer c s).cfb = some p →
      consoleFormat v = some ((dglCreateConsoleFramebuffer c s).state.fb p).format ∧
      ((dglCreateConsoleFramebuffer c s).state.fb p).bytes_per_pixel = 4) := by
  refine ⟨?_, ?_, ?_, ?_⟩
  · intro hb hg hr
    constructor <;> intro ht <;> simp [consoleFormat, h32, hb, hg, hr, ht] <;> decide
  · intro hr hg hb
    constructor <;> intro ht <;> simp [consoleFormat, h32, hb, hg, hr, ht] <;> decide
  · intro f hf
    unfold consoleFormat at hf
    have h16 : ¬ v.bits_per_pixel = 16 := by omega
    by_cases hlay : (v.blue.offset = 0 ∧ v.blue.length = 8 ∧
        v.green.offset = 8 ∧ v.green.length = 8 ∧
        v.red.offset = 16 ∧ v.red.length = 8) ∨
      (v.red.offset = 0 ∧ v.red.length = 8 ∧
        v.green.offset = 8 ∧ v.green.length = 8 ∧
        v.blue.offset = 16 ∧ v.blue.length = 8)
    · rw [if_pos ⟨h32, hlay⟩] at hf
      by_cases hr : v.red.offset = 0 <;> by_cases ht : v.transp.length = 8
      · simp only [if_pos hr, if_pos ht, Option.some.injEq] at hf
        subst hf
        exact ⟨iff_of_true (by decide) hr, iff_of_true (by decide) ht, by decide⟩
      · by_cases ht0 : v.transp.length = 0
        · simp only [if_pos hr, if_neg ht] at hf
          simp only [ht0, ne_eq, not_true, if_false, Option.some.injEq] at hf
          subst hf
          exact ⟨iff_of_true (by decide) hr, iff_of_false (by decide) ht, by decide⟩
        · simp [hr, ht, ht0] at hf
      · simp only [if_neg hr, if_pos ht, Option.some.injEq] at hf
        subst hf
        exact ⟨iff_of_false (by decide) hr, iff_of_true (by decide) ht, by decide⟩
      · by_cases ht0 : v.transp.length = 0
        · simp only [if_neg hr, if_neg ht] at hf
          simp only [ht0, ne_eq, not_true, if_false, Option.some.injEq] at hf
          subst hf
          exact ⟨iff_of_false (by decide) hr, iff_of_false (by decide) ht, by decide⟩
        · simp [hr, ht, ht0] at hf
    · rw [if_neg (fun h => hlay h.2), if_neg h16] at hf
      exact absurd hf (by simp)
  · intro c s p hv hp
    obtain ⟨-, hfmt, hbpp, -⟩ := create_succeeded c s p hp
    rw [hv] at hfmt hbpp
    refine ⟨hfmt, ?_⟩
    rw [hbpp, h32]
    rfl

/-- Witness for `console_format_32bit`: the XRGB8888 layout is a 32-bit layout,
it is classified as XRGB8888, and that format has 4 bytes per pixel. -/
theorem console_format_32bit_witness :
    xrgb8888Var.bits_per_pixel = 32 ∧
    consoleFormat xrgb8888Var = some DGL_FORMAT_XRGB8888 ∧
    DGL_FORMAT_GET_BYTES_PER_PIXEL DGL_FORMAT_XRGB8888 = 4 :=
  ⟨rfl, ((console_format_32bit xrgb8888Var rfl).1 rfl rfl rfl).1 rfl,
   ((console_format_32bit xrgb8888Var rfl).2.2.1 DGL_FORMAT_XRGB8888 (by decide)).2.2⟩

/-- The BGR565 branch of the classification is never taken: its condition is
the condition of the RGB565 branch before it. -/
theorem consoleFormat_never_bgr565 (v : fb_var_screeninfo) :
    consoleFormat v ≠ some DGL_FORMAT_BGR565 := by
  intro h
  unfold consoleFormat at h
  split_ifs at h <;> contradiction

/-- C23: the layout blue 0/5, green 5/6, red 11/5 is classified as RGB565, but
the mirrored layout red 0/5, green 5/6, blue 11/5 is not classified as BGR565:
the classification fails on it and `dglCreateConsoleFramebuffer` returns no
surface. -/
theorem bgr565_layout_rejected :
    consoleFormat rgb565Var = some DGL_FORMAT_RGB565 ∧
    bgr565Var.bits_per_pixel = 16 ∧
    bgr565Var.red = ⟨0, 5⟩ ∧ bgr565Var.green = ⟨5, 6⟩ ∧ bgr565Var.blue = ⟨11, 5⟩ ∧
    consoleFormat bgr565Var = none ∧
    (dglCreateConsoleFramebuffer (goodCalls bgr565Var 0) pixmapState).cfb = none := by
  decide

/-- C24: `dglCreateConsoleFramebuffer` returns no surface and never calls
`mmap` when the reported bits-per-pixel is neither 16 nor 32, and when it is 32
and the transparency length is neither 0 nor 8. -/
theorem console_rejects_unsupported (c : ConsoleCalls) (s : State)
    (h : (c.fb_var.bits_per_pixel ≠ 16 ∧ c.fb_var.bits_per_pixel ≠ 32) ∨
      (c.fb_var.bits_per_pixel = 32 ∧ c.fb_var.transp.length ≠ 0 ∧
        c.fb_var.transp.length ≠ 8)) :
    consoleFormat c.fb_var = none ∧
    (dglCreateConsoleFramebuffer c s).cfb = none ∧
    (dglCreateConsoleFramebuffer c s).mmap_called = false := by
  have hnone : consoleFormat c.fb_var = none := by
    unfold consoleFormat
    rcases h with ⟨h16, h32⟩ | ⟨h32, ht0, ht8⟩
    · simp [h16, h32]
    · have h16 : ¬ c.fb_var.bits_per_pixel = 16 := by omega
      simp [h32, ht0, ht8]
  exact ⟨hnone, create_rejected c s hnone⟩

/-- Witness for `console_rejects_unsupported`: a 24-bit device and a 32-bit
device with 4 transparency bits, every system call succeeding. -/
theorem console_rejects_unsupported_witness :
    (rgb888Var.bits_per_pixel ≠ 16 ∧ rgb888Var.bits_per_pixel ≠ 32) ∧
    ((dglCreateConsoleFramebuffer (goodCalls rgb888Var 0) pixmapState).cfb = none ∧
      (dglCreateConsoleFramebuffer (goodCalls rgb888Var 0) pixmapState).mmap_called = false) ∧
    ((dglCreateConsoleFramebuffer (goodCalls transp4Var 0) pixmapState).cfb = none ∧
      (dglCreateConsoleFramebuffer (goodCalls transp4Var 0) pixmapState).mmap_called = false) :=
  ⟨by decide,
   (console_rejects_unsupported (goodCalls rgb888Var 0) pixmapState
      (Or.inl (by decide))).2,
   (console_rejects_unsupported (goodCalls transp4Var 0) pixmapState
      (Or.inr (by decide))).2⟩

/-- C25: the classification accepts, as RGB565, the 16-bit layout red 0/5,
green 6/6, blue 11/5, and a surface is created from it, although bit 11
belongs to both the green and the blue range and bit 5 to no range. -/
theorem skewed565_layout_accepted :
    consoleFormat skewed565Var = some DGL_FORMAT_RGB565 ∧
    (dglCreateConsoleFramebuffer (goodCalls skewed565Var 0) pixmapState).cfb = some 7 ∧
    (skewed565Var.green.offset ≤ 11 ∧
      11 < skewed565Var.green.offset + skewed565Var.green.length) ∧
    (skewed565Var.blue.offset ≤ 11 ∧
      11 < skewed565Var.blue.offset + skewed565Var.blue.length) ∧
    ¬ (skewed565Var.red.offset ≤ 5 ∧
      5 < skewed565Var.red.offset + skewed565Var.red.length) ∧
    ¬ (skewed565Var.green.offset ≤ 5 ∧
      5 < skewed565Var.green.offset + skewed565Var.green.length) ∧
    ¬ (skewed565Var.blue.offset ≤ 5 ∧
      5 < skewed565Var.blue.offset + skewed565Var.blue.length) := by
  decide

/-- C26: on a device of 8x4 visible pixels with 128 bytes of memory and a
stride of 16, the created surface has `virtual_yres = 8` and `yres = 4`, so the
virtual height divided by the visible height is 2, but `nu_pages` is 1: the
virtual height was divided by `xres`. -/
theorem nu_pages_divides_by_xres :
    (dglCreateConsoleFramebuffer (goodCalls rgb565Var 0) pixmapState).cfb = some 7 ∧
    (createdConsoleState.fb 7).virtual_yres = 8 ∧
    (createdConsoleState.fb 7).yres = 4 ∧
    (createdConsoleState.fb 7).xres = 8 ∧
    Int.tdiv (createdConsoleState.fb 7).virtual_yres (createdConsoleState.fb 7).yres = 2 ∧
    (createdConsoleState.fb 7).nu_pages = 1 := by
  decide

/-- C27: with the console in text mode and the switch to graphics mode
failing (`KDSETMODE` returns -1), on a device with `virtual_yres = 8 > yres =
4`, the created surface records `graphics_mode_set = false` and still has the
page-pan flag set and the hardware pan function bound. -/
theorem pan_flag_set_after_failed_switch :
    (goodCalls rgb565Var (-1)).current_mode = KD_TEXT ∧
    (goodCalls rgb565Var (-1)).ioctl_KDSETMODE ≠ 0 ∧
    (dglCreateConsoleFramebuffer (goodCalls rgb565Var (-1)) pixmapState).cfb = some 7 ∧
    ((dglCreateConsoleFramebuffer (goodCalls rgb565Var (-1)) pixmapState).state.fb 7).virtual_yres
      > ((dglCreateConsoleFramebuffer (goodCalls rgb565Var (-1)) pixmapState).state.fb 7).yres ∧
    ((dglCreateConsoleFramebuffer (goodCalls rgb565Var (-1)) pixmapState).state.fb 7).graphics_mode_set
      = false ∧
    ((dglCreateConsoleFramebuffer (goodCalls rgb565Var (-1)) pixmapState).state.fb 7).flags
      &&& DGL_FB_FLAG_HAVE_PAN_DISPLAY ≠ 0 ∧
    ((dglCreateConsoleFramebuffer (goodCalls rgb565Var (-1)) pixmapState).state.fb 7).PanDisplayFunc
      = PanDisplayFuncPtr.dglConsoleFBPanDisplay := by
  decide

/-! ## Clipping of rectangle corners -/

/-- C38: for a clip rectangle with `x1 < x2` and `y1 < y2`, `dglClip` is
monotone in each coordinate (`xa <= xb` gives `clip(xa) <= clip(xb)`, the same
for `y`, whatever the other coordinate is) and idempotent; hence for two
corners with `xa <= xb`, `ya <= yb` the clipped corners give
`w = xb' - xa' >= 0` and `h = yb' - ya' >= 0`, and the rectangle
`[xa', xa' + w) x [ya', ya' + h)` lies inside the clip rectangle. -/
theorem clip_monotone_idempotent (cr : dglClipRectangle) (xa ya xb yb : Int)
    (hx : cr.x1 < cr.x2) (hy : cr.y1 < cr.y2) :
    (xa ≤ xb → (dglClip cr xa ya).1 ≤ (dglClip cr xb yb).1) ∧
    (ya ≤ yb → (dglClip cr xa ya).2 ≤ (dglClip cr xb yb).2) ∧
    dglClip cr (dglClip cr xa ya).1 (dglClip cr xa ya).2 = dglClip cr xa ya ∧
    (xa ≤ xb → ya ≤ yb →
      0 ≤ (dglClip cr xb yb).1 - (dglClip cr xa ya).1 ∧
      0 ≤ (dglClip cr xb yb).2 - (dglClip cr xa ya).2 ∧
      cr.x1 ≤ (dglClip cr xa ya).1 ∧
      (dglClip cr xa ya).1 + ((dglClip cr xb yb).1 - (dglClip cr xa ya).1) ≤ cr.x2 ∧
      cr.y1 ≤ (dglClip cr xa ya).2 ∧
      (dglClip cr xa ya).2 + ((dglClip cr xb yb).2 - (dglClip cr xa ya).2) ≤ cr.y2) := by
  refine ⟨?_, ?_, ?_, ?_⟩
  · intro hab
    simp only [dglClip]
    split_ifs <;> omega
  · intro hab
    simp only [dglClip]
    split_ifs <;> omega
  · simp only [dglClip]
    apply Prod.ext
    · show (if (if (if (if xa < cr.x1 then cr.x1 else xa) ≥ cr.x2 then cr.x2 - 1
          else (if xa < cr.x1 then cr.x1 else xa)) < cr.x1 then cr.x1
          else (if (if xa < cr.x1 then cr.x1 else xa) ≥ cr.x2 then cr.x2 - 1
          else (if xa < cr.x1 then cr.x1 else xa))) ≥ cr.x2 then cr.x2 - 1
          else (if (if (if xa < cr.x1 then cr.x1 else xa) ≥ cr.x2 then cr.x2 - 1
          else (if xa < cr.x1 then cr.x1 else xa)) < cr.x1 then cr.x1
          else (if (if xa < cr.x1 then cr.x1 else xa) ≥ cr.x2 then cr.x2 - 1
          else (if xa < cr.x1 then cr.x1 else xa))))
        = (if (if xa < cr.x1 then cr.x1 else xa) ≥ cr.x2 then cr.x2 - 1
          else (if xa < cr.x1 then cr.x1 else xa))
      split_ifs <;> omega
    · show (if (if (if (if ya < cr.y1 then cr.y1 else ya) ≥ cr.y2 then cr.y2 - 1
          else (if ya < cr.y1 then cr.y1 else ya)) < cr.y1 then cr.y1
          else (if (if ya < cr.y1 then cr.y1 else ya) ≥ cr.y2 then cr.y2 - 1
          else (if ya < cr.y1 then cr.y1 else ya))) ≥ cr.y2 then cr.y2 - 1
          else (if (if (if ya < cr.y1 then cr.y1 else ya) ≥ cr.y2 then cr.y2 - 1
          else (if ya < cr.y1 then cr.y1 else ya)) < cr.y1 then cr.y1
          else (if (if ya < cr.y1 then cr.y1 else ya) ≥ cr.y2 then cr.y2 - 1
          else (if ya < cr.y1 then cr.y1 else ya))))
        = (if (if ya < cr.y1 then cr.y1 else ya) ≥ cr.y2 then cr.y2 - 1
          else (if ya < cr.y1 then cr.y1 else ya))
      split_ifs <;> omega
  · intro hxab hyab
    simp only [dglClip]
    refine ⟨?_, ?_, ?_, ?_, ?_, ?_⟩ <;> split_ifs <;> omega

/-- Instance of C38: the corners `(-2, 1)` and `(11, 9)` clipped to
`[0, 8) x [0, 4)` give the rectangle at `(0, 1)` of width 7 and height 2. -/
theorem clip_monotone_idempotent_witness :
    (dglClip (dglSetClipRectangle 0 0 8 4) (-2) 1).1
      ≤ (dglClip (dglSetClipRectangle 0 0 8 4) 11 9).1 ∧
    0 ≤ (dglClip (dglSetClipRectangle 0 0 8 4) 11 9).2
      - (dglClip (dglSetClipRectangle 0 0 8 4) (-2) 1).2 ∧
    dglClip (dglSetClipRectangle 0 0 8 4) (-2) 1 = (0, 1) ∧
    dglClip (dglSetClipRectangle 0 0 8 4) 11 9 = (7, 3) :=
  have H := clip_monotone_idempotent (dglSetClipRectangle 0 0 8 4) (-2) 1 11 9
    (by decide) (by decide)
  ⟨H.1 (by decide), (H.2.2.2 (by decide) (by decide)).2.1, by decide, by decide⟩

/-! ## The format test of the colour conversion -/

theorem and_5 (f : Nat) : f &&& 5 = (f % 8) &&& 5 := by
  have h7 : f % 8 = f &&& 7 := (Nat.and_pow_two_sub_one_eq_mod f 3).symm
  rw [h7, Nat.and_assoc]
  rfl

theorem and_4 (f : Nat) : f &&& 4 = (f % 8) &&& 4 := by
  have h7 : f % 8 = f &&& 7 := (Nat.and_pow_two_sub_one_eq_mod f 3).symm
  rw [h7, Nat.and_assoc]
  rfl

theorem and_1 (f : Nat) : f &&& 1 = (f % 8) &&& 1 := by
  have h7 : f % 8 = f &&& 7 := (Nat.and_pow_two_sub_one_eq_mod f 3).symm
  rw [h7, Nat.and_assoc]
  rfl

/-- The value of the mask test of `dglConvertColor` in terms of bit 0 and bit 2
of the format. -/
theorem formatMask_cases (f : Nat) :
    (f &&& 1 = 0 ∧ f &&& 4 = 0 ∧ f &&& 5 = 0) ∨ (f &&& 1 = 0 ∧ f &&& 4 = 4 ∧ f &&& 5 = 4) ∨
    (f &&& 1 = 1 ∧ f &&& 4 = 0 ∧ f &&& 5 = 1) ∨ (f &&& 1 = 1 ∧ f &&& 4 = 4 ∧ f &&& 5 = 5) := by
  rw [and_5, and_4, and_1]
  have h8 : f % 8 < 8 := Nat.mod_lt _ (by norm_num)
  generalize f % 8 = r at h8
  interval_cases r <;> decide

/-- The result of `dglConvertColor` depends on the format only through the two
bits it tests. -/
theorem dglConvertColor_congr (s : State) (f1 f2 : Nat) (r g b : ℚ)
    (h : f1 &&& 5 = f2 &&& 5) :
    dglConvertColor s f1 r g b = dglConvertColor s f2 r g b := by
  unfold dglConvertColor
  simp only [formatMask_eq, h]

/-- A warning that the message level admits lengthens the output. -/
theorem dglMessage_warning_stdout (s : State) (format : String)
    (hlevel : DGL_MESSAGE_WARNING ≤ s.dgl_internal_debug_message_level) :
    (dglMessage s DGL_MESSAGE_WARNING format).stdout
      = s.stdout ++ ["dgl: ", "WARNING: ", format] := by
  unfold dglMessage
  rw [if_neg (by omega)]
  simp

/-- C36: `dglConvertColor` takes its error path (the warning is passed to
`dglMessage`, the result is 0) whenever bit 0 of the format value is set,
whatever the other bits are, so XBGR8888, ABGR8888 and BGR565 are rejected;
every format value with bit 0 clear is converted without a warning, like
RGB565 when bit `0x4` is set and like XRGB8888 otherwise; at a message level
that admits warnings the output grows exactly when bit 0 is set. -/
theorem convertColor_error_path (s : State) (format : Nat) (r g b : ℚ) :
    (format &&& DGL_FORMAT_LSB_ORDER_RGB_BIT ≠ 0 →
      dglConvertColor s format r g b
        = (dglMessage s DGL_MESSAGE_WARNING convertWarning, 0)) ∧
    (format &&& DGL_FORMAT_LSB_ORDER_RGB_BIT = 0 →
      (dglConvertColor s format r g b).1 = s ∧
      (format &&& DGL_FORMAT_PIXEL_SIZE_16_BIT ≠ 0 →
        dglConvertColor s format r g b = dglConvertColor s DGL_FORMAT_RGB565 r g b) ∧
      (format &&& DGL_FORMAT_PIXEL_SIZE_16_BIT = 0 →
        dglConvertColor s format r g b = dglConvertColor s DGL_FORMAT_XRGB8888 r g b)) ∧
    (DGL_MESSAGE_WARNING ≤ s.dgl_internal_debug_message_level →
      ((dglConvertColor s format r g b).1.stdout ≠ s.stdout
        ↔ format &&& DGL_FORMAT_LSB_ORDER_RGB_BIT ≠ 0)) ∧
    dglConvertColor s DGL_FORMAT_XBGR8888 r g b
      = (dglMessage s DGL_MESSAGE_WARNING convertWarning, 0) ∧
    dglConvertColor s DGL_FORMAT_ABGR8888 r g b
      = (dglMessage s DGL_MESSAGE_WARNING convertWarning, 0) ∧
    dglConvertColor s DGL_FORMAT_BGR565 r g b
      = (dglMessage s DGL_MESSAGE_WARNING convertWarning, 0) := by
  have a1 : DGL_FORMAT_LSB_ORDER_RGB_BIT = 1 := rfl
  have a4 : DGL_FORMAT_PIXEL_SIZE_16_BIT = 4 := rfl
  have hset : format &&& 1 ≠ 0 →
      dglConvertColor s format r g b
        = (dglMessage s DGL_MESSAGE_WARNING convertWarning, 0) := by
    intro h1
    apply dglConvertColor_rejected
    · rcases formatMask_cases format with h | h | h | h <;> omega
    · rcases formatMask_cases format with h | h | h | h <;> omega
  have hclear : format &&& 1 = 0 → (dglConvertColor s format r g b).1 = s := by
    intro h1
    unfold dglConvertColor
    simp only [formatMask_eq]
    rcases formatMask_cases format with h | h | h | h
    · rw [if_pos h.2.2]
    · rw [if_neg (by omega), if_pos (by rw [h.2.2]; rfl)]
    · omega
    · omega
  rw [a1, a4]
  refine ⟨hset, ?_, ?_, ?_, ?_, ?_⟩
  · intro h1
    refine ⟨hclear h1, ?_, ?_⟩
    · intro h4
      apply dglConvertColor_congr
      rcases formatMask_cases format with h | h | h | h
      · omega
      · rw [h.2.2]; rfl
      · omega
      · omega
    · intro h4
      apply dglConvertColor_congr
      rcases formatMask_cases format with h | h | h | h
      · rw [h.2.2]; rfl
      · omega
      · omega
      · omega
  · intro hlevel
    constructor
    · intro hne h1
      exact hne (by rw [hclear h1])
    · intro h1
      rw [hset h1]
      show (dglMessage s DGL_MESSAGE_WARNING convertWarning).stdout ≠ s.stdout
      rw [dglMessage_warning_stdout s _ hlevel]
      intro h
      have := congrArg List.length h
      simp at this
  · exact dglConvertColor_rejected s _ r g b (by decide) (by decide)
  · exact dglConvertColor_rejected s _ r g b (by decide) (by decide)
  · exact dglConvertColor_rejected s _ r g b (by decide) (by decide)

/-- Instance of C36: the format value `0x105` (bit 0 set, an undefined bit
set) is rejected; the value `0x104` (bit 0 clear) is converted like RGB565,
and the state is left as it was. -/
theorem convertColor_error_path_witness :
    dglConvertColor pixmapState 0x105 1 0 0
      = (dglMessage pixmapState DGL_MESSAGE_WARNING convertWarning, 0) ∧
    (dglConvertColor pixmapState 0x104 1 0 0).1 = pixmapState ∧
    dglConvertColor pixmapState 0x104 1 0 0
      = dglConvertColor pixmapState DGL_FORMAT_RGB565 1 0 0 ∧
    ((dglConvertColor pixmapState 0x105 1 0 0).1.stdout ≠ pixmapState.stdout
      ↔ 0x105 &&& DGL_FORMAT_LSB_ORDER_RGB_BIT ≠ 0) :=
  ⟨(convertColor_error_path pixmapState 0x105 1 0 0).1 (by decide),
   ((convertColor_error_path pixmapState 0x104 1 0 0).2.1 (by decide)).1,
   ((convertColor_error_path pixmapState 0x104 1 0 0).2.1 (by decide)).2.1 (by decide),
   (convertColor_error_path pixmapState 0x105 1 0 0).2.2.1 (by decide)⟩

/-! ## Frame of the same-buffer copies -/

/-- A byte outside a rectangle lies outside each of its rows. -/
theorem outside_rows (fb : dglPixelBuffer) (x y w h a : Int) (hb : 0 < fb.bytes_per_pixel)
    (hout : ¬ InRect fb x y w h a) (j : Int) (hj0 : 0 ≤ j) (hj1 : j < h) :
    a < fb.framebuffer_addr + y * fb.stride + x * fb.bytes_per_pixel + j * fb.stride ∨
    fb.framebuffer_addr + y * fb.stride + x * fb.bytes_per_pixel + j * fb.stride
      + w * fb.bytes_per_pixel ≤ a := by
  by_contra hcon
  push_neg at hcon
  obtain ⟨c0, c1⟩ := hcon
  apply hout
  have := inRect_of_row fb x y w h j
    (a - (fb.framebuffer_addr + y * fb.stride + x * fb.bytes_per_pixel + j * fb.stride))
    hb hj0 hj1 (by linarith) (by linarith)
  have e : fb.framebuffer_addr + y * fb.stride + x * fb.bytes_per_pixel + j * fb.stride
      + (a - (fb.framebuffer_addr + y * fb.stride + x * fb.bytes_per_pixel + j * fb.stride))
      = a := by ring
  rw [e] at this
  exact this

/-- A byte outside a rectangle whose rows fill the stride lies outside the
`stride * h` bytes that start at its first pixel. -/
theorem outside_bulk (fb : dglPixelBuffer) (x y w h a : Int) (hb : 0 < fb.bytes_per_pixel)
    (hw : 0 < w) (hwS : w * fb.bytes_per_pixel = fb.stride)
    (hout : ¬ InRect fb x y w h a) :
    a < fb.framebuffer_addr + y * fb.stride + x * fb.bytes_per_pixel ∨
    fb.framebuffer_addr + y * fb.stride + x * fb.bytes_per_pixel + fb.stride * h ≤ a := by
  have hS : 0 < fb.stride := by rw [← hwS]; exact mul_pos hw hb
  by_contra hcon
  push_neg at hcon
  obtain ⟨c0, c1⟩ := hcon
  have hu0 : 0 ≤ a - (fb.framebuffer_addr + y * fb.stride + x * fb.bytes_per_pixel) := by
    linarith
  have hu1 : a - (fb.framebuffer_addr + y * fb.stride + x * fb.bytes_per_pixel)
      < h * fb.stride := by linarith
  have hmod := Int.ediv_add_emod
    (a - (fb.framebuffer_addr + y * fb.stride + x * fb.bytes_per_pixel)) fb.stride
  rcases outside_rows fb x y w h a hb hout
    ((a - (fb.framebuffer_addr + y * fb.stride + x * fb.bytes_per_pixel)) / fb.stride)
    (Int.ediv_nonneg hu0 hS.le) (Int.ediv_lt_of_lt_mul hS hu1) with h1 | h1
  · have := Int.emod_nonneg
      (a - (fb.framebuffer_addr + y * fb.stride + x * fb.bytes_per_pixel)) hS.ne'
    linarith
  · have := Int.emod_lt_of_pos
      (a - (fb.framebuffer_addr + y * fb.stride + x * fb.bytes_per_pixel)) hS
    rw [hwS] at h1
    linarith

/-- Frame of `dglCopyAreaSimple`: a byte that belongs to no pixel of the
destination rectangle is left as it was, on each of its three paths. -/
theorem dglCopyAreaSimple_frame (fb : dglPixelBuffer) (m : Mem) (sx sy dx dy w h : Int)
    (hb : 0 < fb.bytes_per_pixel) (hw : 0 < w) (hh : 0 < h)
    (a : Int) (hout : ¬ InRect fb dx dy w h a) :
    dglCopyAreaSimple fb m sx sy dx dy w h a = m a := by
  have hn0 : 0 < w * fb.bytes_per_pixel := mul_pos hw hb
  have hncast : (((w * fb.bytes_per_pixel).toNat : Nat) : Int) = w * fb.bytes_per_pixel :=
    Int.toNat_of_nonneg hn0.le
  have hhcast : ((h.toNat : Nat) : Int) = h := Int.toNat_of_nonneg hh.le
  unfold dglCopyAreaSimple
  split_ifs with hbulk hup
  · have hS : 0 < fb.stride := by rw [← hbulk.1]; exact hn0
    apply memcpy_frame
    rw [Int.toNat_of_nonneg (mul_nonneg hS.le hh.le)]
    exact outside_bulk fb dx dy w h a hb hw hbulk.1 hout
  · apply copyRows_frame
    intro k hk
    have hkh : (k : Int) < h := by rw [← hhcast]; exact_mod_cast hk
    have := outside_rows fb dx dy w h a hb hout (h - 1 - k) (by omega) (by omega)
    rw [hncast]
    rcases this with h1 | h1
    · left; linarith
    · right; linarith
  · apply copyRows_frame
    intro k hk
    have hkh : (k : Int) < h := by rw [← hhcast]; exact_mod_cast hk
    have := outside_rows fb dx dy w h a hb hout k (Int.natCast_nonneg k) hkh
    rw [hncast]
    exact this

/-- Frame of `dglCopyAreaDifficult`: a byte that belongs to no pixel of the
destination rectangle is left as it was. -/
theorem dglCopyAreaDifficult_frame (fb : dglPixelBuffer) (m : Mem) (sx sy dx dy w h : Int)
    (hb : 0 < fb.bytes_per_pixel) (hw : 0 < w) (hh : 0 < h)
    (a : Int) (hout : ¬ InRect fb dx dy w h a) :
    dglCopyAreaDifficult fb m sx sy dx dy w h a = m a := by
  have hn0 : 0 < w * fb.bytes_per_pixel := mul_pos hw hb
  have hncast : (((w * fb.bytes_per_pixel).toNat : Nat) : Int) = w * fb.bytes_per_pixel :=
    Int.toNat_of_nonneg hn0.le
  have hhcast : ((h.toNat : Nat) : Int) = h := Int.toNat_of_nonneg hh.le
  unfold dglCopyAreaDifficult
  split_ifs with hbulk hup
  · have hS : 0 < fb.stride := by rw [← hbulk.1]; exact hn0
    apply memcpy_frame
    rw [Int.toNat_of_nonneg (mul_nonneg hS.le hh.le)]
    exact outside_bulk fb dx dy w h a hb hw hbulk.1 hout
  · apply copyRowsScratch_frame
    intro k hk
    have hkh : (k : Int) < h := by rw [← hhcast]; exact_mod_cast hk
    have := outside_rows fb dx dy w h a hb hout (h - 1 - k) (by omega) (by omega)
    rw [hncast]
    rcases this with h1 | h1
    · left; linarith
    · right; linarith
  · apply copyRowsScratch_frame
    intro k hk
    have hkh : (k : Int) < h := by rw [← hhcast]; exact_mod_cast hk
    have := outside_rows fb dx dy w h a hb hout k (Int.natCast_nonneg k) hkh
    rw [hncast]
    exact this

theorem dglMessage_context (s : State) (priority : Int) (format : String) :
    (dglMessage s priority format).context = s.context := by
  unfold dglMessage; split_ifs <;> rfl

/-- The state a same-buffer software `dglCopyArea` returns: the choice between
the two routines, and the warning that follows `dglCopyAreaDifficult`. -/
theorem dglCopyArea_software_state (dev : FbDevice) (s : State) (context : Nat)
    (sx sy dx dy w h : Int) (hw : 0 < w) (hh : 0 < h)
    (hsame : (s.context context).read_fb = (s.context context).draw_fb)
    (hflag : ¬ HaveCopyArea (s.fb (s.context context).draw_fb).todglPixelBuffer) :
    dglCopyArea dev s context sx sy dx dy w h =
      if dy + (s.context context).draw_yoffset < sy + (s.context context).read_yoffset ∨
          dy + (s.context context).draw_yoffset ≥ sy + (s.context context).read_yoffset + h ∨
          dx < sx ∨ dx ≥ sx + w then
        { s with mem := (dglCopyAreaSimple (s.fb (s.context context).draw_fb).todglPixelBuffer
            s.mem sx (sy + (s.context context).read_yoffset) dx
            (dy + (s.context context).draw_yoffset) w h) }
      else
        dglMessage
          { s with mem := (dglCopyAreaDifficult (s.fb (s.context context).draw_fb).todglPixelBuffer
              s.mem sx (sy + (s.context context).read_yoffset) dx
              (dy + (s.context context).draw_yoffset) w h) }
          DGL_MESSAGE_WARNING difficultWarning := by
  unfold HaveCopyArea at hflag
  unfold dglCopyArea
  rw [if_neg (by omega)]
  simp only [hsame, if_true, HORIZONTAL_BLT_PIXEL_MARGIN, sub_zero]
  rw [if_neg hflag]
  rfl

/-- C32: the 2x2 block at the origin of the 4x4 pixmap copied one row down
(`dy = sy + 1`, `dx = sx`) is not a copy with `dy == sy` and `dx > sx`, yet
`dglCopyArea` sends it through `dglCopyAreaDifficult`, not
`dglCopyAreaSimple`, and the warning that follows that routine is printed. -/
theorem copyArea_difficult_entered_below :
    ¬ ((1 : Int) + (pixmapState.context 1).draw_yoffset
        = 0 + (pixmapState.context 1).read_yoffset ∧ (0 : Int) > 0) ∧
    dglCopyArea idleDevice pixmapState 1 0 0 0 1 2 2
      = dglMessage
          { pixmapState with mem := (dglCopyAreaDifficult pixmapBuf pixmapState.mem 0 0 0 1 2 2) }
          DGL_MESSAGE_WARNING difficultWarning ∧
    (dglCopyArea idleDevice pixmapState 1 0 0 0 1 2 2).stdout
      = ["dgl: ", "WARNING: ", difficultWarning] := by
  refine ⟨by decide, rfl, rfl⟩

/-- The routine a same-buffer software `dglCopyArea` enters, as the test in the
code selects it (after the y offsets are added): `dglCopyAreaDifficult`,
followed by the warning, exactly when `sy <= dy < sy + h` and
`sx <= dx < sx + w`, so also for `dx == sx` and for every `dy > sy` in that
range; `dglCopyAreaSimple`, without a warning, for every other copy. -/
theorem copyArea_path_selection (dev : FbDevice) (s : State) (context : Nat)
    (sx sy dx dy w h : Int) (hw : 0 < w) (hh : 0 < h)
    (hsame : (s.context context).read_fb = (s.context context).draw_fb)
    (hflag : ¬ HaveCopyArea (s.fb (s.context context).draw_fb).todglPixelBuffer) :
    ((sy + (s.context context).read_yoffset ≤ dy + (s.context context).draw_yoffset ∧
        dy + (s.context context).draw_yoffset < sy + (s.context context).read_yoffset + h ∧
        sx ≤ dx ∧ dx < sx + w) →
      dglCopyArea dev s context sx sy dx dy w h
        = dglMessage
            { s with mem := (dglCopyAreaDifficult (s.fb (s.context context).draw_fb).todglPixelBuffer
                s.mem sx (sy + (s.context context).read_yoffset) dx
                (dy + (s.context context).draw_yoffset) w h) }
            DGL_MESSAGE_WARNING difficultWarning) ∧
    (¬ (sy + (s.context context).read_yoffset ≤ dy + (s.context context).draw_yoffset ∧
        dy + (s.context context).draw_yoffset < sy + (s.context context).read_yoffset + h ∧
        sx ≤ dx ∧ dx < sx + w) →
      dglCopyArea dev s context sx sy dx dy w h
        = { s with mem := (dglCopyAreaSimple (s.fb (s.context context).draw_fb).todglPixelBuffer
              s.mem sx (sy + (s.context context).read_yoffset) dx
              (dy + (s.context context).draw_yoffset) w h) }) := by
  constructor
  · intro hd
    rw [dglCopyArea_software_state dev s context sx sy dx dy w h hw hh hsame hflag,
      if_neg (by omega)]
  · intro hd
    rw [dglCopyArea_software_state dev s context sx sy dx dy w h hw hh hsame hflag,
      if_pos (by omega)]

/-- Instance of the selection: the shift right by one pixel in the same rows
goes through `dglCopyAreaDifficult`, the shift left through
`dglCopyAreaSimple`. -/
theorem copyArea_path_selection_witness :
    dglCopyArea idleDevice pixmapState 1 0 0 1 0 3 2
      = dglMessage
          { pixmapState with mem := (dglCopyAreaDifficult
              (pixmapState.fb (pixmapState.context 1).draw_fb).todglPixelBuffer
              pixmapState.mem 0 (0 + (pixmapState.context 1).read_yoffset) 1
              (0 + (pixmapState.context 1).draw_yoffset) 3 2) }
          DGL_MESSAGE_WARNING difficultWarning ∧
    dglCopyArea idleDevice pixmapState 1 1 0 0 0 3 2
      = { pixmapState with mem := (dglCopyAreaSimple
            (pixmapState.fb (pixmapState.context 1).draw_fb).todglPixelBuffer
            pixmapState.mem 1 (0 + (pixmapState.context 1).read_yoffset) 0
            (0 + (pixmapState.context 1).draw_yoffset) 3 2) } :=
  ⟨(copyArea_path_selection idleDevice pixmapState 1 0 0 1 0 3 2 (by decide) (by decide)
      rfl (by decide)).1 (by decide),
   (copyArea_path_selection idleDevice pixmapState 1 1 0 0 0 3 2 (by decide) (by decide)
      rfl (by decide)).2 (by decide)⟩

/-- C33: for every same-buffer software `dglCopyArea` with `w > 0`, `h > 0`
(contiguous path, row-by-row path in either direction, scratch-row path), on a
buffer with a positive pixel size, every byte that belongs to no pixel of the
destination rectangle `[dx, dx+w) x [dy + draw_yoffset, dy + draw_yoffset + h)`
has the same value after the call as before, and the contexts and buffer
objects are unchanged. -/
theorem copyArea_software_frame (dev : FbDevice) (s : State) (context : Nat)
    (sx sy dx dy w h : Int) (hw : 0 < w) (hh : 0 < h)
    (hsame : (s.context context).read_fb = (s.context context).draw_fb)
    (hflag : ¬ HaveCopyArea (s.fb (s.context context).draw_fb).todglPixelBuffer)
    (hb : 0 < (s.fb (s.context context).draw_fb).bytes_per_pixel) :
    (∀ a : Int, ¬ InRect (s.fb (s.context context).draw_fb).todglPixelBuffer dx
        (dy + (s.context context).draw_yoffset) w h a →
      (dglCopyArea dev s context sx sy dx dy w h).mem a = s.mem a) ∧
    (dglCopyArea dev s context sx sy dx dy w h).context = s.context ∧
    (dglCopyArea dev s context sx sy dx dy w h).fb = s.fb := by
  refine ⟨?_, ?_, ?_⟩
  · intro a ha
    rw [dglCopyArea_software_mem dev s context sx sy dx dy w h hw hh hsame hflag]
    split_ifs
    · exact dglCopyAreaSimple_frame _ _ _ _ _ _ _ _ hb hw hh a ha
    · exact dglCopyAreaDifficult_frame _ _ _ _ _ _ _ _ hb hw hh a ha
  · rw [dglCopyArea_software_state dev s context sx sy dx dy w h hw hh hsame hflag]
    split_ifs
    · rfl
    · rw [dglMessage_context]
  · rw [dglCopyArea_software_state dev s context sx sy dx dy w h hw hh hsame hflag]
    split_ifs
    · rfl
    · rw [dglMessage_fb]

/-- Instance of C33: after the 2x2 block at the origin is copied to `(1, 1)`,
byte 0 (pixel `(0, 0)`, outside the destination) is as before; so is the
context. -/
theorem copyArea_software_frame_witness :
    (dglCopyArea idleDevice pixmapState 1 0 0 1 1 2 2).mem 0 = pixmapState.mem 0 ∧
    (dglCopyArea idleDevice pixmapState 1 0 0 1 1 2 2).context = pixmapState.context :=
  have H := copyArea_software_frame idleDevice pixmapState 1 0 0 1 1 2 2 (by decide)
    (by decide) rfl (by decide) (by decide)
  ⟨H.1 0 (by
      rintro ⟨i, j, c, hi0, hi1, hj0, hj1, hc0, hc1, e⟩
      have hc : c < 2 := hc1
      have e2 : (0 : Int) = 0 + (1 + 0 + j) * 8 + (1 + i) * 2 + c := e
      omega),
   H.2.1⟩

/-! ## Copying a rectangle onto itself -/

/-- A row copied through the scratch buffer onto itself leaves memory as it was. -/
theorem scratch_self (m : Mem) (p : Int) (n : Nat) :
    memcpyFromScratch m p (memcpyToScratch m p n) = m := by
  funext a
  by_cases ha : p ≤ a ∧ a < p + n
  · obtain ⟨i, rfl⟩ : ∃ i, a = p + i := ⟨a - p, by ring⟩
    exact scratch_copy m p p n i (by omega) (by omega)
  · exact scratch_frame m p p n a (by omega)

theorem copyRowsScratch_self (st : Int) (n : Nat) (h : Nat) : ∀ (m : Mem) (p : Int),
    copyRowsScratch m p p st n h = m := by
  induction h with
  | zero => intro m p; rfl
  | succ h ih => intro m p; rw [copyRowsScratch, scratch_self, ih]

/-- C37: copying a rectangle onto itself is the identity: for every
same-buffer software `dglCopyArea` with `w > 0`, `h > 0`, `dx == sx` and
`dy + draw_yoffset == sy + read_yoffset`, memory after the call is memory
before the call (every byte is unchanged). -/
theorem copyArea_self_identity (dev : FbDevice) (s : State) (context : Nat)
    (sx sy dx dy w h : Int) (hw : 0 < w) (hh : 0 < h)
    (hsame : (s.context context).read_fb = (s.context context).draw_fb)
    (hflag : ¬ HaveCopyArea (s.fb (s.context context).draw_fb).todglPixelBuffer)
    (hx : dx = sx)
    (hy : dy + (s.context context).draw_yoffset = sy + (s.context context).read_yoffset) :
    (dglCopyArea dev s context sx sy dx dy w h).mem = s.mem := by
  rw [dglCopyArea_software_mem dev s context sx sy dx dy w h hw hh hsame hflag,
    if_neg (by omega), hx, hy]
  unfold dglCopyAreaDifficult
  rw [if_neg (by omega), if_neg (by omega)]
  exact copyRowsScratch_self _ _ _ _ _

/-- Instance of C37: the 2x2 block at `(1, 1)` copied onto itself. -/
theorem copyArea_self_identity_witness :
    (dglCopyArea idleDevice pixmapState 1 1 1 1 1 2 2).mem = pixmapState.mem :=
  copyArea_self_identity idleDevice pixmapState 1 1 1 1 1 2 2 (by decide) (by decide)
    rfl (by decide) rfl rfl

/-! ## Frame of the fills -/

/-- Frame of the loop of `memset16`, for any value and any doubled word. -/
theorem memset16Loop_frame (v v32 : Nat) (size : Nat) : ∀ (m : Mem) (dp x : Int),
    (x < dp ∨ dp + 2 * size ≤ x) → memset16Loop m dp v v32 size x = m x := by
  induction size using Nat.strong_induction_on with
  | _ size ih =>
    intro m dp x hx
    match size, ih, hx with
    | 0, _, _ => rw [memset16Loop]
    | 1, _, hx =>
      rw [memset16Loop, store16_apply, if_neg (by push_cast at hx; omega)]
    | n + 2, ih, hx =>
      push_cast at hx
      rw [memset16Loop, ih n (by omega) _ _ _ (by omega), store32_apply, if_neg (by omega)]

/-- Frame of `memset16`: only the `2 * size` bytes from `destp` on are written,
whatever the alignment of `destp` and the value. -/
theorem memset16_frame (m : Mem) (dp : Int) (v : Nat) (w : Int) (hw : 0 < w) (x : Int)
    (hx : x < dp ∨ dp + 2 * w ≤ x) : memset16 m dp v w x = m x := by
  unfold memset16
  split_ifs with h1
  · rw [memset16Loop_frame _ _ _ _ _ _ (by rw [Int.toNat_of_nonneg (by omega)]; omega),
      store16_apply, if_neg (by omega)]
  · rw [memset16Loop_frame _ _ _ _ _ _ (by rw [Int.toNat_of_nonneg (by omega)]; omega)]

/-- Frame of `memset32`: only the `4 * size` bytes from `destp` on are written. -/
theorem memset32_frame (m : Mem) (dp : Int) (v : Nat) (w : Int) (hw : 0 < w) (x : Int)
    (hx : x < dp ∨ dp + 4 * w ≤ x) : memset32 m dp v w x = m x := by
  rw [memset32_apply m dp v w hw.le, if_neg (by omega)]

/-- Frame of `dglFill`: a byte that belongs to no pixel of the filled rectangle
is left as it was. -/
theorem dglFill_frame (s : State) (context : Nat) (x y w h : Int) (p : Nat)
    (hw : 0 < w) (hh : 0 < h)
    (hbpp : (s.fb (s.context context).draw_fb).bytes_per_pixel = 4 ∨
      (s.fb (s.context context).draw_fb).bytes_per_pixel = 2)
    (a : Int)
    (hout : ¬ InRect (s.fb (s.context context).draw_fb).todglPixelBuffer x
      (y + (s.context context).draw_yoffset) w h a) :
    (dglFill s context x y w h p).mem a = s.mem a := by
  have hb : 0 < (s.fb (s.context context).draw_fb).bytes_per_pixel := by omega
  have hhcast : ((h.toNat : Nat) : Int) = h := Int.toNat_of_nonneg hh.le
  have hrows := fun (k : Nat) (hk : k < h.toNat) =>
    outside_rows (s.fb (s.context context).draw_fb).todglPixelBuffer x
      (y + (s.context context).draw_yoffset) w h a hb hout k (Int.natCast_nonneg k)
      (by rw [← hhcast]; exact_mod_cast hk)
  rw [dglFill_mem s context x y w h p hw hh]
  rcases hbpp with h4 | h2
  · rw [if_pos h4]
    apply fillRows_frame memset32 p w (4 * w) _
      (fun m dp a ha => memset32_frame m dp p w hw a ha)
    intro k hk
    have := hrows k hk
    rw [h4] at this
    unfold pixelAddr
    rw [h4]
    rcases this with h1 | h1
    · left; linarith
    · right; linarith
  · rw [if_neg (by omega)]
    apply fillRows_frame memset16 p w (2 * w) _
      (fun m dp a ha => memset16_frame m dp p w hw a ha)
    intro k hk
    have := hrows k hk
    rw [h2] at this
    unfold pixelAddr
    rw [h2]
    rcases this with h1 | h1
    · left; linarith
    · right; linarith

/-- In a well-formed buffer, a byte of a pixel in a column outside `[x, x+w)`
belongs to no pixel of a rectangle spanning the columns `[x, x+w)`. -/
theorem column_outside (fb : dglPixelBuffer) (x y w h x2 y2 c : Int) (hwf : WellFormed fb)
    (hx0 : 0 ≤ x) (hx1 : x + w ≤ fb.xres) (h20 : 0 ≤ x2) (h21 : x2 < fb.xres)
    (hcol : x2 < x ∨ x + w ≤ x2) (hc0 : 0 ≤ c) (hc1 : c < fb.bytes_per_pixel) :
    ¬ InRect fb x y w h (pixelAddr fb x2 y2 + c) := by
  obtain ⟨hb, hstr⟩ := hwf
  rintro ⟨i, j, c2, hi0, hi1, hj0, hj1, hc20, hc21, e⟩
  unfold pixelAddr at e
  generalize fb.stride = S at *
  generalize fb.bytes_per_pixel = b at *
  have hP0 : 0 ≤ (x + i) * b := mul_nonneg (by omega) hb.le
  have hP1 : (x + i + 1) * b ≤ fb.xres * b := mul_le_mul_of_nonneg_right (by omega) hb.le
  have hQ0 : 0 ≤ x2 * b := mul_nonneg h20 hb.le
  have hQ1 : (x2 + 1) * b ≤ fb.xres * b := mul_le_mul_of_nonneg_right (by omega) hb.le
  have hd : (y2 - (y + j)) * S = (x + i) * b + c2 - (x2 * b + c) := by linarith
  have hS : 0 < S := by linarith
  have hd0 : y2 - (y + j) = 0 := by
    by_contra hne
    rcases lt_or_gt_of_ne hne with hlt | hgt
    · have := mul_le_mul_of_nonneg_right (show y2 - (y + j) ≤ -1 by omega) hS.le
      linarith
    · have := mul_le_mul_of_nonneg_right (show 1 ≤ y2 - (y + j) by omega) hS.le
      linarith
  rw [hd0, zero_mul] at hd
  have hxi : x + i - x2 = 0 := by
    by_contra hne
    rcases lt_or_gt_of_ne hne with hlt | hgt
    · have := mul_le_mul_of_nonneg_right (show x + i - x2 ≤ -1 by omega) hb.le
      linarith
    · have := mul_le_mul_of_nonneg_right (show 1 ≤ x + i - x2 by omega) hb.le
      linarith
  omega

/-- C34: on a draw buffer of 4 or 2 bytes per pixel (any stride and base
address, so any row alignment), after `dglFill(ctx, x, y, w, h, p)` with
`w > 0`, `h > 0` and any pixel value, every byte that belongs to no pixel of
the rectangle `[x, x+w) x [y + draw_yoffset, y + draw_yoffset + h)` is
unchanged; in particular, when the columns `[x, x+w)` lie inside a well-formed
buffer, no pixel in a column before `x` or at or after `x+w` is written, in any
row. -/
theorem fill_frame (s : State) (context : Nat) (x y w h : Int) (p : Nat)
    (hw : 0 < w) (hh : 0 < h)
    (hbpp : (s.fb (s.context context).draw_fb).bytes_per_pixel = 4 ∨
      (s.fb (s.context context).draw_fb).bytes_per_pixel = 2) :
    (∀ a : Int, ¬ InRect (s.fb (s.context context).draw_fb).todglPixelBuffer x
        (y + (s.context context).draw_yoffset) w h a →
      (dglFill s context x y w h p).mem a = s.mem a) ∧
    (WellFormed (s.fb (s.context context).draw_fb).todglPixelBuffer →
      0 ≤ x → x + w ≤ (s.fb (s.context context).draw_fb).xres →
      ∀ x2 y2 c : Int, 0 ≤ x2 → x2 < (s.fb (s.context context).draw_fb).xres →
        (x2 < x ∨ x + w ≤ x2) →
        0 ≤ c → c < (s.fb (s.context context).draw_fb).bytes_per_pixel →
        (dglFill s context x y w h p).mem
            (pixelAddr (s.fb (s.context context).draw_fb).todglPixelBuffer x2 y2 + c)
          = s.mem (pixelAddr (s.fb (s.context context).draw_fb).todglPixelBuffer x2 y2 + c)) ∧
    (dglFill s context x y w h p).context = s.context := by
  refine ⟨?_, ?_, ?_⟩
  · intro a ha
    exact dglFill_frame s context x y w h p hw hh hbpp a ha
  · intro hwf hx0 hx1 x2 y2 c h20 h21 hcol hc0 hc1
    exact dglFill_frame s context x y w h p hw hh hbpp _
      (column_outside _ x _ w h x2 y2 c hwf hx0 hx1 h20 h21 hcol hc0 hc1)
  · unfold dglFill
    split_ifs
    · rfl
    · dsimp only
      split_ifs <;> rfl

/-- Instance of C34 on the 4x4 RGB565 pixmap: a 3x2 fill starting at column 1
(its first row starts at an address that is not 4-byte aligned, and the paired
store is used) leaves both bytes of pixel `(0, 0)` as they were. -/
theorem fill_frame_witness :
    (dglFill pixmapState 0 1 0 3 2 0xF81F).mem (pixelAddr pixmapBuf 0 0 + 0)
      = pixmapState.mem (pixelAddr pixmapBuf 0 0 + 0) ∧
    (dglFill pixmapState 0 1 0 3 2 0xF81F).mem (pixelAddr pixmapBuf 0 0 + 1)
      = pixmapState.mem (pixelAddr pixmapBuf 0 0 + 1) :=
  have H := (fill_frame pixmapState 0 1 0 3 2 0xF81F (by decide) (by decide)
    (Or.inr (by decide))).2.1 (by unfold WellFormed; decide) (by decide) (by decide)
  ⟨H 0 0 0 (by decide) (by decide) (by decide) (by decide) (by decide),
   H 0 0 1 (by decide) (by decide) (by decide) (by decide) (by decide)⟩

/-! ## The read buffer and the draw calls -/

/-- Frame of `dglPutPixel`: a byte that belongs to no byte of the pixel written
is left as it was. -/
theorem dglPutPixel_frame (s : State) (context : Nat) (x y : Int) (p : Nat)
    (hbpp : (s.fb (s.context context).draw_fb).bytes_per_pixel = 4 ∨
      (s.fb (s.context context).draw_fb).bytes_per_pixel = 2)
    (a : Int)
    (hout : ¬ InRect (s.fb (s.context context).draw_fb).todglPixelBuffer x
      (y + (s.context context).draw_yoffset) 1 1 a) :
    (dglPutPixel s context x y p).mem a = s.mem a := by
  have hin : ∀ c : Int, 0 ≤ c → c < (s.fb (s.context context).draw_fb).bytes_per_pixel →
      a ≠ pixelAddr (s.fb (s.context context).draw_fb).todglPixelBuffer x
        (y + (s.context context).draw_yoffset) + c := by
    intro c hc0 hc1 e
    apply hout
    refine ⟨0, 0, c, le_refl 0, by norm_num, le_refl 0, by norm_num, hc0, hc1, ?_⟩
    rw [e, add_zero, add_zero]
  rw [dglPutPixel_mem]
  rcases hbpp with h4 | h2
  · rw [if_pos h4, store32_apply]
    split_ifs with hr
    · exfalso
      exact hin (a - pixelAddr (s.fb (s.context context).draw_fb).todglPixelBuffer x
        (y + (s.context context).draw_yoffset)) (by omega) (by omega) (by ring)
    · rfl
  · rw [if_neg (by omega), store16_apply]
    split_ifs with hr
    · exfalso
      exact hin (a - pixelAddr (s.fb (s.context context).draw_fb).todglPixelBuffer x
        (y + (s.context context).draw_yoffset)) (by omega) (by omega) (by ring)
    · rfl

/-- A byte of a buffer belongs to no pixel of a rectangle inside another
buffer whose storage is disjoint from it. -/
theorem storage_outside_rect (R D : dglPixelBuffer) (x y w h : Int) (hwfD : WellFormed D)
    (hin : RectInside D x y w h) (hdisj : StorageDisjoint R D) (a : Int)
    (ha : InStorage R a) : ¬ InRect D x y w h a := by
  intro hin2
  have hD := inRect_inStorage D x y w h a hwfD hin hin2
  unfold InStorage at ha hD
  unfold StorageDisjoint at hdisj
  omega

/-- C31: the draw calls other than `dglCopyArea` do not use the read buffer.
For two contexts of a state that agree on `draw_fb` and `draw_yoffset`
(whatever their `read_fb` and `read_yoffset` are), `dglPutPixel`, `dglFill`,
`dglPutImage` and `dglPutPartialImage` with the same arguments leave the same
memory; and when the read buffer is another buffer than the draw buffer
(disjoint storage) and the pixel or rectangle written lies inside the draw
buffer, each of them leaves every byte of the read buffer as it was. -/
theorem read_buffer_unused (s : State) (c1 c2 : Nat) (x y w h sx sy : Int) (p : Nat)
    (image : Nat)
    (hd : (s.context c1).draw_fb = (s.context c2).draw_fb)
    (ho : (s.context c1).draw_yoffset = (s.context c2).draw_yoffset) :
    (dglPutPixel s c1 x y p).mem = (dglPutPixel s c2 x y p).mem ∧
    (dglFill s c1 x y w h p).mem = (dglFill s c2 x y w h p).mem ∧
    (dglPutImage s c1 x y image).mem = (dglPutImage s c2 x y image).mem ∧
    (dglPutPartialImage s c1 sx sy x y w h image).mem
      = (dglPutPartialImage s c2 sx sy x y w h image).mem ∧
    (StorageDisjoint (s.fb (s.context c1).read_fb).todglPixelBuffer
        (s.fb (s.context c1).draw_fb).todglPixelBuffer →
      WellFormed (s.fb (s.context c1).draw_fb).todglPixelBuffer →
      ((s.fb (s.context c1).draw_fb).bytes_per_pixel = 4 ∨
        (s.fb (s.context c1).draw_fb).bytes_per_pixel = 2) →
      (RectInside (s.fb (s.context c1).draw_fb).todglPixelBuffer x
          (y + (s.context c1).draw_yoffset) 1 1 →
        ∀ a : Int, InStorage (s.fb (s.context c1).read_fb).todglPixelBuffer a →
          (dglPutPixel s c1 x y p).mem a = s.mem a) ∧
      (0 < w → 0 < h →
        RectInside (s.fb (s.context c1).draw_fb).todglPixelBuffer x
          (y + (s.context c1).draw_yoffset) w h →
        ∀ a : Int, InStorage (s.fb (s.context c1).read_fb).todglPixelBuffer a →
          (dglFill s c1 x y w h p).mem a = s.mem a) ∧
      (0 < (s.fb image).xres → 0 < (s.fb image).yres →
        RectInside (s.fb (s.context c1).draw_fb).todglPixelBuffer x y
          (s.fb image).xres (s.fb image).yres →
        ∀ a : Int, InStorage (s.fb (s.context c1).read_fb).todglPixelBuffer a →
          (dglPutImage s c1 x y image).mem a = s.mem a) ∧
      (0 < w → 0 < h →
        RectInside (s.fb (s.context c1).draw_fb).todglPixelBuffer x y w h →
        ∀ a : Int, InStorage (s.fb (s.context c1).read_fb).todglPixelBuffer a →
          (dglPutPartialImage s c1 sx sy x y w h image).mem a = s.mem a)) := by
  refine ⟨?_, ?_, ?_, ?_, ?_⟩
  · simp only [dglPutPixel, hd, ho]
  · simp only [dglFill, hd, ho]
  · simp only [dglPutImage, hd]
  · simp only [dglPutPartialImage, hd]
  · intro hdisj hwf hbpp
    refine ⟨?_, ?_, ?_, ?_⟩
    · intro hin a ha
      exact dglPutPixel_frame s c1 x y p hbpp a
        (storage_outside_rect _ _ _ _ _ _ hwf hin hdisj a ha)
    · intro hw hh hin a ha
      exact dglFill_frame s c1 x y w h p hw hh hbpp a
        (storage_outside_rect _ _ _ _ _ _ hwf hin hdisj a ha)
    · intro hw hh hin a ha
      exact dglCopyAreaAcross_frame _ _ _ _ _ _ _ _ _ hwf.1 hw hh a
        (storage_outside_rect _ _ _ _ _ _ hwf hin hdisj a ha)
    · intro hw hh hin a ha
      exact dglCopyAreaAcross_frame _ _ _ _ _ _ _ _ _ hwf.1 hw hh a
        (storage_outside_rect _ _ _ _ _ _ hwf hin hdisj a ha)

/-- Instance of C31: contexts 1 and 2 of `twoContextState` draw into the same
pixmap and read from different buffers at different offsets; a 2x2 fill and a
put of the 2x2 image leave the same memory through either, and byte 5 of the
read buffer of context 1 is as before. -/
theorem read_buffer_unused_witness :
    (twoContextState.context 1).read_fb ≠ (twoContextState.context 2).read_fb ∧
    (twoContextState.context 1).read_yoffset ≠ (twoContextState.context 2).read_yoffset ∧
    (dglFill twoContextState 1 1 1 2 2 0xF81F).mem
      = (dglFill twoContextState 2 1 1 2 2 0xF81F).mem ∧
    (dglPutImage twoContextState 1 1 1 3).mem = (dglPutImage twoContextState 2 1 1 3).mem ∧
    (dglFill twoContextState 1 1 1 2 2 0xF81F).mem 5 = twoContextState.mem 5 ∧
    (dglPutImage twoContextState 1 1 1 3).mem 5 = twoContextState.mem 5 :=
  have H := read_buffer_unused twoContextState 1 2 1 1 2 2 0 0 0xF81F 3 rfl rfl
  have F := H.2.2.2.2 (by unfold StorageDisjoint; decide) (by unfold WellFormed; decide)
    (Or.inr (by decide))
  ⟨by decide, by decide, H.2.1, H.2.2.1,
   F.2.1 (by decide) (by decide) (by unfold RectInside; decide) 5
     (by unfold InStorage; decide),
   F.2.2.1 (by decide) (by decide) (by unfold RectInside; decide) 5
     (by unfold InStorage; decide)⟩

/-! ## Memory accesses stay inside the buffer -/

theorem copyRowsAccesses_mem (ds ss : Int) (n : Nat) (acc : Access) (h : Nat) :
    ∀ (dp sp : Int), acc ∈ copyRowsAccesses dp sp ds ss n h →
    ∃ k : Nat, k < h ∧ (acc = ⟨sp + k * ss, n⟩ ∨ acc = ⟨dp + k * ds, n⟩) := by
  induction h with
  | zero => intro dp sp hm; simp [copyRowsAccesses] at hm
  | succ h ih =>
    intro dp sp hm
    rw [copyRowsAccesses, memcpyAccesses, List.mem_append] at hm
    rcases hm with hm | hm
    · refine ⟨0, Nat.succ_pos h, ?_⟩
      simp only [List.mem_cons, List.mem_singleton, List.not_mem_nil, or_false] at hm
      rcases hm with rfl | rfl
      · left; simp
      · right; simp
    · obtain ⟨k, hk, hacc⟩ := ih _ _ hm
      refine ⟨k + 1, Nat.succ_lt_succ hk, ?_⟩
      rcases hacc with rfl | rfl
      · left
        simp only [Access.mk.injEq, and_true]
        push_cast; ring
      · right
        simp only [Access.mk.injEq, and_true]
        push_cast; ring

theorem copyRowsScratchAccesses_eq (st : Int) (n : Nat) (h : Nat) : ∀ (dp sp : Int),
    copyRowsScratchAccesses dp sp st n h = copyRowsAccesses dp sp st st n h := by
  induction h with
  | zero => intro dp sp; rfl
  | succ h ih =>
    intro dp sp
    rw [copyRowsScratchAccesses, copyRowsAccesses, memcpyAccesses, ih]

/-- The two same-buffer routines dereference the same framebuffer bytes. -/
theorem dglCopyAreaDifficultAccesses_eq (fb : dglPixelBuffer) (sx sy dx dy w h : Int) :
    dglCopyAreaDifficultAccesses fb sx sy dx dy w h
      = dglCopyAreaSimpleAccesses fb sx sy dx dy w h := by
  unfold dglCopyAreaDifficultAccesses dglCopyAreaSimpleAccesses
  simp only [copyRowsScratchAccesses_eq]

/-- Each access of `dglCopyAreaSimple` is either one of the two `stride * h`
byte operands of the contiguous copy, or row `j` (`0 <= j < h`) of the source
or of the destination rectangle. -/
theorem dglCopyAreaSimpleAccesses_rows (fb : dglPixelBuffer) (sx sy dx dy w h : Int)
    (hb : 0 < fb.bytes_per_pixel) (hw : 0 < w) (hh : 0 < h) (acc : Access)
    (hm : acc ∈ dglCopyAreaSimpleAccesses fb sx sy dx dy w h) :
    (w * fb.bytes_per_pixel = fb.stride ∧ (dy < sy ∨ dy ≥ sy + h) ∧
      (acc = ⟨fb.framebuffer_addr + sy * fb.stride + sx * fb.bytes_per_pixel, fb.stride * h⟩ ∨
       acc = ⟨fb.framebuffer_addr + dy * fb.stride + dx * fb.bytes_per_pixel,
         fb.stride * h⟩)) ∨
    (∃ j : Int, 0 ≤ j ∧ j < h ∧
      (acc = ⟨fb.framebuffer_addr + sy * fb.stride + sx * fb.bytes_per_pixel + j * fb.stride,
          w * fb.bytes_per_pixel⟩ ∨
       acc = ⟨fb.framebuffer_addr + dy * fb.stride + dx * fb.bytes_per_pixel + j * fb.stride,
          w * fb.bytes_per_pixel⟩)) := by
  have hn0 : 0 < w * fb.bytes_per_pixel := mul_pos hw hb
  have hncast : (((w * fb.bytes_per_pixel).toNat : Nat) : Int) = w * fb.bytes_per_pixel :=
    Int.toNat_of_nonneg hn0.le
  have hhcast : ((h.toNat : Nat) : Int) = h := Int.toNat_of_nonneg hh.le
  unfold dglCopyAreaSimpleAccesses at hm
  split_ifs at hm with hbulk hup
  · left
    have hS : 0 < fb.stride := by rw [← hbulk.1]; exact hn0
    have hcast : (((fb.stride * h).toNat : Nat) : Int) = fb.stride * h :=
      Int.toNat_of_nonneg (mul_nonneg hS.le hh.le)
    refine ⟨hbulk.1, hbulk.2, ?_⟩
    simp only [memcpyAccesses, List.mem_cons, List.mem_singleton, List.not_mem_nil, or_false,
      hcast] at hm
    exact hm
  · right
    obtain ⟨k, hk, hacc⟩ := copyRowsAccesses_mem _ _ _ _ _ _ _ hm
    have hkh : (k : Int) < h := by rw [← hhcast]; exact_mod_cast hk
    refine ⟨h - 1 - k, by omega, by omega, ?_⟩
    rw [hncast] at hacc
    rcases hacc with rfl | rfl
    · left
      simp only [Access.mk.injEq, and_true]
      ring
    · right
      simp only [Access.mk.injEq, and_true]
      ring
  · right
    obtain ⟨k, hk, hacc⟩ := copyRowsAccesses_mem _ _ _ _ _ _ _ hm
    have hkh : (k : Int) < h := by rw [← hhcast]; exact_mod_cast hk
    refine ⟨k, Int.natCast_nonneg k, hkh, ?_⟩
    rw [hncast] at hacc
    exact hacc

/-- Rows inside the buffer: `RectInside` from the bounds on columns and rows. -/
theorem rectInside_of_rows (fb : dglPixelBuffer) (x y w h rows : Int) (hwf : WellFormed fb)
    (hrows : fb.stride * rows ≤ fb.total_size) (hw : 0 < w)
    (hx0 : 0 ≤ x) (hx1 : x + w ≤ fb.xres) (hy0 : 0 ≤ y) (hy1 : y + h ≤ rows) :
    RectInside fb x y w h := by
  obtain ⟨hb, hstr⟩ := hwf
  have h1 : (x + w) * fb.bytes_per_pixel ≤ fb.xres * fb.bytes_per_pixel :=
    mul_le_mul_of_nonneg_right hx1 hb.le
  have h2 : 0 < (x + w) * fb.bytes_per_pixel := mul_pos (by omega) hb
  have hS : 0 ≤ fb.stride := by linarith
  have h3 : (y + h) * fb.stride ≤ rows * fb.stride := mul_le_mul_of_nonneg_right hy1 hS
  exact ⟨hx0, hx1, hy0, by linarith⟩

/-- Every row of a rectangle inside the buffer, and the contiguous block that
spans its rows, is an access inside the storage. -/
theorem rect_accesses_in_storage (fb : dglPixelBuffer) (x y w h : Int) (hwf : WellFormed fb)
    (hin : RectInside fb x y w h) (hw : 0 < w) :
    (∀ j : Int, 0 ≤ j → j < h →
      AccessInStorage fb
        ⟨fb.framebuffer_addr + y * fb.stride + x * fb.bytes_per_pixel + j * fb.stride,
          w * fb.bytes_per_pixel⟩) ∧
    (w * fb.bytes_per_pixel = fb.stride →
      AccessInStorage fb
        ⟨fb.framebuffer_addr + y * fb.stride + x * fb.bytes_per_pixel, fb.stride * h⟩) := by
  constructor
  · intro j hj0 hj1 a ha0 ha1
    have := row_in_storage fb x y w h j hwf hin hj0 hj1 hw
    simp only at ha0 ha1
    unfold InStorage
    constructor <;> linarith
  · intro hwS a ha0 ha1
    obtain ⟨hb, hstr⟩ := hwf
    obtain ⟨hx0, hx1, hy0, hy1⟩ := hin
    have h1 : (x + w) * fb.bytes_per_pixel ≤ fb.xres * fb.bytes_per_pixel :=
      mul_le_mul_of_nonneg_right hx1 hb.le
    have h2 : 0 ≤ x * fb.bytes_per_pixel := mul_nonneg hx0 hb.le
    have hS : 0 < fb.stride := by rw [← hwS]; exact mul_pos hw hb
    have h3 : 0 ≤ y * fb.stride := mul_nonneg hy0 hS.le
    have hx : x * fb.bytes_per_pixel = 0 := by linarith
    simp only at ha0 ha1
    unfold InStorage
    constructor <;> linarith

/-- The accesses of a same-buffer software `dglCopyArea`. -/
theorem dglCopyAreaAccesses_software (s : State) (context : Nat)
    (sx sy dx dy w h : Int) (hw : 0 < w) (hh : 0 < h)
    (hsame : (s.context context).read_fb = (s.context context).draw_fb)
    (hflag : ¬ HaveCopyArea (s.fb (s.context context).draw_fb).todglPixelBuffer) :
    dglCopyAreaAccesses s context sx sy dx dy w h
      = dglCopyAreaSimpleAccesses (s.fb (s.context context).draw_fb).todglPixelBuffer sx
          (sy + (s.context context).read_yoffset) dx (dy + (s.context context).draw_yoffset)
          w h := by
  unfold HaveCopyArea at hflag
  unfold dglCopyAreaAccesses
  rw [if_neg (by omega)]
  simp only [hsame, if_true, HORIZONTAL_BLT_PIXEL_MARGIN, sub_zero]
  rw [if_neg hflag]
  split_ifs
  · rfl
  · exact dglCopyAreaDifficultAccesses_eq _ _ _ _ _ _ _

theorem memset32LoopAccesses_mem (acc : Access) (size : Nat) : ∀ (dp : Int),
    acc ∈ memset32LoopAccesses dp size →
    dp ≤ acc.addr ∧ acc.addr + acc.size ≤ dp + 4 * size := by
  induction size using Nat.strong_induction_on with
  | _ size ih =>
    intro dp hm
    match size, ih, hm with
    | 0, _, hm => simp [memset32LoopAccesses] at hm
    | 1, ih, hm =>
      change acc ∈ [⟨dp, 4⟩] ++ memset32LoopAccesses (dp + 4) 0 at hm
      rw [List.mem_append] at hm
      rcases hm with hm | hm
      · simp only [List.mem_singleton] at hm
        subst hm
        constructor <;> simp
      · have := ih 0 (by omega) _ hm
        push_cast at this ⊢
        omega
    | 2, ih, hm =>
      change acc ∈ [⟨dp, 4⟩] ++ memset32LoopAccesses (dp + 4) 1 at hm
      rw [List.mem_append] at hm
      rcases hm with hm | hm
      · simp only [List.mem_singleton] at hm
        subst hm
        constructor <;> simp
      · have := ih 1 (by omega) _ hm
        push_cast at this ⊢
        omega
    | 3, ih, hm =>
      change acc ∈ [⟨dp, 4⟩] ++ memset32LoopAccesses (dp + 4) 2 at hm
      rw [List.mem_append] at hm
      rcases hm with hm | hm
      · simp only [List.mem_singleton] at hm
        subst hm
        constructor <;> simp
      · have := ih 2 (by omega) _ hm
        push_cast at this ⊢
        omega
    | n + 4, ih, hm =>
      rw [memset32LoopAccesses, List.mem_append] at hm
      rcases hm with hm | hm
      · simp only [List.mem_cons, List.mem_singleton, List.not_mem_nil, or_false] at hm
        push_cast
        rcases hm with rfl | rfl | rfl | rfl <;> constructor <;> first | omega | (dsimp only; omega)
      · have := ih n (by omega) _ hm
        push_cast at this ⊢
        omega

theorem memset16LoopAccesses_mem (acc : Access) (size : Nat) : ∀ (dp : Int),
    acc ∈ memset16LoopAccesses dp size →
    dp ≤ acc.addr ∧ acc.addr + acc.size ≤ dp + 2 * size := by
  induction size using Nat.strong_induction_on with
  | _ size ih =>
    intro dp hm
    match size, ih, hm with
    | 0, _, hm => simp [memset16LoopAccesses] at hm
    | 1, _, hm =>
      rw [memset16LoopAccesses, List.mem_singleton] at hm
      subst hm
      constructor <;> simp
    | n + 2, ih, hm =>
      rw [memset16LoopAccesses, List.mem_append] at hm
      rcases hm with hm | hm
      · simp only [List.mem_singleton] at hm
        subst hm
        push_cast
        constructor <;> omega
      · have := ih n (by omega) _ hm
        push_cast at this ⊢
        omega

/-- Every store of `memset32` lies in the `4 * size` bytes from `destp` on. -/
theorem memset32Accesses_mem (acc : Access) (dp w : Int) (hw : 0 < w)
    (hm : acc ∈ memset32Accesses dp w) :
    dp ≤ acc.addr ∧ acc.addr + acc.size ≤ dp + 4 * w := by
  have := memset32LoopAccesses_mem acc _ _ hm
  rw [Int.toNat_of_nonneg hw.le] at this
  exact this

/-- Every store of `memset16` lies in the `2 * size` bytes from `destp` on,
whatever the alignment of `destp`. -/
theorem memset16Accesses_mem (acc : Access) (dp w : Int) (hw : 0 < w)
    (hm : acc ∈ memset16Accesses dp w) :
    dp ≤ acc.addr ∧ acc.addr + acc.size ≤ dp + 2 * w := by
  unfold memset16Accesses at hm
  split_ifs at hm with h1
  · rw [List.mem_append] at hm
    rcases hm with hm | hm
    · simp only [List.mem_singleton] at hm
      subst hm
      constructor <;> first | omega | (dsimp only; omega)
    · have := memset16LoopAccesses_mem acc _ _ hm
      rw [Int.toNat_of_nonneg (by omega)] at this
      omega
  · have := memset16LoopAccesses_mem acc _ _ hm
    rw [Int.toNat_of_nonneg hw.le] at this
    exact this

theorem fillRowsAccesses_mem (f : Int → Int → List Access) (S w : Int) (acc : Access)
    (h : Nat) : ∀ (dp : Int), acc ∈ fillRowsAccesses f dp S w h →
    ∃ k : Nat, k < h ∧ acc ∈ f (dp + k * S) w := by
  induction h with
  | zero => intro dp hm; simp [fillRowsAccesses] at hm
  | succ h ih =>
    intro dp hm
    rw [fillRowsAccesses, List.mem_append] at hm
    rcases hm with hm | hm
    · exact ⟨0, Nat.succ_pos h, by simpa using hm⟩
    · obtain ⟨k, hk, hacc⟩ := ih _ hm
      refine ⟨k + 1, Nat.succ_lt_succ hk, ?_⟩
      have e : dp + ((k + 1 : Nat) : Int) * S = dp + S + (k : Int) * S := by
        push_cast; ring
      rw [e]
      exact hacc

/-- C35: on a buffer with `stride >= xres * bytes_per_pixel` (and a positive
pixel size) and `total_size >= stride * rows`, for `w > 0`, `h > 0`: every
access of a same-buffer software `dglCopyArea` whose two rectangles lie inside
the buffer, and every store of a `dglFill` (4 or 2 bytes per pixel) whose
rectangle lies inside the buffer, touches only bytes of the storage, i.e. byte
offsets in `[0, total_size)`. In the bottom-to-top copy every access is row
`j`, `0 <= j < h`, of the source or of the destination rectangle: the pointers
stepped below the first row after the last iteration are not dereferenced. -/
theorem accesses_in_bounds (s : State) (context : Nat) (sx sy dx dy w h rows : Int)
    (hw : 0 < w) (hh : 0 < h)
    (hwf : WellFormed (s.fb (s.context context).draw_fb).todglPixelBuffer)
    (hrows : (s.fb (s.context context).draw_fb).stride * rows
      ≤ (s.fb (s.context context).draw_fb).total_size)
    (hdx0 : 0 ≤ dx) (hdx1 : dx + w ≤ (s.fb (s.context context).draw_fb).xres)
    (hdy0 : 0 ≤ dy + (s.context context).draw_yoffset)
    (hdy1 : dy + (s.context context).draw_yoffset + h ≤ rows) :
    ((s.context context).read_fb = (s.context context).draw_fb →
      ¬ HaveCopyArea (s.fb (s.context context).draw_fb).todglPixelBuffer →
      0 ≤ sx → sx + w ≤ (s.fb (s.context context).draw_fb).xres →
      0 ≤ sy + (s.context context).read_yoffset →
      sy + (s.context context).read_yoffset + h ≤ rows →
      (∀ acc ∈ dglCopyAreaAccesses s context sx sy dx dy w h,
        AccessInStorage (s.fb (s.context context).draw_fb).todglPixelBuffer acc) ∧
      (sy + (s.context context).read_yoffset < dy + (s.context context).draw_yoffset →
        ¬ (w * (s.fb (s.context context).draw_fb).bytes_per_pixel
            = (s.fb (s.context context).draw_fb).stride ∧
          dy + (s.context context).draw_yoffset
            ≥ sy + (s.context context).read_yoffset + h) →
        ∀ acc ∈ dglCopyAreaAccesses s context sx sy dx dy w h,
          ∃ j : Int, 0 ≤ j ∧ j < h ∧
            (acc = ⟨pixelAddr (s.fb (s.context context).draw_fb).todglPixelBuffer sx
                (sy + (s.context context).read_yoffset + j),
              w * (s.fb (s.context context).draw_fb).bytes_per_pixel⟩ ∨
            acc = ⟨pixelAddr (s.fb (s.context context).draw_fb).todglPixelBuffer dx
                (dy + (s.context context).draw_yoffset + j),
              w * (s.fb (s.context context).draw_fb).bytes_per_pixel⟩))) ∧
    (((s.fb (s.context context).draw_fb).bytes_per_pixel = 4 ∨
        (s.fb (s.context context).draw_fb).bytes_per_pixel = 2) →
      ∀ acc ∈ dglFillAccesses s context dx dy w h,
        AccessInStorage (s.fb (s.context context).draw_fb).todglPixelBuffer acc) := by
  have hdst := rectInside_of_rows _ dx (dy + (s.context context).draw_yoffset) w h rows hwf
    hrows hw hdx0 hdx1 hdy0 hdy1
  have hD := rect_accesses_in_storage _ dx (dy + (s.context context).draw_yoffset) w h hwf
    hdst hw
  constructor
  · intro hsame hflag hsx0 hsx1 hsy0 hsy1
    have hsrc := rectInside_of_rows _ sx (sy + (s.context context).read_yoffset) w h rows hwf
      hrows hw hsx0 hsx1 hsy0 hsy1
    have hS := rect_accesses_in_storage _ sx (sy + (s.context context).read_yoffset) w h hwf
      hsrc hw
    rw [dglCopyAreaAccesses_software s context sx sy dx dy w h hw hh hsame hflag]
    constructor
    · intro acc hm
      rcases dglCopyAreaSimpleAccesses_rows _ _ _ _ _ _ _ hwf.1 hw hh acc hm with
        ⟨hwS, -, rfl | rfl⟩ | ⟨j, hj0, hj1, rfl | rfl⟩
      · exact hS.2 hwS
      · exact hD.2 hwS
      · exact hS.1 j hj0 hj1
      · exact hD.1 j hj0 hj1
    · intro hup hnb acc hm
      rcases dglCopyAreaSimpleAccesses_rows _ _ _ _ _ _ _ hwf.1 hw hh acc hm with
        ⟨hwS, hv, -⟩ | ⟨j, hj0, hj1, hacc⟩
      · exact absurd ⟨hwS, by omega⟩ hnb
      · refine ⟨j, hj0, hj1, ?_⟩
        rcases hacc with rfl | rfl
        · left
          simp only [Access.mk.injEq, and_true]
          unfold pixelAddr; ring
        · right
          simp only [Access.mk.injEq, and_true]
          unfold pixelAddr; ring
  · intro hbpp acc hm
    have hhcast : ((h.toNat : Nat) : Int) = h := Int.toNat_of_nonneg hh.le
    unfold dglFillAccesses at hm
    rw [if_neg (by omega)] at hm
    dsimp only at hm
    rcases hbpp with h4 | h2
    · rw [if_pos h4] at hm
      obtain ⟨k, hk, hacc⟩ := fillRowsAccesses_mem _ _ _ _ _ _ hm
      have hkh : (k : Int) < h := by rw [← hhcast]; exact_mod_cast hk
      have hb := memset32Accesses_mem acc _ w hw hacc
      have hrow := hD.1 k (Int.natCast_nonneg k) hkh
      simp only [h4] at hb hrow
      intro a ha0 ha1
      exact hrow a (by simp only; omega) (by simp only; omega)
    · rw [if_neg (by omega)] at hm
      obtain ⟨k, hk, hacc⟩ := fillRowsAccesses_mem _ _ _ _ _ _ hm
      have hkh : (k : Int) < h := by rw [← hhcast]; exact_mod_cast hk
      have hb := memset16Accesses_mem acc _ w hw hacc
      have hrow := hD.1 k (Int.natCast_nonneg k) hkh
      simp only [h2] at hb hrow
      intro a ha0 ha1
      exact hrow a (by simp only; omega) (by simp only; omega)

/-- Instance of C35 on the 4x4 RGB565 pixmap (4 rows of 8 bytes): the 2x2
block at the origin copied to `(1, 1)` goes bottom to top, its accesses are the
rows at 8, 18, 0 and 10 (none below the first row), and each lies in the
storage; so does a store of the 2x2 fill at `(1, 1)`. -/
theorem accesses_in_bounds_witness :
    dglCopyAreaAccesses pixmapState 1 0 0 1 1 2 2 = [⟨8, 4⟩, ⟨18, 4⟩, ⟨0, 4⟩, ⟨10, 4⟩] ∧
    AccessInStorage pixmapBuf ⟨0, 4⟩ ∧
    AccessInStorage pixmapBuf ⟨18, 4⟩ ∧
    dglFillAccesses pixmapState 1 1 1 2 2 = [⟨10, 2⟩, ⟨12, 2⟩, ⟨18, 2⟩, ⟨20, 2⟩] ∧
    AccessInStorage pixmapBuf ⟨20, 2⟩ :=
  have H := accesses_in_bounds pixmapState 1 0 0 1 1 2 2 4 (by decide) (by decide)
    (by unfold WellFormed; decide) (by decide) (by decide) (by decide) (by decide)
    (by decide)
  have C := H.1 rfl (by decide) (by decide) (by decide) (by decide) (by decide)
  ⟨by decide, C.1 ⟨0, 4⟩ (by decide), C.1 ⟨18, 4⟩ (by decide), by decide,
   H.2 (Or.inr (by decide)) ⟨20, 2⟩ (by decide)⟩

end DGL
